import Mathlib

/-!
# nuSQuIDS: a shallow embedding of `src/nuSQUIDS.cpp`

The `nuSQUIDS` object is a record; member functions are functions on that record.
`double` values are idealised as rationals (exact arithmetic), `marray`s and
`std::vector`s are total functions of their indices, and a C++ exception is an
`Outcome.raised` carrying the object as it stood when the exception left the call.

Code of the SQuIDS base library (the `SU_vector` algebra, the ODE integrator, `ini`,
`GetExpectationValue`) is not part of this repository's sources: operations of the
algebra and the integrator are taken as parameters (`SUOps`, `External`).
-/

namespace nusquids

/-! ## Data model -/

/-- Components of a `squids::SU_vector`: the coefficient array, indexed as `v[i]`. Sums and
scalar multiples act componentwise. -/
abbrev SU_vector := Nat → ℚ

/-- The enum `NeutrinoType`; `invalid code` is a value of the underlying integer type that is
none of the three enumerators (the result of a cast from a stored integer). -/
inductive NeutrinoType where
  | neutrino
  | antineutrino
  | both
  | invalid (code : Int)
  deriving DecidableEq, Repr

/-- The enum `Basis`. -/
inductive Basis where
  | mass
  | interaction
  | flavor
  deriving DecidableEq, Repr

/-- Result of a member function that may throw: `ok s` is a normal return with the object `s`;
`raised msg s` is a `throw` of `msg`, with `s` the object at the moment of the throw. -/
inductive Outcome (σ : Type) where
  | ok (s : σ)
  | raised (msg : String) (s : σ)

/-- Sequencing of two calls: the second runs only when the first returned. -/
def Outcome.andThen {σ : Type} (o : Outcome σ) (f : σ → Outcome σ) : Outcome σ :=
  match o with
  | .ok s => f s
  | .raised msg s => .raised msg s

/-- Whether the call threw. -/
def Outcome.isRaised {σ : Type} : Outcome σ → Bool
  | .ok _ => false
  | .raised _ _ => true

/-- The object after the call, thrown or not. -/
def Outcome.obj {σ : Type} : Outcome σ → σ
  | .ok s => s
  | .raised _ s => s

/-- A `for (i = lo; i < lo + n; i++)` loop whose body may throw. -/
def loopFrom {σ : Type} (body : Nat → σ → Outcome σ) : Nat → Nat → σ → Outcome σ
  | _, 0, s => .ok s
  | i, n + 1, s =>
    match body i s with
    | .ok s1 => loopFrom body (i + 1) n s1
    | .raised msg s1 => .raised msg s1

/-- The loop `for (unsigned i = lo; i < hi; i++) body`, body may throw. -/
def forLoop {σ : Type} (lo hi : Nat) (body : Nat → σ → Outcome σ) (s : σ) : Outcome σ :=
  loopFrom body lo (hi - lo) s

/-- A `for (i = lo; i < lo + n; i++)` loop whose body cannot throw. -/
def iterFrom {σ : Type} (body : Nat → σ → σ) : Nat → Nat → σ → σ
  | _, 0, s => s
  | i, n + 1, s => iterFrom body (i + 1) n (body i s)

/-- The loop `for (unsigned i = lo; i < hi; i++) body`, body cannot throw. -/
def forEach {σ : Type} (lo hi : Nat) (body : Nat → σ → σ) (s : σ) : σ :=
  iterFrom body lo (hi - lo) s

/-- A one-dimensional `marray<double,1>`: its extent and its entries. -/
structure marray1 where
  extent0 : Nat
  data : Nat → ℚ

/-- A two-dimensional `marray<double,2>`. -/
structure marray2 where
  extent0 : Nat
  extent1 : Nat
  data : Nat → Nat → ℚ

/-- A three-dimensional `marray<double,3>`. -/
structure marray3 where
  extent0 : Nat
  extent1 : Nat
  extent2 : Nat
  data : Nat → Nat → Nat → ℚ

/-- The member `size()` of a rank-1 array. -/
def marray1.size (v : marray1) : Nat := v.extent0

/-- The member `size()` of a rank-2 array. -/
def marray2.size (v : marray2) : Nat := v.extent0 * v.extent1

/-- The member `size()` of a rank-3 array. -/
def marray3.size (v : marray3) : Nat := v.extent0 * v.extent1 * v.extent2

/-- Modelled from the spec: `squids::Const` (the member `params`) is base-library code; it is
taken as plain storage of the mixing angles, CP phases and energy differences, with the unit
constants the source reads from it. -/
structure Const where
  th : Nat → Nat → ℚ
  delta : Nat → Nat → ℚ
  de : Nat → ℚ
  GeV : ℚ
  MeV : ℚ
  sec : ℚ
  km : ℚ
  cm : ℚ
  gr : ℚ
  Na : ℚ
  GF : ℚ
  sqrt2 : ℚ
  proton_mass : ℚ
  neutron_mass : ℚ

/-- The setter `params.SetMixingAngle(i,j,val)`. -/
def Const.SetMixingAngle (p : Const) (i j : Nat) (val : ℚ) : Const :=
  { p with th := fun a b => if a = i ∧ b = j then val else p.th a b }

/-- The getter `params.GetMixingAngle(i,j)`. -/
def Const.GetMixingAngle (p : Const) (i j : Nat) : ℚ := p.th i j

/-- The setter `params.SetPhase(i,j,val)`. -/
def Const.SetPhase (p : Const) (i j : Nat) (val : ℚ) : Const :=
  { p with delta := fun a b => if a = i ∧ b = j then val else p.delta a b }

/-- The getter `params.GetPhase(i,j)`. -/
def Const.GetPhase (p : Const) (i j : Nat) : ℚ := p.delta i j

/-- The setter `params.SetEnergyDifference(i,val)`. -/
def Const.SetEnergyDifference (p : Const) (i : Nat) (val : ℚ) : Const :=
  { p with de := fun a => if a = i then val else p.de a }

/-- The getter `params.GetEnergyDifference(i)`. -/
def Const.GetEnergyDifference (p : Const) (i : Nat) : ℚ := p.de i

/-- A trajectory: current position, its two ends, and its parameter vector. -/
structure Track where
  x : ℚ
  xini : ℚ
  xend : ℚ
  params : List ℚ

/-- The member `track->SetX(x)`. -/
def Track.SetX (tr : Track) (x : ℚ) : Track := { tr with x := x }

/-- The member `track->GetInitialX()`. -/
def Track.GetInitialX (tr : Track) : ℚ := tr.xini

/-- The member `track->GetFinalX()`. -/
def Track.GetFinalX (tr : Track) : ℚ := tr.xend

/-- The member `track->GetX()`. -/
def Track.GetX (tr : Track) : ℚ := tr.x

/-- A medium: its identifying tag, name and parameter vector. -/
structure Body where
  id : Nat
  name : String
  params : List ℚ

/-- Operations of the `SU_vector` algebra that the source calls and the repository does not
define: the scalar product `a*b`, `op.Evolve(H,t)`, `v.RotateToB1(params)`,
`SU_vector::Projector(dim,i)` and `ACommutator(a,b)`. -/
structure SUOps where
  inner : SU_vector → SU_vector → ℚ
  Evolve : SU_vector → SU_vector → ℚ → SU_vector
  RotateToB1 : Const → SU_vector → SU_vector
  Projector : Nat → Nat → SU_vector
  ACommutator : SU_vector → SU_vector → SU_vector

/-- The `nuSQUIDS` object: the members of the class and the members of the `SQuIDS` base class
that the source reads or writes. `rho ie r` is `state[ie].rho[r]`, `scalar ie r` is
`state[ie].scalar[r]`, `body` and `track` are the two shared handles (`none` is a null handle).
`evolve_log` is ghost: the path lengths passed to `Evolve`, most recent first. -/
structure NuSQUIDS where
  basis : Basis
  numneu : Nat
  ne : Nat
  nsun : Nat
  nrhos : Nat
  nscalars : Nat
  NT : NeutrinoType
  params : Const
  E_range : marray1
  delE : marray1
  x : Nat → ℚ
  t : ℚ
  t_ini : ℚ
  time_offset : ℚ
  rho : Nat → Nat → SU_vector
  scalar : Nat → Nat → ℚ
  state_allocated : Bool
  dNdE_CC : Nat → Nat → Nat → Nat → ℚ
  dNdE_NC : Nat → Nat → Nat → Nat → ℚ
  invlen_NC : Nat → Nat → Nat → ℚ
  invlen_CC : Nat → Nat → Nat → ℚ
  invlen_INT : Nat → Nat → Nat → ℚ
  sigma_CC : Nat → Nat → Nat → ℚ
  sigma_NC : Nat → Nat → Nat → ℚ
  invlen_tau : Nat → ℚ
  dNdE_tau_all : Nat → Nat → ℚ
  dNdE_tau_lep : Nat → Nat → ℚ
  taubr_lep : ℚ
  tau_lifetime : ℚ
  tau_mass : ℚ
  tau_reg_scale : ℚ
  positivization_scale : ℚ
  body : Option Body
  track : Option Track
  DM2 : SU_vector
  H0_array : Nat → SU_vector
  b0_proj : Nat → SU_vector
  b1_proj : Nat → Nat → SU_vector
  evol_b0_proj : Nat → Nat → Nat → SU_vector
  evol_b1_proj : Nat → Nat → Nat → SU_vector
  inusquids : Bool
  ibody : Bool
  ienergy : Bool
  itrack : Bool
  istate : Bool
  iinteraction : Bool
  elogscale : Bool
  tauregeneration : Bool
  positivization : Bool
  progressbar : Bool
  progressbar_count : Nat
  progressbar_loop : Nat
  CoherentRhoTerms : Bool
  NonCoherentRhoTerms : Bool
  OtherRhoTerms : Bool
  GammaScalarTerms : Bool
  OtherScalarTerms : Bool
  evolve_log : List ℚ

/-- What one run of the integrator may write: the state buffer, the integrator time, and what
`PreDerive` writes on each right-hand-side evaluation (track position, evolved projectors,
inverse interaction lengths, progress counter). -/
structure Evolved where
  rho : Nat → Nat → SU_vector
  scalar : Nat → Nat → ℚ
  t : ℚ
  track_x : ℚ
  evol_b1_proj : Nat → Nat → Nat → SU_vector
  invlen_NC : Nat → Nat → Nat → ℚ
  invlen_CC : Nat → Nat → Nat → ℚ
  invlen_INT : Nat → Nat → Nat → ℚ
  progressbar_count : Nat

/-- Collaborators outside the repository: the `SU_vector` algebra, the integrator run behind
`SQuIDS::Evolve(dt)`, the contents of a state buffer freshly allocated by `SQuIDS::ini`, the
grid builders `logspace` / `linspace`, the grid of `Set_xrange(xini,xend,scale)`, the
compile-time constants, the cross-section and tau-decay providers (the `Bool` selects the
charged current), the integer codes of the enum `NeutrinoType`, the constructors of the body
and track classes, and `uninit k`, the contents of the `k`-th local array that is declared
without an initialiser. -/
structure External extends SUOps where
  integrate : ℚ → NuSQUIDS → Evolved
  fresh_rho : Nat → Nat → SU_vector
  fresh_scalar : Nat → Nat → ℚ
  logspace : ℚ → ℚ → Nat → marray1
  linspace : ℚ → ℚ → Nat → marray1
  xgrid : ℚ → ℚ → Bool → Nat → Nat → ℚ
  SQUIDS_MAX_HILBERT_DIM : Nat
  SQUIDS_VERSION : Nat
  NUSQUIDS_VERSION : Nat
  FixCrossSections : Bool
  TotalCrossSection : ℚ → Nat → NeutrinoType → Bool → ℚ
  DifferentialCrossSection : ℚ → ℚ → Nat → NeutrinoType → Bool → ℚ
  dNdEnu_All : Nat → Nat → ℚ
  dNdEnu_Lep : Nat → Nat → ℚ
  nt_code : NeutrinoType → Int
  nt_of_code : Int → NeutrinoType
  makeBody : Nat → List ℚ → Body
  makeTrack : Nat → List ℚ → Track
  uninit : Nat → Nat → ℚ

/-! ## Parameter setters and getters -/

/-- The member `Set_MixingAngle(i,j,val)`. -/
def Set_MixingAngle (i j : Nat) (val : ℚ) (s : NuSQUIDS) : Outcome NuSQUIDS :=
  if i > s.numneu ∨ j > s.numneu then
    .raised "nuSQUIDS::Set_MixingAngle::Error: Mixing angle index greater than number of neutrino flavors." s
  else .ok { s with params := s.params.SetMixingAngle i j val, istate := false }

/-- The member `Get_MixingAngle(i,j)`. -/
def Get_MixingAngle (i j : Nat) (s : NuSQUIDS) : Except String ℚ :=
  if i > s.numneu ∨ j > s.numneu then
    .error "nuSQUIDS::Set_MixingAngle::Error: Mixing angle index greater than number of neutrino flavors."
  else .ok (s.params.GetMixingAngle i j)

/-- The member `Set_CPPhase(i,j,val)`. -/
def Set_CPPhase (i j : Nat) (val : ℚ) (s : NuSQUIDS) : Outcome NuSQUIDS :=
  if i > s.numneu ∨ j > s.numneu then
    .raised "nuSQUIDS::Set_CPPhase::Error: CP phase index greater than number of neutrino flavors." s
  else .ok { s with params := s.params.SetPhase i j val, istate := false }

/-- The member `Get_CPPhase(i,j)`. -/
def Get_CPPhase (i j : Nat) (s : NuSQUIDS) : Except String ℚ :=
  if i > s.numneu ∨ j > s.numneu then
    .error "nuSQUIDS::Set_CPPhase::Error: CP phase index greater than number of neutrino flavors."
  else .ok (s.params.GetPhase i j)

/-- The member `Set_SquareMassDifference(i,val)`. -/
def Set_SquareMassDifference (i : Nat) (val : ℚ) (s : NuSQUIDS) : Outcome NuSQUIDS :=
  if i > s.numneu then
    .raised "nuSQUIDS::Set_SquareMassDifference::Error: Inder greater than number of neutrino flavors." s
  else .ok { s with params := s.params.SetEnergyDifference i val, istate := false }

/-- The member `Get_SquareMassDifference(i)`. -/
def Get_SquareMassDifference (i : Nat) (s : NuSQUIDS) : Except String ℚ :=
  if i > s.numneu then
    .error "nuSQUIDS::Set_SquareMassDifference::Error: Inder greater than number of neutrino flavors."
  else .ok (s.params.GetEnergyDifference i)

/-- The member `Set_MixingParametersToDefault()`: six setter calls in source order. -/
def Set_MixingParametersToDefault (s : NuSQUIDS) : Outcome NuSQUIDS :=
  (((((Set_MixingAngle 0 1 (583996 / 1000000) s).andThen
    (Set_MixingAngle 0 2 (148190 / 1000000))).andThen
    (Set_MixingAngle 1 2 (737324 / 1000000))).andThen
    (Set_SquareMassDifference 1 (75 / 1000000))).andThen
    (Set_SquareMassDifference 2 (257 / 100000))).andThen
    (Set_CPPhase 0 2 0)

/-- The member `AntineutrinoCPFix(rho)`: `Set_CPPhase(i,j,-Get_CPPhase(i,j))` for `i < j < numneu`
when the channel is an antineutrino channel. The getter and the setter may throw, so the loops
are loops that may throw. -/
def AntineutrinoCPFix (rho : Nat) (s : NuSQUIDS) : Outcome NuSQUIDS :=
  if s.NT = .antineutrino ∨ (s.NT = .both ∧ rho = 1) then
    forLoop 0 s.numneu (fun i s1 =>
      forLoop (i + 1) s1.numneu (fun j s2 =>
        match Get_CPPhase i j s2 with
        | .ok d => Set_CPPhase i j (-d) s2
        | .error msg => .raised msg s2) s1) s
  else .ok s

/-! ## Projectors and the vacuum Hamiltonian -/

/-- Assignment `state[ie].rho[r] = val`. -/
def setRho (ie r : Nat) (val : SU_vector) (s : NuSQUIDS) : NuSQUIDS :=
  { s with rho := fun a b => if a = ie ∧ b = r then val else s.rho a b }

/-- Assignment `state[ie].scalar[r] = val`. -/
def setScalar (ie r : Nat) (val : ℚ) (s : NuSQUIDS) : NuSQUIDS :=
  { s with scalar := fun a b => if a = ie ∧ b = r then val else s.scalar a b }

/-- Assignment `b1_proj[rho][flv] = val`. -/
def setB1 (rho flv : Nat) (val : SU_vector) (s : NuSQUIDS) : NuSQUIDS :=
  { s with b1_proj := fun a b => if a = rho ∧ b = flv then val else s.b1_proj a b }

/-- Assignment `evol_b1_proj[rho][flv][e] = val`. -/
def setEvolB1 (rho flv e : Nat) (val : SU_vector) (s : NuSQUIDS) : NuSQUIDS :=
  { s with evol_b1_proj := fun a b c => if a = rho ∧ b = flv ∧ c = e then val else s.evol_b1_proj a b c }

/-- Assignment `evol_b0_proj[rho][flv][e] = val`. -/
def setEvolB0 (rho flv e : Nat) (val : SU_vector) (s : NuSQUIDS) : NuSQUIDS :=
  { s with evol_b0_proj := fun a b c => if a = rho ∧ b = flv ∧ c = e then val else s.evol_b0_proj a b c }

/-- The member `H0(Enu, irho)`: `DM2*(0.5/Enu)`. -/
def H0 (s : NuSQUIDS) (Enu : ℚ) (_irho : Nat) : SU_vector :=
  ((1 / 2) / Enu) • s.DM2

/-- The member `iniH0()`. -/
def iniH0 (s : NuSQUIDS) : NuSQUIDS :=
  let s1 : NuSQUIDS := { s with DM2 := 0 }
  let s2 := forEach 1 s1.nsun (fun i (a : NuSQUIDS) =>
    { a with DM2 := a.DM2 + (a.params.GetEnergyDifference i) • a.b0_proj i }) s1
  if s2.ienergy then
    forEach 0 s2.ne (fun ei (a : NuSQUIDS) =>
      { a with H0_array := fun k => if k = ei then H0 a (a.E_range.data ei) 0 else a.H0_array k }) s2
  else s2

/-- The three statements `AntineutrinoCPFix(rho); v.RotateToB1(params); AntineutrinoCPFix(rho);`
applied to the vector that `get` reads and `put` writes. -/
def rotateWithCPFix (ops : SUOps) (rho : Nat) (get : NuSQUIDS → SU_vector)
    (put : SU_vector → NuSQUIDS → NuSQUIDS) (s : NuSQUIDS) : Outcome NuSQUIDS :=
  (AntineutrinoCPFix rho s).andThen (fun s1 =>
    AntineutrinoCPFix rho (put (ops.RotateToB1 s1.params (get s1)) s1))

/-- The member `iniProjectors()`. -/
def iniProjectors (ops : SUOps) (s : NuSQUIDS) : Outcome NuSQUIDS :=
  let s1 := forEach 0 s.numneu (fun flv (a : NuSQUIDS) =>
    { a with b0_proj := fun k => if k = flv then ops.Projector a.nsun flv else a.b0_proj k }) s
  (forLoop 0 s1.nrhos (fun rho a =>
    forLoop 0 a.numneu (fun flv b =>
      rotateWithCPFix ops rho (fun c => c.b1_proj rho flv) (setB1 rho flv)
        (setB1 rho flv (ops.Projector b.nsun flv) b)) a) s1).andThen (fun s2 =>
  forLoop 0 s2.nrhos (fun rho a =>
    forLoop 0 a.numneu (fun flv b =>
      forLoop 0 b.ne (fun e1 c =>
        rotateWithCPFix ops rho (fun d => d.evol_b1_proj rho flv e1) (setEvolB1 rho flv e1)
          (setEvolB1 rho flv e1 (ops.Projector c.nsun flv)
            (setEvolB0 rho flv e1 (ops.Projector c.nsun flv) c))) b) a) s2)

/-- The member `SetIniFlavorProyectors()`. -/
def SetIniFlavorProyectors (ops : SUOps) (s : NuSQUIDS) : Outcome NuSQUIDS :=
  forLoop 0 s.nrhos (fun rho a =>
    forLoop 0 a.numneu (fun flv b =>
      (forLoop 0 b.ne (fun e1 c =>
        rotateWithCPFix ops rho (fun d => d.evol_b1_proj rho flv e1) (setEvolB1 rho flv e1)
          (setEvolB1 rho flv e1 (c.b0_proj flv) c)) b).andThen (fun b1 =>
      rotateWithCPFix ops rho (fun d => d.b1_proj rho flv) (setB1 rho flv)
        (setB1 rho flv (b1.b0_proj flv) b1))) a) s

/-- The member `EvolveProjectors(x)`. -/
def EvolveProjectors (ops : SUOps) (x : ℚ) (s : NuSQUIDS) : NuSQUIDS :=
  forEach 0 s.nrhos (fun rho a =>
    forEach 0 a.numneu (fun flv b =>
      forEach 0 b.ne (fun ei c =>
        setEvolB1 rho flv ei (ops.Evolve (c.b1_proj rho flv) (c.H0_array ei) (x - c.t_ini)) c) b) a) s

/-! ## The state buffer -/

/-- Modelled from the spec: `SQuIDS::ini(n,nsu,nrh,ns,ti)` is base-library code. It records the
dimensions, sets both the initial and the current integrator time to `ti`, and allocates a new
state buffer (whose contents are whatever the allocation holds). -/
def ini (ext : External) (_n nsu nrh ns : Nat) (ti : ℚ) (s : NuSQUIDS) : NuSQUIDS :=
  { s with nsun := nsu, nrhos := nrh, nscalars := ns, t := ti, t_ini := ti,
           rho := ext.fresh_rho, scalar := ext.fresh_scalar, state_allocated := true }

/-- The member `SetScalarsToZero()`. -/
def SetScalarsToZero (s : NuSQUIDS) : NuSQUIDS :=
  forEach 0 s.nscalars (fun rho a =>
    forEach 0 a.ne (fun e1 b => setScalar e1 rho 0 b) a) s

/-- The track behind the handle. `Set_Track` dereferences the handle before it sets `itrack`, so
a handle vouched for by `itrack` is not null. -/
def trackOf (s : NuSQUIDS) : Track :=
  s.track.getD { x := 0, xini := 0, xend := 0, params := [] }

/-- The statement `track->SetX(x)` through the shared handle. -/
def trackSetX (x : ℚ) (s : NuSQUIDS) : NuSQUIDS :=
  { s with track := s.track.map (fun tr => tr.SetX x) }

/-- The first four statements after the guards of the three overloads: the rewind of the track,
`ini`, `Set_xrange` and the zero time offset. (The third overload sets the time offset before
`Set_xrange`; the two statements write different members.) -/
def rewindAndAllocate (ext : External) (s : NuSQUIDS) : NuSQUIDS :=
  let s1 := trackSetX (trackOf s).GetInitialX s
  let s2 := ini ext s1.ne s1.numneu s1.nrhos s1.nscalars (trackOf s1).GetInitialX s1
  let s3 : NuSQUIDS := { s2 with x := s2.E_range.data }
  { s3 with time_offset := 0 }

/-- The part common to the three overloads between the guards and the filling loop:
`rewindAndAllocate`, then the projectors and `iniH0`. -/
def resetForInitialState (ext : External) (s : NuSQUIDS) : Outcome NuSQUIDS :=
  (SetIniFlavorProyectors ext.toSUOps (rewindAndAllocate ext s)).andThen
    (fun s5 => .ok (iniH0 s5))

/-- The filling loop of the overloads: `state[i].rho[r] = 0.0*b0_proj[0]` followed by
`state[i].rho[r] += v(i,r,j)*P[j]` for `j < n`, with `P` the flavor projectors of channel `r`
for basis `flavor` and the mass projectors for basis `mass`. -/
def fillState (basis : Basis) (n : Nat) (v : Nat → Nat → Nat → ℚ) (s : NuSQUIDS) : NuSQUIDS :=
  forEach 0 s.ne (fun i a =>
    forEach 0 a.nrhos (fun r b =>
      if basis = .flavor then
        forEach 0 n (fun j c => setRho i r (c.rho i r + v i r j • c.b1_proj r j) c)
          (setRho i r ((0 : ℚ) • b.b0_proj 0) b)
      else if basis = .mass then
        forEach 0 n (fun j c => setRho i r (c.rho i r + v i r j • c.b0_proj j) c)
          (setRho i r ((0 : ℚ) • b.b0_proj 0) b)
      else b) a) s

/-- The tail of the overloads: `if(nscalars) SetScalarsToZero(); istate = true;`. -/
def finishInitialState (s : NuSQUIDS) : NuSQUIDS :=
  let s1 := if s.nscalars ≠ 0 then SetScalarsToZero s else s
  { s1 with istate := true }

/-- The overload `Set_initial_state(const marray<double,1>& v, Basis basis)`. -/
def Set_initial_state1 (ext : External) (v : marray1) (basis : Basis) (s : NuSQUIDS) :
    Outcome NuSQUIDS :=
  if v.size = 0 then .raised "nuSQUIDS::Error:Null size input array." s
  else if v.extent0 ≠ s.numneu then
    .raised "nuSQUIDS::Error::Initial state size not compatible with number of flavors." s
  else if ¬ (basis = .flavor ∨ basis = .mass) then
    .raised "nuSQUIDS::Error::BASIS can be: flavor or mass." s
  else if s.NT = .both then
    .raised "nuSQUIDS::Error::Only supplied neutrino/antineutrino initial state, but set to both." s
  else if s.ne ≠ 1 then
    .raised "nuSQUIDS::Error::nuSQUIDS initialized in multienergy mode, while state is only single energy." s
  else if (!s.itrack || !s.ibody) then
    .raised "nuSQUIDS::Error::Body and Trayectory must be specified before setting the initial state." s
  else if !s.ienergy then
    .raised "nuSQUIDS::Error::Energy needs to be set before state." s
  else
    (resetForInitialState ext s).andThen (fun s1 =>
      .ok (finishInitialState (fillState basis v.extent0 (fun _ _ j => v.data j) s1)))

/-- The overload `Set_initial_state(const marray<double,2>& v, Basis basis)`. -/
def Set_initial_state2 (ext : External) (v : marray2) (basis : Basis) (s : NuSQUIDS) :
    Outcome NuSQUIDS :=
  if v.size = 0 then .raised "nuSQUIDS::Error:Null size input array." s
  else if v.extent0 ≠ s.ne then
    .raised "nuSQUIDS::Error:Input vector with wrong dimensions." s
  else if v.extent1 ≠ s.numneu then
    .raised "nuSQUIDS::Error:Input vector with wrong dimensions." s
  else if ¬ (basis = .flavor ∨ basis = .mass) then
    .raised "nuSQUIDS::Error::BASIS can be : flavor or mass." s
  else if s.NT = .both then
    .raised "nuSQUIDS::Error::Only supplied neutrino/antineutrino initial state, but set to both." s
  else if (!s.itrack || !s.ibody) then
    .raised "nuSQUIDS::Error::Body and Trayectory must be specified before setting the initial state." s
  else if !s.ienergy then
    .raised "nuSQUIDS::Error::Energy needs to be set before state." s
  else
    (resetForInitialState ext s).andThen (fun s1 =>
      .ok (finishInitialState (fillState basis s1.numneu (fun i _ j => v.data i j) s1)))

/-- The overload `Set_initial_state(const marray<double,3>& v, Basis basis)`. -/
def Set_initial_state3 (ext : External) (v : marray3) (basis : Basis) (s : NuSQUIDS) :
    Outcome NuSQUIDS :=
  if v.size = 0 then .raised "nuSQUIDS::Error:Null size input array." s
  else if v.extent0 ≠ s.ne then
    .raised "nuSQUIDS::Error:Input vector with wrong dimensions." s
  else if v.extent1 ≠ s.nrhos then
    .raised "nuSQUIDS::Error:Input vector with wrong dimensions." s
  else if v.extent2 ≠ s.numneu then
    .raised "nuSQUIDS::Error:Input vector with wrong dimensions." s
  else if ¬ (basis = .flavor ∨ basis = .mass) then
    .raised "nuSQUIDS::Error::BASIS can be : flavor or mass." s
  else if s.NT ≠ .both then
    .raised "nuSQUIDS::Error::Supplied neutrino and antineutrino initial state, but not set to both." s
  else if (!s.itrack || !s.ibody) then
    .raised "nuSQUIDS::Error::Body and Trayectory must be specified before setting the initial state." s
  else if !s.ienergy then
    .raised "nuSQUIDS::Error::Energy needs to be set before state." s
  else
    (resetForInitialState ext s).andThen (fun s1 =>
      .ok (finishInitialState (fillState basis s1.numneu (fun i r j => v.data i r j) s1)))

/-! ## Evaluation -/

/-- Modelled from the spec: `SQuIDS::GetExpectationValue(op, nrh, i)` is base-library code. It is
the scalar product of `state[i].rho[nrh]` with `op` evolved under `H0(x[i], nrh)` over the
elapsed integrator time `t - t_ini`. -/
def GetExpectationValue (ops : SUOps) (s : NuSQUIDS) (op : SU_vector) (nrh i : Nat) : ℚ :=
  ops.inner (s.rho i nrh) (ops.Evolve op (H0 s (s.x i) nrh) (s.t - s.t_ini))

/-- The member `EvalMassAtNode(flv, ei, rho)`. -/
def EvalMassAtNode (ops : SUOps) (s : NuSQUIDS) (flv ei rho : Nat) : Except String ℚ :=
  if !s.ienergy then .error "nuSQUIDS::Error::Energy not set."
  else if rho ≠ 0 ∧ s.NT ≠ .both then
    .error "nuSQUIDS::Error::Cannot evaluate rho != 0 in this NT mode."
  else if s.basis = .mass then .ok (ops.inner (s.b0_proj flv) (s.rho ei rho))
  else .ok (GetExpectationValue ops s (s.b0_proj flv) rho ei)

/-- The member `EvalFlavorAtNode(flv, ei, rho)`. -/
def EvalFlavorAtNode (ops : SUOps) (s : NuSQUIDS) (flv ei rho : Nat) : Except String ℚ :=
  if !s.ienergy then .error "nuSQUIDS::Error::Energy not set."
  else if rho ≠ 0 ∧ s.NT ≠ .both then
    .error "nuSQUIDS::Error::Cannot evaluate rho != 0 in this NT mode."
  else if s.basis = .mass then .ok (ops.inner (s.b1_proj rho flv) (s.rho ei rho))
  else .ok (GetExpectationValue ops s (s.b1_proj rho flv) rho ei)

/-- The single-energy member `EvalMass(flv)`. -/
def EvalMass (ops : SUOps) (s : NuSQUIDS) (flv : Nat) : Except String ℚ :=
  if !s.state_allocated then .error "nuSQUIDS::Error::State not initialized."
  else if !s.inusquids then .error "nuSQUIDS::Error::nuSQUIDS not initialized."
  else if !s.ienergy then .error "nuSQUIDS::Error::Energy not set."
  else if s.ne ≠ 1 then .error "nuSQUIDS::Error::Use this function only in single energy mode."
  else if flv ≥ s.nsun then
    .error "nuSQUIDS::Error::Flavor index greater than number of initialized flavors."
  else if s.basis = .mass then .ok (ops.inner (s.b0_proj flv) (s.rho 0 0))
  else .ok (GetExpectationValue ops s (s.b0_proj flv) 0 0)

/-- The single-energy member `EvalFlavor(flv)`. -/
def EvalFlavor (ops : SUOps) (s : NuSQUIDS) (flv : Nat) : Except String ℚ :=
  if !s.state_allocated then .error "nuSQUIDS::Error::State not initialized."
  else if !s.inusquids then .error "nuSQUIDS::Error::nuSQUIDS not initialized."
  else if !s.ienergy then .error "nuSQUIDS::Error::Energy not set."
  else if s.ne ≠ 1 then .error "nuSQUIDS::Error::Use this function only in single energy mode."
  else if flv ≥ s.nsun then
    .error "nuSQUIDS::Error::Flavor index greater than number of initialized flavors."
  else if s.basis = .mass then .ok (ops.inner (s.b1_proj 0 flv) (s.rho 0 0))
  else .ok (GetExpectationValue ops s (s.b1_proj 0 flv) 0 0)

/-! ## Body, track, energy and option setters -/

/-- The member `Set_Body(body_in)`. -/
def Set_Body (body_in : Option Body) (s : NuSQUIDS) : NuSQUIDS :=
  { s with body := body_in, ibody := true }

/-- The member `Set_Track(track_in)`: the time offset, the rewind of the track, the handle.
The source dereferences `track_in`; the call is modelled for a handle that is not null. -/
def Set_Track (track_in : Track) (s : NuSQUIDS) : NuSQUIDS :=
  { s with time_offset := s.t - track_in.GetInitialX,
           track := some (track_in.SetX track_in.GetInitialX),
           itrack := true }

/-- The member `Set_E(Enu)`. -/
def Set_E (Enu : ℚ) (s : NuSQUIDS) : Outcome NuSQUIDS :=
  if s.ne ≠ 1 then .raised "nuSQUIDS::Error:Cannot use Set_E in single energy mode." s
  else .ok { s with E_range := { extent0 := 1, data := fun k => if k = 0 then Enu else 0 },
                    x := fun k => if k = 0 then Enu else 0,
                    ienergy := true, istate := false }

/-- The member `Set_PositivityConstrain(opt)`. -/
def Set_PositivityConstrain (opt : Bool) (s : NuSQUIDS) : NuSQUIDS :=
  { s with positivization := opt }

/-- The member `Set_PositivityConstrainStep(step)`. -/
def Set_PositivityConstrainStep (step : ℚ) (s : NuSQUIDS) : NuSQUIDS :=
  { s with positivization_scale := step }

/-- The member `Set_TauRegeneration(opt)`. -/
def Set_TauRegeneration (opt : Bool) (s : NuSQUIDS) : Outcome NuSQUIDS :=
  if s.NT ≠ .both ∧ opt then
    .raised "nuSQUIDS::Error::Cannot set TauRegeneration to True when NT != 'both'." s
  else .ok { s with tauregeneration := opt }

/-- The member `Set_Basis(b)`. -/
def Set_Basis (b : Basis) (s : NuSQUIDS) : Outcome NuSQUIDS :=
  if b = .flavor then
    .raised "nuSQUIDS::Set_Basis::Error: solution basis can only be nuSQUIDS::mass or nuSQUIDS::interaction." s
  else .ok { s with basis := b }

/-! ## The evolution driver -/

/-- The member `PositivizeFlavors()`. `EvalFlavorAtNode` may throw, so may the loops. -/
def PositivizeFlavors (ops : SUOps) (s : NuSQUIDS) : Outcome NuSQUIDS :=
  forLoop 0 s.nrhos (fun rho a =>
    forLoop 0 a.ne (fun ie b =>
      forLoop 0 b.numneu (fun flv c =>
        match EvalFlavorAtNode ops c flv ie rho with
        | .error msg => .raised msg c
        | .ok quantity =>
          if quantity < 0 then
            .ok (setRho ie rho (c.rho ie rho - quantity • c.evol_b1_proj rho flv ie) c)
          else .ok c) b) a) s

/-- Modelled from the spec: `SQuIDS::Evolve(dt)` is base-library code. One run of the integrator
over the path length `dt`: the object takes over what the run wrote, every other member is left
alone. The ghost log records `dt`. -/
def Evolve (ext : External) (dt : ℚ) (s : NuSQUIDS) : NuSQUIDS :=
  let r := ext.integrate dt s
  { s with rho := r.rho, scalar := r.scalar, t := r.t,
           track := s.track.map (fun tr => tr.SetX r.track_x),
           evol_b1_proj := r.evol_b1_proj,
           invlen_NC := r.invlen_NC, invlen_CC := r.invlen_CC, invlen_INT := r.invlen_INT,
           progressbar_count := r.progressbar_count,
           evolve_log := dt :: s.evolve_log }

/-- The conversion `static_cast<int>(q)` of a `double`: truncation toward zero. -/
def castInt (q : ℚ) : Int := Int.tdiv q.num q.den

/-- The four accumulators of one pass of the inner loop of `ConvertTauIntoNuTau`. -/
structure TauSums where
  tau_neu_all : ℚ
  tau_neu_lep : ℚ
  tau_aneu_all : ℚ
  tau_aneu_lep : ℚ

/-- The inner loop of `ConvertTauIntoNuTau` for the node `e1`. -/
def tauSums (s : NuSQUIDS) (e1 : Nat) : TauSums :=
  forEach (e1 + 1) s.ne (fun e2 acc =>
    { tau_neu_all := acc.tau_neu_all + s.dNdE_tau_all e2 e1 * s.delE.data e2 * s.scalar e2 0,
      tau_neu_lep := acc.tau_neu_lep + s.dNdE_tau_lep e2 e1 * s.delE.data e2 * s.scalar e2 0,
      tau_aneu_all := acc.tau_aneu_all + s.dNdE_tau_all e2 e1 * s.delE.data e2 * s.scalar e2 1,
      tau_aneu_lep := acc.tau_aneu_lep + s.dNdE_tau_lep e2 e1 * s.delE.data e2 * s.scalar e2 1 })
    { tau_neu_all := 0, tau_neu_lep := 0, tau_aneu_all := 0, tau_aneu_lep := 0 }

/-- The member `ConvertTauIntoNuTau()`. -/
def ConvertTauIntoNuTau (s : NuSQUIDS) : NuSQUIDS :=
  SetScalarsToZero
    (forEach 0 s.ne (fun e1 a =>
      let sums := tauSums a e1
      let a1 := setRho e1 0 (a.rho e1 0 +
        (sums.tau_neu_all • a.evol_b1_proj 0 2 e1 +
         sums.tau_aneu_lep • a.evol_b1_proj 0 0 e1 +
         sums.tau_aneu_lep • a.evol_b1_proj 0 1 e1)) a
      setRho e1 1 (a1.rho e1 1 +
        (sums.tau_aneu_all • a1.evol_b1_proj 1 2 e1 +
         sums.tau_neu_lep • a1.evol_b1_proj 1 0 e1 +
         sums.tau_neu_lep • a1.evol_b1_proj 1 1 e1)) a1) s)

/-- The statement `if(positivization) PositivizeFlavors();`. -/
def positivizeIfSet (ops : SUOps) (s : NuSQUIDS) : Outcome NuSQUIDS :=
  if s.positivization then PositivizeFlavors ops s else .ok s

/-- The member `EvolveState()`. -/
def EvolveState (ext : External) (s : NuSQUIDS) : Outcome NuSQUIDS :=
  if s.body.isNone then .raised "nuSQUIDS::Error::BODY is a NULL pointer" s
  else if !s.ibody then .raised "nuSQUIDS::Error::Body not initialized" s
  else if s.track.isNone then .raised "nuSQUIDS::Error::TRACK is a NULL pointer" s
  else if !s.itrack then .raised "nuSQUIDS::Error::TRACK is not initialized" s
  else if !s.istate then .raised "nuSQUIDS::Error::Initial state not initialized" s
  else if !s.ienergy then .raised "nuSQUIDS::Error::Energy not set." s
  else if !s.tauregeneration then
    if s.positivization then
      let positivization_steps : Int :=
        castInt (((trackOf s).GetFinalX - (trackOf s).GetInitialX) / s.positivization_scale)
      (forLoop 0 positivization_steps.toNat (fun _ a =>
        PositivizeFlavors ext.toSUOps (Evolve ext a.positivization_scale a)) s).andThen (fun s1 =>
      PositivizeFlavors ext.toSUOps
        (Evolve ext ((trackOf s1).GetFinalX - s1.positivization_scale * positivization_steps) s1))
    else
      .ok (Evolve ext ((trackOf s).GetFinalX - (trackOf s).GetInitialX) s)
  else
    let scale : ℚ :=
      if s.positivization then min s.tau_reg_scale s.positivization_scale else s.tau_reg_scale
    let tau_steps : Int := castInt (((trackOf s).GetFinalX - (trackOf s).GetInitialX) / scale)
    (forLoop 0 tau_steps.toNat (fun _ a =>
      (positivizeIfSet ext.toSUOps (Evolve ext scale a)).andThen (fun a1 =>
        .ok (ConvertTauIntoNuTau a1))) s).andThen (fun s1 =>
    (positivizeIfSet ext.toSUOps
      (Evolve ext ((trackOf s1).GetFinalX - scale * tau_steps) s1)).andThen (fun s2 =>
        .ok (ConvertTauIntoNuTau s2)))

/-! ## Construction -/

/-- The member `InitializeInteractionVectors()`: eleven `resize` calls. Arrays are total
functions of their indices here, so a change of extents leaves the record as it is. -/
def InitializeInteractionVectors (s : NuSQUIDS) : NuSQUIDS := s

/-- The local map `neutype_xs_dict` of `InitializeInteractions`. -/
def neutype_xs_dict (NT : NeutrinoType) (k : Nat) : NeutrinoType :=
  match NT with
  | .neutrino => .neutrino
  | .antineutrino => .antineutrino
  | _ => if k = 0 then .neutrino else .antineutrino

/-- The object together with the two local arrays of `InitializeInteractions`. -/
structure InteractionsWork where
  self : NuSQUIDS
  dsignudE_CC : Nat → Nat → Nat → Nat → ℚ
  dsignudE_NC : Nat → Nat → Nat → Nat → ℚ

/-- Assignment to one entry of a rank-4 array. -/
def set4 (f : Nat → Nat → Nat → Nat → ℚ) (a b c d : Nat) (val : ℚ) : Nat → Nat → Nat → Nat → ℚ :=
  fun i j k l => if i = a ∧ j = b ∧ k = c ∧ l = d then val else f i j k l

/-- Assignment to one entry of a rank-3 array. -/
def set3 (f : Nat → Nat → Nat → ℚ) (a b c : Nat) (val : ℚ) : Nat → Nat → Nat → ℚ :=
  fun i j k => if i = a ∧ j = b ∧ k = c then val else f i j k

/-- Assignment to one entry of a rank-2 array. -/
def set2 (f : Nat → Nat → ℚ) (a b : Nat) (val : ℚ) : Nat → Nat → ℚ :=
  fun i j => if i = a ∧ j = b then val else f i j

/-- Assignment to one entry of a rank-1 array. -/
def set1 (f : Nat → ℚ) (a : Nat) (val : ℚ) : Nat → ℚ :=
  fun i => if i = a then val else f i

/-- First block of `InitializeInteractions`: the tables of the cross-section provider. -/
def loadCrossSections (ext : External) (w : InteractionsWork) : InteractionsWork :=
  let cm2GeV : ℚ := w.self.params.cm ^ 2 * (w.self.params.GeV)⁻¹
  let cm2 : ℚ := w.self.params.cm ^ 2
  forEach 0 w.self.nrhos (fun neutype w1 =>
    forEach 0 w1.self.numneu (fun flv w2 =>
      forEach 0 w2.self.ne (fun e1 w3 =>
        let w4 := forEach 0 e1 (fun e2 (w5 : InteractionsWork) =>
          { w5 with
            dsignudE_NC := set4 w5.dsignudE_NC neutype flv e1 e2
              (ext.DifferentialCrossSection (w5.self.E_range.data e1) (w5.self.E_range.data e2) flv
                (neutype_xs_dict w5.self.NT neutype) false * cm2GeV),
            dsignudE_CC := set4 w5.dsignudE_CC neutype flv e1 e2
              (ext.DifferentialCrossSection (w5.self.E_range.data e1) (w5.self.E_range.data e2) flv
                (neutype_xs_dict w5.self.NT neutype) true * cm2GeV) }) w3
        { w4 with self :=
          { w4.self with
            sigma_CC := set3 w4.self.sigma_CC neutype flv e1
              (ext.TotalCrossSection (w4.self.E_range.data e1) flv
                (neutype_xs_dict w4.self.NT neutype) true * cm2),
            sigma_NC := set3 w4.self.sigma_NC neutype flv e1
              (ext.TotalCrossSection (w4.self.E_range.data e1) flv
                (neutype_xs_dict w4.self.NT neutype) false * cm2) } }) w2) w1) w

/-- Second block of `InitializeInteractions` (compiled under `FixCrossSections`): the rescaling
of the differential cross sections. -/
def fixCrossSections (w : InteractionsWork) : InteractionsWork :=
  forEach 0 w.self.nrhos (fun neutype w1 =>
    forEach 0 w1.self.numneu (fun flv w2 =>
      let XCC_MIN := w2.self.sigma_CC neutype flv 0
      let XNC_MIN := w2.self.sigma_CC neutype flv 0
      forEach 0 w2.self.ne (fun e1 w3 =>
        let XCC_int := forEach 0 e1 (fun e2 (acc : ℚ) =>
          acc + w3.dsignudE_CC neutype flv e1 e2 * w3.self.delE.data e2) 0
        let XNC_int := forEach 0 e1 (fun e2 (acc : ℚ) =>
          acc + w3.dsignudE_NC neutype flv e1 e2 * w3.self.delE.data e2) 0
        if e1 ≠ 0 then
          let CC_rescale := (w3.self.sigma_CC neutype flv e1 - XCC_MIN) / XCC_int
          let NC_rescale := (w3.self.sigma_NC neutype flv e1 - XNC_MIN) / XNC_int
          forEach 0 e1 (fun e2 (w4 : InteractionsWork) =>
            { w4 with
              dsignudE_CC := set4 w4.dsignudE_CC neutype flv e1 e2
                (w4.dsignudE_CC neutype flv e1 e2 * CC_rescale),
              dsignudE_NC := set4 w4.dsignudE_NC neutype flv e1 e2
                (w4.dsignudE_NC neutype flv e1 e2 * NC_rescale) }) w3
        else w3) w2) w1) w

/-- Third block of `InitializeInteractions`: the kernels `dNdE_NC` and `dNdE_CC`, for finite
values. The test `x != x` of the source singles out a value that is not a number; no rational
is one. What the `if`/`else` of this block stores for the non-finite values of a double is
`dNdEEntry`. -/
def constructdNdE (w : InteractionsWork) : NuSQUIDS :=
  forEach 0 w.self.nrhos (fun rho a =>
    forEach 0 a.numneu (fun flv b =>
      forEach 0 b.ne (fun e1 c =>
        forEach 0 e1 (fun e2 (d : NuSQUIDS) =>
          let d1 : NuSQUIDS :=
            if w.dsignudE_NC rho flv e1 e2 < 1 / 10 ^ 50 ∨
                w.dsignudE_NC rho flv e1 e2 ≠ w.dsignudE_NC rho flv e1 e2 then
              { d with dNdE_NC := set4 d.dNdE_NC rho flv e1 e2 0 }
            else
              { d with dNdE_NC := set4 d.dNdE_NC rho flv e1 e2
                                    (w.dsignudE_NC rho flv e1 e2 / d.sigma_NC rho flv e1) }
          if w.dsignudE_CC rho flv e1 e2 < 1 / 10 ^ 50 ∨
              w.dsignudE_CC rho flv e1 e2 ≠ w.dsignudE_CC rho flv e1 e2 then
            { d1 with dNdE_CC := set4 d1.dNdE_CC rho flv e1 e2 0 }
          else
            { d1 with dNdE_CC := set4 d1.dNdE_CC rho flv e1 e2
                                   (w.dsignudE_CC rho flv e1 e2 / d1.sigma_CC rho flv e1) }) c) b) a) w.self

/-- Fourth block of `InitializeInteractions`: the tau decay length and the tau decay kernels. -/
def loadTauDecay (ext : External) (s : NuSQUIDS) : NuSQUIDS :=
  let GeVm1 : ℚ := (s.params.GeV)⁻¹
  let s1 := forEach 0 s.ne (fun e1 (a : NuSQUIDS) =>
    { a with invlen_tau := set1 a.invlen_tau e1 (1 / (a.tau_lifetime * a.E_range.data e1 * a.tau_mass)) }) s
  forEach 0 s1.ne (fun e1 a =>
    forEach 0 e1 (fun e2 (b : NuSQUIDS) =>
      { b with dNdE_tau_all := set2 b.dNdE_tau_all e1 e2 (ext.dNdEnu_All e1 e2 * GeVm1),
               dNdE_tau_lep := set2 b.dNdE_tau_lep e1 e2 (ext.dNdEnu_Lep e1 e2 * GeVm1) }) a) s1

/-- Fifth block of `InitializeInteractions` (compiled under `FixCrossSections`): the rescaling
of the tau decay kernels. -/
def fixTauDecay (s : NuSQUIDS) : NuSQUIDS :=
  forEach 1 s.ne (fun e1 a =>
    let tau_all_int := forEach 0 e1 (fun e2 (acc : ℚ) =>
      acc + a.dNdE_tau_all e1 e2 * a.delE.data e2) 0
    let tau_lep_int := forEach 0 e1 (fun e2 (acc : ℚ) =>
      acc + a.dNdE_tau_lep e1 e2 * a.delE.data e2) 0
    if a.dNdE_tau_all e1 0 * a.E_range.data 0 < 1 / 4 then
      let tau_all_rescale := (1 - a.dNdE_tau_all e1 0 * a.E_range.data 0) / tau_all_int
      let tau_lep_rescale := (a.taubr_lep - a.dNdE_tau_lep e1 0 * a.E_range.data 0) / tau_lep_int
      forEach 0 e1 (fun e2 (b : NuSQUIDS) =>
        { b with dNdE_tau_all := set2 b.dNdE_tau_all e1 e2 (b.dNdE_tau_all e1 e2 * tau_all_rescale),
                 dNdE_tau_lep := set2 b.dNdE_tau_lep e1 e2 (b.dNdE_tau_lep e1 e2 * tau_lep_rescale) }) a
    else a) s

/-- The member `InitializeInteractions()`. The two local arrays start with the contents of
their allocation. -/
def InitializeInteractions (ext : External) (s : NuSQUIDS) : NuSQUIDS :=
  let w0 : InteractionsWork :=
    { self := s, dsignudE_CC := fun _ _ _ _ => ext.uninit 0 0,
      dsignudE_NC := fun _ _ _ _ => ext.uninit 1 0 }
  let w1 := loadCrossSections ext w0
  let w2 := if ext.FixCrossSections then fixCrossSections w1 else w1
  let s3 := loadTauDecay ext (constructdNdE w2)
  if ext.FixCrossSections then fixTauDecay s3 else s3

/-- The single-energy member `init(double xini)`. -/
def init1 (ext : External) (xini : ℚ) (s : NuSQUIDS) : Outcome NuSQUIDS :=
  let s0 : NuSQUIDS := { s with ne := 1 }
  if s0.NT = .neutrino ∨ s0.NT = .antineutrino then
    let s1 : NuSQUIDS := { s0 with nrhos := 1 }
    if s1.numneu > ext.SQUIDS_MAX_HILBERT_DIM then
      .raised "nuSQUIDS::Error::Maximum number of neutrinos exceded" s1
    else
      let s2 : NuSQUIDS := { s1 with nsun := s1.numneu }
      let s3 := ini ext s2.ne s2.numneu 1 0 xini s2
      let s4 : NuSQUIDS := { s3 with CoherentRhoTerms := true }
      (((Set_MixingParametersToDefault s4).andThen (fun s5 =>
        if s5.NT = .antineutrino then
          forLoop 0 s5.numneu (fun i a =>
            forLoop (i + 1) a.numneu (fun j b =>
              match Get_CPPhase i j b with
              | .ok d => Set_CPPhase i j (-d) b
              | .error msg => .raised msg b) a) s5
        else .ok s5)).andThen (iniProjectors ext.toSUOps)).andThen (fun s6 =>
        let s7 := forEach 0 s6.ne (fun ie (a : NuSQUIDS) =>
          { a with H0_array := fun k => if k = ie then 0 else a.H0_array k }) s6
        let s8 := iniH0 s7
        .ok { s8 with inusquids := true })
  else
    .raised "nuSQUIDS::Error::NT = \x7bneutrino,antineutrino\x7d not : " s0

/-- The statements of the multi-energy `init` from the allocation of the state buffer to
`ienergy = true`: `ini`, `SetScalarsToZero`, the energy nodes and their widths. -/
def initEnergyArrays (ext : External) (Emin Emax : ℚ) (Esize : Nat) (xini : ℚ)
    (s3 : NuSQUIDS) : NuSQUIDS :=
  let s4 :=
    if s3.iinteraction then ini ext s3.ne s3.numneu s3.nrhos s3.nrhos xini s3
    else ini ext s3.ne s3.numneu s3.nrhos 0 xini s3
  let s5 := SetScalarsToZero s4
  let s6 : NuSQUIDS := { s5 with CoherentRhoTerms := true }
  let s7 : NuSQUIDS :=
    if s6.elogscale then
      let E := ext.logspace (Emin * s6.params.GeV) (Emax * s6.params.GeV) (s6.ne - 1)
      { s6 with E_range := E, x := ext.xgrid (E.data 0) (E.data (Esize - 1)) true s6.ne }
    else
      let E := ext.linspace (Emin * s6.params.GeV) (Emax * s6.params.GeV) (s6.ne - 1)
      { s6 with E_range := E, x := ext.xgrid (E.data 0) (E.data (Esize - 1)) false s6.ne }
  let s8 := forEach 0 (s7.ne - 1) (fun ei (a : NuSQUIDS) =>
    { a with delE := { extent0 := a.delE.extent0,
                       data := set1 a.delE.data ei (a.E_range.data (ei + 1) - a.E_range.data ei) } })
    { s7 with delE := { extent0 := s7.ne - 1, data := s7.delE.data } }
  { s8 with ienergy := true }

/-- The statements of the multi-energy `init` after `iniProjectors()`: the vacuum Hamiltonian,
the tau constants, the interaction tables and the term switches. -/
def initTail (ext : External) (init_interactions : Bool) (s10 : NuSQUIDS) : NuSQUIDS :=
  let s11 := forEach 0 s10.ne (fun ie (a : NuSQUIDS) =>
    { a with H0_array := fun k => if k = ie then 0 else a.H0_array k }) s10
  let s12 := iniH0 s11
  let s13 : NuSQUIDS :=
    { s12 with taubr_lep := 14 / 100,
               tau_lifetime := (2906 / 10 ^ 16) * s12.params.sec,
               tau_mass := (177682 / 100) * s12.params.MeV,
               tau_reg_scale := 300 * s12.params.km,
               positivization_scale := 300 * s12.params.km }
  let s14 :=
    if s13.iinteraction ∧ init_interactions then
      InitializeInteractions ext (InitializeInteractionVectors s13)
    else s13
  let s15 : NuSQUIDS :=
    if s14.iinteraction then
      { s14 with NonCoherentRhoTerms := true, OtherRhoTerms := true,
                 GammaScalarTerms := true, OtherScalarTerms := true }
    else s14
  { s15 with inusquids := true }

/-- The multi-energy member `init(Emin, Emax, Esize, initialize_intereractions, xini)`. The
cross-section provider handle `ncs` and the tau-decay table `tdc` are collaborators reached
through `ext`. -/
def init (ext : External) (Emin Emax : ℚ) (Esize : Nat) (init_interactions : Bool) (xini : ℚ)
    (s : NuSQUIDS) : Outcome NuSQUIDS :=
  if ¬ (s.NT = .neutrino ∨ s.NT = .antineutrino ∨ s.NT = .both) then
    .raised "nuSQUIDS::Error::NT = \x7bneutrino,antineutrino,both\x7d not : " s
  else
    let s1 : NuSQUIDS := { s with nrhos := if s.NT = .both then 2 else 1 }
    if s1.numneu > ext.SQUIDS_MAX_HILBERT_DIM then
      .raised "nuSQUIDS::Error::Maximum number of neutrinos exceded" s1
    else
      let s2 : NuSQUIDS := { s1 with nsun := s1.numneu }
      if Emax < Emin then .raised "nuSQUIDS::Error::Emax < Emin." s2
      else
        let s3 : NuSQUIDS := { s2 with ne := Esize }
        if Esize ≤ 0 then .raised "nuSQUIDS::Error::Esize must be at greater than zero." s3
        else
          ((Set_MixingParametersToDefault (initEnergyArrays ext Emin Emax Esize xini s3)).andThen
            (iniProjectors ext.toSUOps)).andThen (fun s10 =>
              .ok (initTail ext init_interactions s10))

/-! ## Persisted state -/

/-- An HDF5 file as the source uses it: attributes are addressed by group, object and attribute
name, datasets by group and dataset name; a dataset has extents and a flat array of entries. -/
structure H5File where
  attr_double : String → String → String → ℚ
  attr_int : String → String → String → Int
  attr_string : String → String → String → String
  dims : String → String → Nat → Nat
  data : String → String → Nat → ℚ

/-- The call `H5LTset_attribute_double(group, obj, name, &val, 1)`. -/
def H5File.set_attribute_double (f : H5File) (grp obj name : String) (val : ℚ) : H5File :=
  { f with attr_double := fun g o n => if g = grp ∧ o = obj ∧ n = name then val else f.attr_double g o n }

/-- The calls `H5LTset_attribute_int` and `H5LTset_attribute_uint`. -/
def H5File.set_attribute_int (f : H5File) (grp obj name : String) (val : Int) : H5File :=
  { f with attr_int := fun g o n => if g = grp ∧ o = obj ∧ n = name then val else f.attr_int g o n }

/-- The call `H5LTset_attribute_string(group, obj, name, val)`. -/
def H5File.set_attribute_string (f : H5File) (grp obj name val : String) : H5File :=
  { f with attr_string := fun g o n => if g = grp ∧ o = obj ∧ n = name then val else f.attr_string g o n }

/-- The call `H5LTmake_dataset(group, name, rank, dims, H5T_NATIVE_DOUBLE, buffer)`. -/
def H5File.make_dataset (f : H5File) (grp name : String) (dims : List Nat) (buffer : Nat → ℚ) :
    H5File :=
  { f with dims := fun g n k => if g = grp ∧ n = name then dims.getD k 0 else f.dims g n k,
           data := fun g n k => if g = grp ∧ n = name then buffer k else f.data g n k }

/-- The call `H5LTmake_dataset(group, name, 1, dim, H5T_NATIVE_DOUBLE, 0)` with a null buffer and
`dim = 1`: the dataset is created and no entry is written. -/
def H5File.make_empty_dataset (f : H5File) (grp name : String) : H5File :=
  { f with dims := fun g n k => if g = grp ∧ n = name then (if k = 0 then 1 else 0) else f.dims g n k }

/-- The group that holds the cross sections: the subgroup `crosssections` of the state group
when no location is given, the group at the given location otherwise. -/
def xsGroup (grp cross_section_grp_loc : String) : String :=
  if cross_section_grp_loc = "" then grp ++ "/crosssections" else cross_section_grp_loc

/-- The mixing-parameter part of `WriteStateHDF5`: the attributes `th<i+1><j+1>`,
`delta<i+1><j+1>` and `dm<i+1>1sq`. -/
def writeMixing (s : NuSQUIDS) (grp : String) (f : H5File) : H5File :=
  let f1 := forEach 0 s.numneu (fun i fa =>
    forEach (i + 1) s.numneu (fun j (fb : H5File) =>
      (fb.set_attribute_double grp "mixingangles"
          ("th" ++ toString (i + 1) ++ toString (j + 1)) (s.params.GetMixingAngle i j)).set_attribute_double
        grp "CPphases" ("delta" ++ toString (i + 1) ++ toString (j + 1)) (s.params.GetPhase i j)) fa) f
  forEach 1 s.numneu (fun i (fa : H5File) =>
    fa.set_attribute_double grp "massdifferences" ("dm" ++ toString (i + 1) ++ "1sq")
      (s.params.GetEnergyDifference i)) f1

/-- The two buffers `neustate` and `aneustate` of `WriteStateHDF5`. -/
structure StateBuffers where
  neustate : Nat → ℚ
  aneustate : Nat → ℚ

/-- The state part of `WriteStateHDF5`: the flattening loop over the nodes and the components.
The two `std::vector`s start filled with zeros. -/
def flattenState (s : NuSQUIDS) : StateBuffers :=
  let numneusq := s.numneu * s.numneu
  forEach 0 s.ne (fun ie b0 =>
    forEach 0 (s.numneu * s.numneu) (fun i (b : StateBuffers) =>
      if s.NT = .both then
        { neustate := set1 b.neustate (ie * numneusq + i) (s.rho ie 0 i),
          aneustate := set1 b.aneustate (ie * numneusq + i) (s.rho ie 1 i) }
      else if s.NT = .neutrino then
        { neustate := set1 b.neustate (ie * numneusq + i) (s.rho ie 0 i),
          aneustate := set1 b.aneustate (ie * numneusq + i) 0 }
      else if s.NT = .antineutrino then
        { neustate := set1 b.neustate (ie * numneusq + i) 0,
          aneustate := set1 b.aneustate (ie * numneusq + i) (s.rho ie 0 i) }
      else b) b0)
    { neustate := fun _ => 0, aneustate := fun _ => 0 }

/-- The two vectors `flavor` and `mass` of `WriteStateHDF5`, in the order of `push_back`. -/
structure Composition where
  flavor : List ℚ
  mass : List ℚ

/-- One pass `for i < numneu` of the composition loop: two `push_back`s per flavor, both
evaluated on channel 0. -/
def pushComposition (ops : SUOps) (s : NuSQUIDS) (ie : Nat) (c : Composition) :
    Outcome Composition :=
  forLoop 0 s.numneu (fun i c1 =>
    match EvalFlavorAtNode ops s i ie 0, EvalMassAtNode ops s i ie 0 with
    | .ok fl, .ok ms => .ok { flavor := c1.flavor ++ [fl], mass := c1.mass ++ [ms] }
    | .error msg, _ => .raised msg c1
    | .ok _, .error msg => .raised msg c1) c

/-- The composition part of `WriteStateHDF5`. -/
def writeComposition (ops : SUOps) (s : NuSQUIDS) : Outcome Composition :=
  forLoop 0 s.ne (fun ie c =>
    ((if s.NT = .both ∨ s.NT = .neutrino then pushComposition ops s ie c else .ok c)).andThen
      (fun c1 => if s.NT = .both ∨ s.NT = .antineutrino then pushComposition ops s ie c1 else .ok c1))
    { flavor := [], mass := [] }

/-- The cross-section part of `WriteStateHDF5` (inside `if (iinteraction and save_cross_section)`). -/
def writeCrossSections (s : NuSQUIDS) (xs : String) (f : H5File) : H5File :=
  let xsCC : Nat → ℚ := forEach 0 s.nrhos (fun rho a =>
    forEach 0 s.numneu (fun flv b =>
      forEach 0 s.ne (fun ie c =>
        set1 c (rho * (s.numneu * s.ne) + flv * s.ne + ie) (s.sigma_CC rho flv ie)) b) a) (fun _ => 0)
  let xsNC : Nat → ℚ := forEach 0 s.nrhos (fun rho a =>
    forEach 0 s.numneu (fun flv b =>
      forEach 0 s.ne (fun ie c =>
        set1 c (rho * (s.numneu * s.ne) + flv * s.ne + ie) (s.sigma_NC rho flv ie)) b) a) (fun _ => 0)
  let f1 := (f.make_dataset xs "sigmacc" [s.nrhos, s.numneu, s.ne] xsCC).make_dataset
    xs "sigmanc" [s.nrhos, s.numneu, s.ne] xsNC
  let dxsCC : Nat → ℚ := forEach 0 s.nrhos (fun rho a =>
    forEach 0 s.numneu (fun flv b =>
      forEach 0 s.ne (fun e1 c =>
        forEach 0 s.ne (fun e2 d =>
          if e2 < e1 then
            set1 d (rho * (s.numneu * s.ne * s.ne) + flv * s.ne * s.ne + e1 * s.ne + e2)
              (s.dNdE_CC rho flv e1 e2)
          else
            set1 d (rho * (s.numneu * s.ne * s.ne) + flv * s.ne * s.ne + e1 * s.ne + e2) 0) c) b) a)
    (fun _ => 0)
  let dxsNC : Nat → ℚ := forEach 0 s.nrhos (fun rho a =>
    forEach 0 s.numneu (fun flv b =>
      forEach 0 s.ne (fun e1 c =>
        forEach 0 s.ne (fun e2 d =>
          if e2 < e1 then
            set1 d (rho * (s.numneu * s.ne * s.ne) + flv * s.ne * s.ne + e1 * s.ne + e2)
              (s.dNdE_NC rho flv e1 e2)
          else
            set1 d (rho * (s.numneu * s.ne * s.ne) + flv * s.ne * s.ne + e1 * s.ne + e2) 0) c) b) a)
    (fun _ => 0)
  let f2 := (f1.make_dataset xs "dNdEcc" [s.nrhos, s.numneu, s.ne, s.ne] dxsCC).make_dataset
    xs "dNdEnc" [s.nrhos, s.numneu, s.ne, s.ne] dxsNC
  let f3 := f2.make_dataset xs "invlentau" [s.ne] s.invlen_tau
  let dNdEtauall : Nat → ℚ := forEach 0 s.ne (fun e1 c =>
    forEach 0 s.ne (fun e2 d =>
      if e2 < e1 then set1 d (e1 * s.ne + e2) (s.dNdE_tau_all e1 e2)
      else set1 d (e1 * s.ne + e2) 0) c) (fun _ => 0)
  let dNdEtaulep : Nat → ℚ := forEach 0 s.ne (fun e1 c =>
    forEach 0 s.ne (fun e2 d =>
      if e2 < e1 then set1 d (e1 * s.ne + e2) (s.dNdE_tau_lep e1 e2)
      else set1 d (e1 * s.ne + e2) 0) c) (fun _ => 0)
  (f3.make_dataset xs "dNdEtauall" [s.ne, s.ne] dNdEtauall).make_dataset
    xs "dNdEtaulep" [s.ne, s.ne] dNdEtaulep

/-- The member `WriteStateHDF5(str, grp, save_cross_section, cross_section_grp_loc)`, as a
function from the file found at `str` to the file left there. Opening and creating files and
groups always succeed here. The hook `AddToWriteHDF5` is empty. -/
def WriteStateHDF5 (ext : External) (s : NuSQUIDS) (file : H5File) (grp : String)
    (save_cross_section : Bool) (cross_section_grp_loc : String) : Except String H5File :=
  if s.body.isNone then .error "nuSQUIDS::Error::BODY is a NULL pointer"
  else if !s.ibody then .error "nuSQUIDS::Error::Body not initialized"
  else if s.track.isNone then .error "nuSQUIDS::Error::TRACK is a NULL pointer"
  else if !s.itrack then .error "nuSQUIDS::Error::TRACK is not initialized"
  else if !s.istate then .error "nuSQUIDS::Error::Initial state not initialized"
  else if !s.ienergy then .error "nuSQUIDS::Error::Energy not set."
  else
    let save := if !s.iinteraction then s.iinteraction else save_cross_section
    let f1 := (file.make_dataset grp "energies" [s.E_range.extent0] s.E_range.data).set_attribute_string
      grp "energies" "elogscale" (if s.elogscale then "True" else "False")
    let f2 := (((f1.make_empty_dataset grp "basic").make_empty_dataset grp "mixingangles").make_empty_dataset
      grp "CPphases").make_empty_dataset grp "massdifferences"
    let f3 := ((((f2.set_attribute_int grp "basic" "numneu" s.numneu).set_attribute_int
      grp "basic" "NT" (ext.nt_code s.NT)).set_attribute_string
      grp "basic" "interactions" (if s.iinteraction then "True" else "False")).set_attribute_double
      grp "basic" "squids_time" s.t).set_attribute_double grp "basic" "squids_time_initial" s.t_ini
    let f4 := (f3.set_attribute_int grp "basic" "squids_version_number" ext.SQUIDS_VERSION).set_attribute_int
      grp "basic" "nusquids_version_number" ext.NUSQUIDS_VERSION
    let f5 := writeMixing s grp f4
    let bufs := flattenState s
    let f6 := (f5.make_dataset grp "neustate" [s.E_range.size, s.numneu * s.numneu] bufs.neustate).make_dataset
      grp "aneustate" [s.E_range.size, s.numneu * s.numneu] bufs.aneustate
    match writeComposition ext.toSUOps s with
    | .raised msg _ => .error msg
    | .ok comp =>
      let pdim1 := if s.NT = .both then s.numneu * 2 else s.numneu
      let f7 := (f6.make_dataset grp "flavorcomp" [s.E_range.size, pdim1] (fun k => comp.flavor.getD k 0)).make_dataset
        grp "masscomp" [s.E_range.size, pdim1] (fun k => comp.mass.getD k 0)
      let tr := trackOf s
      let f8 :=
        if tr.params.length = 0 then f7.make_empty_dataset grp "track"
        else f7.make_dataset grp "track" [tr.params.length] (fun k => tr.params.getD k 0)
      let f9 := ((f8.set_attribute_double grp "track" "XINI" tr.GetInitialX).set_attribute_double
        grp "track" "XEND" tr.GetFinalX).set_attribute_double grp "track" "X" tr.GetX
      let bd := s.body.getD { id := 0, name := "", params := [] }
      let f10 :=
        if bd.params.length = 0 then f9.make_empty_dataset grp "body"
        else f9.make_dataset grp "body" [bd.params.length] (fun k => bd.params.getD k 0)
      let f11 := (f10.set_attribute_string grp "body" "NAME" bd.name).set_attribute_int grp "body" "ID" bd.id
      let xs := xsGroup grp cross_section_grp_loc
      let f12 := if s.iinteraction ∧ save then writeCrossSections s xs f11 else f11
      .ok f12

/-- The member `SetBodyTrack(body_id, ...)`: for the identifiers 1 to 7 the body and the track
are built by the constructors of their classes; any other identifier ends the process
(`exit(1)`), which is reported here as a raised outcome. -/
def SetBodyTrack (ext : External) (body_id : Nat) (body_params track_params : List ℚ)
    (s : NuSQUIDS) : Outcome NuSQUIDS :=
  if 1 ≤ body_id ∧ body_id ≤ 7 then
    .ok { s with body := some (ext.makeBody body_id body_params),
                 track := some (ext.makeTrack body_id track_params) }
  else .raised "nuSQUIDS::SetBodyTrack : unknown body/track" s

/-- The mixing-parameter part of `ReadStateHDF5`: the attributes are read and handed to the
setters. -/
def readMixing (file : H5File) (grp : String) (s : NuSQUIDS) : Outcome NuSQUIDS :=
  (forLoop 0 s.numneu (fun i a =>
    forLoop (i + 1) a.numneu (fun j b =>
      (Set_MixingAngle i j
        (file.attr_double grp "mixingangles" ("th" ++ toString (i + 1) ++ toString (j + 1))) b).andThen
      (Set_CPPhase i j
        (file.attr_double grp "CPphases" ("delta" ++ toString (i + 1) ++ toString (j + 1))))) a) s).andThen
  (fun s1 => forLoop 1 s1.numneu (fun i a =>
    Set_SquareMassDifference i
      (file.attr_double grp "massdifferences" ("dm" ++ toString (i + 1) ++ "1sq")) a) s1)

/-- The state part of `ReadStateHDF5`: the unflattening loop, with `dims0` and `dims1` the
extents of the dataset `aneustate`. Writing a component of `state[ie].rho[r]` leaves the other
components. -/
def unflattenState (dims0 dims1 : Nat) (neudata aneudata : Nat → ℚ) (s : NuSQUIDS) : NuSQUIDS :=
  forEach 0 dims0 (fun ie a =>
    forEach 0 dims1 (fun j (b : NuSQUIDS) =>
      if b.NT = .neutrino then
        setRho ie 0 (set1 (b.rho ie 0) j (neudata (ie * dims1 + j))) b
      else if b.NT = .antineutrino then
        setRho ie 0 (set1 (b.rho ie 0) j (aneudata (ie * dims1 + j))) b
      else if b.NT = .both then
        let b1 := setRho ie 0 (set1 (b.rho ie 0) j (neudata (ie * dims1 + j))) b
        setRho ie 1 (set1 (b1.rho ie 1) j (aneudata (ie * dims1 + j))) b1
      else b) a) s

/-- The first block of the cross-section part of `ReadStateHDF5`: `sigma_CC` and `sigma_NC` from
the datasets `sigmacc` and `sigmanc`. -/
def readSigma (file : H5File) (xs : String) (s : NuSQUIDS) : NuSQUIDS :=
  let xsCC := file.data xs "sigmacc"
  let xsNC := file.data xs "sigmanc"
  forEach 0 s.nrhos (fun rho a =>
    forEach 0 a.numneu (fun flv b =>
      forEach 0 b.ne (fun ie (c : NuSQUIDS) =>
        { c with sigma_CC := set3 c.sigma_CC rho flv ie (xsCC (rho * (c.numneu * c.ne) + flv * c.ne + ie)),
                 sigma_NC := set3 c.sigma_NC rho flv ie (xsNC (rho * (c.numneu * c.ne) + flv * c.ne + ie)) }) b) a) s

/-- The second block: `dNdE_CC` and `dNdE_NC` from the datasets `dNdEcc` and `dNdEnc`. -/
def readKernels (file : H5File) (xs : String) (s : NuSQUIDS) : NuSQUIDS :=
  let dxsCC := file.data xs "dNdEcc"
  let dxsNC := file.data xs "dNdEnc"
  forEach 0 s.nrhos (fun rho a =>
    forEach 0 a.numneu (fun flv b =>
      forEach 0 b.ne (fun e1 c =>
        forEach 0 e1 (fun e2 (d : NuSQUIDS) =>
          { d with
            dNdE_CC := set4 d.dNdE_CC rho flv e1 e2
              (dxsCC (rho * (d.numneu * d.ne * d.ne) + flv * d.ne * d.ne + e1 * d.ne + e2)),
            dNdE_NC := set4 d.dNdE_NC rho flv e1 e2
              (dxsNC (rho * (d.numneu * d.ne * d.ne) + flv * d.ne * d.ne + e1 * d.ne + e2)) }) c) b) a) s

/-- The third block: `invlen_tau` from the dataset `invlentau`. -/
def readInvlenTau (file : H5File) (xs : String) (s : NuSQUIDS) : NuSQUIDS :=
  let invlentau := file.data xs "invlentau"
  forEach 0 s.ne (fun ie (a : NuSQUIDS) =>
    { a with invlen_tau := set1 a.invlen_tau ie (invlentau ie) }) s

/-- The fourth block: `dNdE_tau_all` and `dNdE_tau_lep`. The extents of the dataset `dNdEtauall`
are read, the two local arrays `dNdEtauall` and `dNdEtaulep` are declared with those extents,
and the loop copies from them; no `H5LTread_dataset_double` fills them in between. -/
def readTauKernels (ext : External) (s : NuSQUIDS) : NuSQUIDS :=
  let dNdEtauall := ext.uninit 2
  let dNdEtaulep := ext.uninit 3
  forEach 0 s.ne (fun e1 a =>
    forEach 0 e1 (fun e2 (b : NuSQUIDS) =>
      { b with dNdE_tau_all := set2 b.dNdE_tau_all e1 e2 (dNdEtauall (e1 * b.ne + e2)),
               dNdE_tau_lep := set2 b.dNdE_tau_lep e1 e2 (dNdEtaulep (e1 * b.ne + e2)) }) a) s

/-- The cross-section part of `ReadStateHDF5` (inside `if(iinteraction)`): the four blocks in
the order of the source, after `InitializeInteractionVectors`. -/
def readCrossSections (ext : External) (file : H5File) (xs : String) (s : NuSQUIDS) : NuSQUIDS :=
  readTauKernels ext (readInvlenTau file xs (readKernels file xs (readSigma file xs
    (InitializeInteractionVectors s))))

/-- The member `ReadStateHDF5(str, grp, cross_section_grp_loc)` on the file `file` found at
`str`. The file and the group exist. The hook `AddToReadHDF5` is empty. -/
def ReadStateHDF5 (ext : External) (file : H5File) (grp cross_section_grp_loc : String)
    (s : NuSQUIDS) : Outcome NuSQUIDS :=
  let s1 : NuSQUIDS :=
    { s with numneu := (file.attr_int grp "basic" "numneu").toNat,
             NT := ext.nt_of_code (file.attr_int grp "basic" "NT"),
             iinteraction := decide (file.attr_string grp "basic" "interactions" = "True") }
  let squids_time := file.attr_double grp "basic" "squids_time"
  let squids_time_initial := file.attr_double grp "basic" "squids_time_initial"
  if (file.attr_int grp "basic" "squids_version_number").toNat > ext.SQUIDS_VERSION then
    .raised "nuSQUIDS::ReadStateHDF5::Error: File was written using SQuIDS version " s1
  else if (file.attr_int grp "basic" "nusquids_version_number").toNat > ext.NUSQUIDS_VERSION then
    .raised "nuSQUIDS::ReadStateHDF5::Error: File was written using nuSQuIDS version " s1
  else
    (readMixing file grp s1).andThen (fun s2 =>
    let data := file.data grp "energies"
    let s3 : NuSQUIDS :=
      { s2 with ne := file.dims grp "energies" 0,
                elogscale := decide (file.attr_string grp "energies" "elogscale" = "True") }
    let body_id := (file.attr_int grp "body" "ID").toNat
    let body_params := (List.range (file.dims grp "body" 0)).map (file.data grp "body")
    let track_params := (List.range (file.dims grp "track" 0)).map (file.data grp "track")
    let x_current := file.attr_double grp "track" "X"
    (SetBodyTrack ext body_id body_params track_params s3).andThen (fun s4 =>
    let s5 := trackSetX x_current s4
    (if s5.ne = 1 then
      ((if !s5.inusquids then init1 ext squids_time_initial s5 else .ok s5)).andThen
        (Set_E (data 0))
     else
      init ext (data 0 / s5.params.GeV) (data (s5.ne - 1) / s5.params.GeV) s5.ne false
        squids_time_initial s5).andThen (fun s6 =>
    let s7 : NuSQUIDS := { s6 with t := squids_time }
    let s8 : NuSQUIDS := { s7 with time_offset := squids_time - (trackOf s7).GetX }
    let s9 := EvolveProjectors ext.toSUOps squids_time s8
    let s10 := unflattenState (file.dims grp "aneustate" 0) (file.dims grp "aneustate" 1)
      (file.data grp "neustate") (file.data grp "aneustate") s9
    let s11 :=
      if s10.iinteraction then readCrossSections ext file (xsGroup grp cross_section_grp_loc) s10
      else s10
    let s12 : NuSQUIDS :=
      { s11 with istate := true, ienergy := true, itrack := true, ibody := true }
    .ok (iniH0 s12))))

/-- A write followed by a read of the same group: `w.WriteStateHDF5(str, grp)` onto the file
`file0`, then `r.ReadStateHDF5(str, grp)`. A failed write is reported as raised, the reader
untouched. -/
def writeThenRead (ext : External) (w : NuSQUIDS) (file0 : H5File) (grp : String)
    (save_cross_section : Bool) (r : NuSQUIDS) : Outcome NuSQUIDS :=
  match WriteStateHDF5 ext w file0 grp save_cross_section "" with
  | .ok f => ReadStateHDF5 ext f grp "" r
  | .error msg => .raised msg r

/-! ## Interpolated evaluation and the matter potential -/

/-- The member `EvalMass(flv, EE, rho)`. `GetExpectationValueD`, the interpolating evaluation of
the base library, is a parameter. -/
def EvalMassE (GetExpectationValueD : NuSQUIDS → SU_vector → Nat → ℚ → ℚ) (s : NuSQUIDS)
    (flv : Nat) (EE : ℚ) (rho : Nat) : Except String ℚ :=
  if !s.ienergy then .error "nuSQUIDS::Error::Energy not set."
  else if rho ≠ 0 ∧ s.NT ≠ .both then
    .error "nuSQUIDS::Error::Cannot evaluate rho != 0 in this NT mode."
  else if s.basis = .mass then
    .error "nuSQUIDS::Error::Use EvalMassAtNode. Interpolation is not recommended on this basis."
  else .ok (GetExpectationValueD s (s.b0_proj flv) rho EE)

/-- The member `EvalFlavor(flv, EE, rho)`. -/
def EvalFlavorE (GetExpectationValueD : NuSQUIDS → SU_vector → Nat → ℚ → ℚ) (s : NuSQUIDS)
    (flv : Nat) (EE : ℚ) (rho : Nat) : Except String ℚ :=
  if !s.ienergy then .error "nuSQUIDS::Error::Energy not set."
  else if rho ≠ 0 ∧ s.NT ≠ .both then
    .error "nuSQUIDS::Error::Cannot evaluate rho != 0 in this NT mode."
  else if s.basis = .mass then
    .error "nuSQUIDS::Error::Use EvalMassAtNode. Interpolation is not recommended on this basis."
  else .ok (GetExpectationValueD s (s.b1_proj rho flv) rho EE)

/-- The two virtual members of `Body` that `HI` calls, `ye(track)` and `density(track)`; the
bodies are defined outside this file, so the two members are parameters. -/
structure Medium where
  ye : Body → Track → ℚ
  density : Body → Track → ℚ

/-- The body behind the handle. -/
def bodyOf (s : NuSQUIDS) : Body :=
  s.body.getD { id := 0, name := "", params := [] }

/-- The member `HI(ie, irho)`. -/
def HI (med : Medium) (s : NuSQUIDS) (ie irho : Nat) : Except String SU_vector :=
  let ye := med.ye (bodyOf s) (trackOf s)
  let density := med.density (bodyOf s) (trackOf s)
  let CC := s.params.sqrt2 * s.params.GF * s.params.Na * s.params.cm ^ (-3 : ℤ) * density * ye
  let NC :=
    if ye < 1 / 10 ^ 10 then
      s.params.sqrt2 * s.params.GF * s.params.Na * s.params.cm ^ (-3 : ℤ) * density
    else CC * (((-(1 / 2)) * (1 - ye)) / ye)
  let p0 : SU_vector := (CC + NC) • s.evol_b1_proj irho 0 ie
  let p1 : SU_vector := p0 + NC • s.evol_b1_proj irho 1 ie
  let p2 : SU_vector := p1 + NC • s.evol_b1_proj irho 2 ie
  let potential : SU_vector := if s.basis = .mass then p2 + s.H0_array ie else p2
  if (irho = 0 ∧ s.NT = .both) ∨ s.NT = .neutrino then .ok potential
  else if (irho = 1 ∧ s.NT = .both) ∨ s.NT = .antineutrino then .ok ((-1 : ℚ) • potential)
  else .error "nuSQUIDS::HI : unknown particle or antiparticle"

/-! ## The terms of the evolution equation -/

/-- The member `GammaRho(ei, index_rho)`. `SU_vector V(nsun)` is the zero vector. -/
def GammaRho (s : NuSQUIDS) (ei index_rho : Nat) : SU_vector :=
  if !s.iinteraction then 0
  else
    let V0 : SU_vector := ((1 / 2) * s.invlen_INT index_rho 0 ei) • s.evol_b1_proj index_rho 0 ei
    let V1 : SU_vector := V0 + ((1 / 2) * s.invlen_INT index_rho 1 ei) • s.evol_b1_proj index_rho 1 ei
    V1 + ((1 / 2) * s.invlen_INT index_rho 2 ei) • s.evol_b1_proj index_rho 2 ei

/-- The member `InteractionsRho(e1, index_rho)`. -/
def InteractionsRho (ops : SUOps) (s : NuSQUIDS) (e1 index_rho : Nat) : SU_vector :=
  if !s.iinteraction then 0
  else
    forEach (e1 + 1) s.ne (fun e2 (nc_term : SU_vector) =>
      let temp1 : SU_vector := s.evol_b1_proj index_rho 0 e1 + s.evol_b1_proj index_rho 1 e1
      let temp1b : SU_vector := temp1 + s.evol_b1_proj index_rho 2 e1
      let temp2 : SU_vector := ops.ACommutator temp1b (s.rho e2 index_rho)
      nc_term + ((1 / 2) * s.dNdE_NC index_rho 0 e2 e1 * s.invlen_NC index_rho 0 e2) • temp2) 0

/-- The member `GammaScalar(ei, iscalar)`. -/
def GammaScalar (_s : NuSQUIDS) (_ei _iscalar : Nat) : ℚ := 0

/-- The member `InteractionsScalar(ei, iscalar)`. The product of two `SU_vector`s is their
scalar product. -/
def InteractionsScalar (ops : SUOps) (s : NuSQUIDS) (ei iscalar : Nat) : ℚ :=
  if !s.iinteraction then 0
  else
    forEach (ei + 1) s.ne (fun e2 (nutautoleptau : ℚ) =>
      nutautoleptau + ops.inner (s.evol_b1_proj iscalar 2 e2) (s.rho e2 iscalar) *
        s.invlen_CC iscalar 2 e2 * s.dNdE_CC iscalar 2 e2 ei * s.delE.data e2) 0

/-- The member `GetNucleonNumber()`. -/
def GetNucleonNumber (med : Medium) (s : NuSQUIDS) : ℚ :=
  let density := med.density (bodyOf s) (trackOf s)
  let num_nuc := (s.params.gr * s.params.cm ^ (-3 : ℤ)) * density * 2 /
    (s.params.proton_mass + s.params.neutron_mass)
  if num_nuc < 1 / 10 ^ 10 then s.params.Na * s.params.cm ^ (-3 : ℤ) * (1 / 10 ^ 10)
  else num_nuc

/-- The member `UpdateInteractions()`. -/
def UpdateInteractions (med : Medium) (s : NuSQUIDS) : NuSQUIDS :=
  let num_nuc := GetNucleonNumber med s
  forEach 0 s.nrhos (fun rho a =>
    forEach 0 a.numneu (fun flv b =>
      forEach 0 b.ne (fun e1 (c : NuSQUIDS) =>
        let c1 : NuSQUIDS :=
          { c with invlen_NC := set3 c.invlen_NC rho flv e1 (c.sigma_NC rho flv e1 * num_nuc) }
        let c2 : NuSQUIDS :=
          { c1 with invlen_CC := set3 c1.invlen_CC rho flv e1 (c1.sigma_CC rho flv e1 * num_nuc) }
        { c2 with invlen_INT := set3 c2.invlen_INT rho flv e1
                    (c2.invlen_NC rho flv e1 + c2.invlen_CC rho flv e1) }) b) a) s

/-- The member `PreDerive(x)`. `ProgressBar()` only prints, and the hook `AddToPreDerive` is
empty. -/
def PreDerive (ops : SUOps) (med : Medium) (x : ℚ) (s : NuSQUIDS) : NuSQUIDS :=
  let s1 := trackSetX (x - s.time_offset) s
  let s2 := if s1.basis ≠ .mass then EvolveProjectors ops x s1 else s1
  let s3 := if s2.iinteraction then UpdateInteractions med s2 else s2
  { s3 with progressbar_count := s3.progressbar_count + 1 }

/-- Modelled from the spec: the overload `HI(ie, irho, x)` that `GetHamiltonian` calls is
defined in the class declaration, which is not among the source files. The coherent term of the
specification is `H0(E) + HI(e, channel)` evaluated at the current path position, so the
overload hands over to `HI(ie, irho)`. -/
def HIx (med : Medium) (s : NuSQUIDS) (ie irho : Nat) (_x : ℚ) : Except String SU_vector :=
  HI med s ie irho

/-- The member `GetHamiltonian(ei, rho)`: the value returned or the exception thrown, and the
object after the call. -/
def GetHamiltonian (ops : SUOps) (med : Medium) (s : NuSQUIDS) (ei rho : Nat) :
    Except String SU_vector × NuSQUIDS :=
  if !s.ienergy then (.error "nuSQUIDS::Error::Energy not initialized", s)
  else
    let s1 := PreDerive ops med s.t s
    match HIx med s1 ei rho s1.t with
    | .ok v => (.ok (H0 s1 (s1.E_range.data ei) rho + v), s1)
    | .error msg => (.error msg, s1)

/-! ## Moves -/

/-- A destination and a source object after a move. -/
structure Moved where
  self : NuSQUIDS
  other : NuSQUIDS

/-- Modelled from the spec: the move constructor and the move assignment of the base class
`SQuIDS` are base-library code. They hand over the members of the base class: the dimensions,
the parameters, the nodes, the integrator times, the state buffer and the term switches. -/
def squidsMove (dest other : NuSQUIDS) : NuSQUIDS :=
  { dest with nsun := other.nsun, nrhos := other.nrhos, nscalars := other.nscalars,
              params := other.params, x := other.x, t := other.t, t_ini := other.t_ini,
              rho := other.rho, scalar := other.scalar,
              state_allocated := other.state_allocated,
              CoherentRhoTerms := other.CoherentRhoTerms,
              NonCoherentRhoTerms := other.NonCoherentRhoTerms,
              OtherRhoTerms := other.OtherRhoTerms,
              GammaScalarTerms := other.GammaScalarTerms,
              OtherScalarTerms := other.OtherScalarTerms,
              evolve_log := other.evolve_log }

/-- The member assignments shared by the initialiser list of the move constructor and the body
of the move assignment, in the order of the source (`ncs` and `tdc` are collaborators). -/
def takeMembers (dest other : NuSQUIDS) : NuSQUIDS :=
  { squidsMove dest other with
    basis := other.basis, numneu := other.numneu, ne := other.ne,
    E_range := other.E_range, delE := other.delE,
    dNdE_CC := other.dNdE_CC, dNdE_NC := other.dNdE_NC,
    invlen_NC := other.invlen_NC, invlen_CC := other.invlen_CC,
    invlen_INT := other.invlen_INT,
    sigma_CC := other.sigma_CC, sigma_NC := other.sigma_NC,
    invlen_tau := other.invlen_tau,
    dNdE_tau_all := other.dNdE_tau_all, dNdE_tau_lep := other.dNdE_tau_lep,
    taubr_lep := other.taubr_lep, tau_lifetime := other.tau_lifetime,
    tau_mass := other.tau_mass, tau_reg_scale := other.tau_reg_scale,
    positivization_scale := other.positivization_scale,
    body := other.body, track := other.track,
    DM2 := other.DM2, H0_array := other.H0_array,
    b0_proj := other.b0_proj, b1_proj := other.b1_proj,
    evol_b0_proj := other.evol_b0_proj, evol_b1_proj := other.evol_b1_proj,
    inusquids := other.inusquids, ibody := other.ibody, ienergy := other.ienergy,
    itrack := other.itrack, istate := other.istate, iinteraction := other.iinteraction,
    elogscale := other.elogscale, tauregeneration := other.tauregeneration,
    positivization := other.positivization, progressbar := other.progressbar,
    progressbar_count := other.progressbar_count,
    progressbar_loop := other.progressbar_loop,
    NT := other.NT }

/-- The move constructor `nuSQUIDS(nuSQUIDS&& other)`. A member without an initialiser holds
whatever its storage holds: `raw` is the new object before the initialiser list runs. What a
moved-from container holds is unspecified; the source is left as it was, but for the flag the
constructor clears. -/
def moveConstruct (raw other : NuSQUIDS) : Moved :=
  { self := takeMembers raw other,
    other := { other with inusquids := false } }

/-- The move assignment `operator=(nuSQUIDS&& other)`; `same` says that `other` is `*this`. -/
def moveAssign (same : Bool) (self other : NuSQUIDS) : Moved :=
  if same then { self := self, other := self }
  else
    { self := takeMembers self other,
      other := { other with inusquids := false } }

/-! ## Doubles with their non-finite values -/

/-- A `double` with the non-finite values of IEEE 754: a finite value (idealised as a rational;
rounding, overflow and the sign of zero are not kept), `+inf`, `-inf`, or not-a-number. -/
inductive Dbl where
  | fin (q : ℚ)
  | pinf
  | ninf
  | nan
  deriving DecidableEq

/-- The comparison `a < b` of two doubles: false as soon as one of them is not a number. -/
def Dbl.lt : Dbl → Dbl → Bool
  | .fin a, .fin b => decide (a < b)
  | .fin _, .pinf => true
  | .ninf, .fin _ => true
  | .ninf, .pinf => true
  | _, _ => false

/-- The comparison `a != b` of two doubles: true as soon as one of them is not a number. -/
def Dbl.ne : Dbl → Dbl → Bool
  | .nan, _ => true
  | _, .nan => true
  | a, b => decide (a ≠ b)

/-- The quotient `a / b` of two doubles. -/
def Dbl.div : Dbl → Dbl → Dbl
  | .nan, _ => .nan
  | _, .nan => .nan
  | .fin a, .fin b =>
    if b = 0 then (if a = 0 then .nan else if 0 < a then .pinf else .ninf) else .fin (a / b)
  | .fin _, .pinf => .fin 0
  | .fin _, .ninf => .fin 0
  | .pinf, .fin b => if b < 0 then .ninf else .pinf
  | .ninf, .fin b => if b < 0 then .pinf else .ninf
  | .pinf, .pinf => .nan
  | .pinf, .ninf => .nan
  | .ninf, .pinf => .nan
  | .ninf, .ninf => .nan

/-- Whether a double is finite (`std::isfinite`). -/
def Dbl.isFinite : Dbl → Bool
  | .fin _ => true
  | _ => false

/-- One assignment of the third block of `InitializeInteractions` (the `if`/`else` of lines
469-473 for `dNdE_NC` and of lines 474-478 for `dNdE_CC`) on doubles with their non-finite
values: `dsig` is the entry `dsignudE[rho][flv][e1][e2]` of the local array, `sigma` the total
cross section `sigma[rho][flv][e1]`; the result is the value stored in `dNdE[rho][flv][e1][e2]`. -/
def dNdEEntry (dsig sigma : Dbl) : Dbl :=
  if dsig.lt (.fin (1 / 10 ^ 50)) || dsig.ne dsig then .fin 0 else dsig.div sigma

/-! ## Predicates used in the statements and in the proofs -/

/-- The object `s` with new values for the four members the projector routines write. -/
def projUpd (p : Const) (i : Bool) (b1 : Nat → Nat → SU_vector)
    (eb1 : Nat → Nat → Nat → SU_vector) (s : NuSQUIDS) : NuSQUIDS :=
  { s with params := p, istate := i, b1_proj := b1, evol_b1_proj := eb1 }

/-- The object `t` differs from `s` at most in the parameters, the state flag and the two
families of flavor projectors. -/
def ProjFrame (s t : NuSQUIDS) : Prop :=
  ∃ p i b1 eb1, t = projUpd p i b1 eb1 s

/-- The object `s` with new values for the members that an integrator run, the positivity
correction and the tau conversion write. -/
def evolUpd (r : Evolved) (tr : Option Track) (log : List ℚ) (s : NuSQUIDS) : NuSQUIDS :=
  { s with rho := r.rho, scalar := r.scalar, t := r.t, track := tr,
           evol_b1_proj := r.evol_b1_proj,
           invlen_NC := r.invlen_NC, invlen_CC := r.invlen_CC, invlen_INT := r.invlen_INT,
           progressbar_count := r.progressbar_count, evolve_log := log }

/-- The object `t` differs from `s` at most in what the evolution driver writes, and its track
has the same two ends as that of `s`. -/
def EvolFrame (s t : NuSQUIDS) : Prop :=
  ∃ r tr log, t = evolUpd r tr log s ∧ (trackOf t).xini = (trackOf s).xini ∧
    (trackOf t).xend = (trackOf s).xend

/-- The guards of `EvolveState`, as a condition on the object at entry. -/
def EvolveStateGuardFails (s : NuSQUIDS) : Prop :=
  s.body = none ∨ s.ibody = false ∨ s.track = none ∨ s.itrack = false ∨
    s.istate = false ∨ s.ienergy = false

/-- The scalar product is linear in each argument. -/
structure SUOps.Bilinear (ops : SUOps) : Prop where
  add_left : ∀ a b c, ops.inner (a + b) c = ops.inner a c + ops.inner b c
  smul_left : ∀ (k : ℚ) a c, ops.inner (k • a) c = k * ops.inner a c
  add_right : ∀ a b c, ops.inner a (b + c) = ops.inner a b + ops.inner a c
  smul_right : ∀ (k : ℚ) a c, ops.inner a (k • c) = k * ops.inner a c

/-- The object `s` with a new vacuum Hamiltonian. -/
def h0Upd (d : SU_vector) (h : Nat → SU_vector) (s : NuSQUIDS) : NuSQUIDS :=
  { s with DM2 := d, H0_array := h }

/-- The object `s` with new density matrices. -/
def rhoUpd (R : Nat → Nat → SU_vector) (s : NuSQUIDS) : NuSQUIDS :=
  { s with rho := R }

/-- The object `s` with new scalars. -/
def scalarUpd (S : Nat → Nat → ℚ) (s : NuSQUIDS) : NuSQUIDS :=
  { s with scalar := S }

/-- The flavor projectors of channel `rho` are orthonormal under the scalar product. -/
def FlavorOrthonormal (ops : SUOps) (s : NuSQUIDS) (rho : Nat) : Prop :=
  ∀ f g, f < s.numneu → g < s.numneu →
    ops.inner (s.b1_proj rho f) (s.b1_proj rho g) = if f = g then 1 else 0

/-- The number `EvalFlavorAtNode(flv, ei, rho)` returns when it returns. -/
def flavorValue (ops : SUOps) (s : NuSQUIDS) (flv ei rho : Nat) : ℚ :=
  if s.basis = .mass then ops.inner (s.b1_proj rho flv) (s.rho ei rho)
  else GetExpectationValue ops s (s.b1_proj rho flv) rho ei

/-- The channel count agrees with the particle type, as both `init` members leave it: a single
channel unless the type is `both`. -/
def ChannelsMatchType (s : NuSQUIDS) : Prop :=
  s.NT ≠ .both → s.nrhos ≤ 1

/-- The object `s` with new scalars and the state flag set. -/
def finishUpd (S : Nat → Nat → ℚ) (s : NuSQUIDS) : NuSQUIDS :=
  { s with scalar := S, istate := true }

/-- The density matrix that the filling loop of `Set_initial_state` builds at node `i`, channel
`r`, for basis `flavor`: the zero multiple of the first mass projector plus the weighted flavor
projectors, added in the order of the loop. -/
def filledFlavor (s : NuSQUIDS) (n : Nat) (v : Nat → Nat → Nat → ℚ) (i r : Nat) : SU_vector :=
  (0 : ℚ) • s.b0_proj 0 + ∑ j in Finset.range n, v i r j • s.b1_proj r j

/-- The operator `EvalFlavorAtNode(flv, ie, rho)` evaluates the state against: the flavor
projector itself in the mass basis, the flavor projector evolved over the elapsed integrator time
otherwise. -/
def evalOp (ops : SUOps) (s : NuSQUIDS) (flv ie rho : Nat) : SU_vector :=
  if s.basis = .mass then s.b1_proj rho flv
  else ops.Evolve (s.b1_proj rho flv) (H0 s (s.x ie) rho) (s.t - s.t_ini)

/-- The number `EvalFlavorAtNode(flv, ie, rho)` returns when the density matrix at that node and
channel is `X`. -/
def valOf (ops : SUOps) (s : NuSQUIDS) (X : SU_vector) (flv ie rho : Nat) : ℚ :=
  if s.basis = .mass then ops.inner (evalOp ops s flv ie rho) X
  else ops.inner X (evalOp ops s flv ie rho)

/-- One pass of the innermost statement of `PositivizeFlavors` on the density matrix `Y` of node
`ie`, channel `rho`. -/
def posStep (ops : SUOps) (s : NuSQUIDS) (ie rho flv : Nat) (Y : SU_vector) : SU_vector :=
  if valOf ops s Y flv ie rho < 0 then Y - valOf ops s Y flv ie rho • s.evol_b1_proj rho flv ie
  else Y

/-- The innermost loop of `PositivizeFlavors` on the density matrix `X` of node `ie`, channel
`rho`. -/
def posSlot (ops : SUOps) (s : NuSQUIDS) (ie rho : Nat) (X : SU_vector) : SU_vector :=
  forEach 0 s.numneu (posStep ops s ie rho) X

/-- The density matrices after `PositivizeFlavors`. -/
def positivized (ops : SUOps) (s : NuSQUIDS) : Nat → Nat → SU_vector :=
  fun ie rho => if rho < s.nrhos ∧ ie < s.ne then posSlot ops s ie rho (s.rho ie rho) else s.rho ie rho

/-- The evolved flavor projectors are the operators that `EvalFlavorAtNode` evaluates against,
and they are orthonormal under the scalar product. -/
def EvolvedProjectorsOrthonormal (ops : SUOps) (s : NuSQUIDS) : Prop :=
  (∀ rho ie f, rho < s.nrhos → ie < s.ne → f < s.numneu →
    evalOp ops s f ie rho = s.evol_b1_proj rho f ie) ∧
  (∀ rho ie f g, rho < s.nrhos → ie < s.ne → f < s.numneu → g < s.numneu →
    ops.inner (s.evol_b1_proj rho f ie) (s.evol_b1_proj rho g ie) = if f = g then 1 else 0)

/-- The spec's sum `A_c(e1)`: the all-daughter tau kernel weighted by the node width and the
scalar of channel `c`, summed over the nodes above `e1`. -/
def tauAll (s : NuSQUIDS) (c e1 : Nat) : ℚ :=
  ∑ e2 in Finset.Ico (e1 + 1) s.ne, s.dNdE_tau_all e2 e1 * s.delE.data e2 * s.scalar e2 c

/-- The spec's sum `L_c(e1)`: the same sum with the leptonic tau kernel. -/
def tauLep (s : NuSQUIDS) (c e1 : Nat) : ℚ :=
  ∑ e2 in Finset.Ico (e1 + 1) s.ne, s.dNdE_tau_lep e2 e1 * s.delE.data e2 * s.scalar e2 c

/-- What `ConvertTauIntoNuTau` adds to `state[e1].rho[r]` for `r = 0` and `r = 1`, written with
the accumulators of the inner loop and in the order of the source. -/
def tauIncrement (s : NuSQUIDS) (e1 r : Nat) : SU_vector :=
  if r = 0 then
    (tauSums s e1).tau_neu_all • s.evol_b1_proj 0 2 e1 +
      (tauSums s e1).tau_aneu_lep • s.evol_b1_proj 0 0 e1 +
      (tauSums s e1).tau_aneu_lep • s.evol_b1_proj 0 1 e1
  else
    (tauSums s e1).tau_aneu_all • s.evol_b1_proj 1 2 e1 +
      (tauSums s e1).tau_neu_lep • s.evol_b1_proj 1 0 e1 +
      (tauSums s e1).tau_neu_lep • s.evol_b1_proj 1 1 e1

/-- A row-major buffer of `n` rows of `m` entries holding `f row column`, zero beyond. -/
def flatBuf (f : Nat → Nat → ℚ) (n m : Nat) : Nat → ℚ :=
  fun k => if k < n * m then f (k / m) (k % m) else 0

/-- The chunk length `EvolveState` uses in its chunked modes: the positivity scale when only
the positivity correction is on, the tau scale when only tau regeneration is on, the smaller of
the two when both are on. -/
def chunkScale (s : NuSQUIDS) : ℚ :=
  if s.tauregeneration then
    (if s.positivization then min s.tau_reg_scale s.positivization_scale else s.tau_reg_scale)
  else s.positivization_scale

/-- The number of full chunks `EvolveState` computes in its chunked modes. -/
def chunkSteps (s : NuSQUIDS) : Int :=
  castInt (((trackOf s).GetFinalX - (trackOf s).GetInitialX) / chunkScale s)

/-- The object `s` with new tau decay kernels. -/
def tauKernelUpd (tall tlep : Nat → Nat → ℚ) (s : NuSQUIDS) : NuSQUIDS :=
  { s with dNdE_tau_all := tall, dNdE_tau_lep := tlep }

/-- The operator `W` of the matter potential as the specification words it: with
`K = sqrt2 * G_F * N_A / cm^3`, `CC = K * density * ye`, `NC = K * density` for `ye < 1e-10` and
`NC = CC * (-0.5 * (1 - ye) / ye)` otherwise, `W = (CC + NC) P_e + NC P_mu + NC P_tau` over the
evolved flavor projectors of channel `irho` at node `ie`, plus `H0_array[ie]` in the mass
basis. -/
def matterPotential (med : Medium) (s : NuSQUIDS) (ie irho : Nat) : SU_vector :=
  let K := s.params.sqrt2 * s.params.GF * s.params.Na / s.params.cm ^ 3
  let ye := med.ye (bodyOf s) (trackOf s)
  let density := med.density (bodyOf s) (trackOf s)
  let CC := K * density * ye
  let NC := if ye < 1 / 10 ^ 10 then K * density else CC * (-(1 / 2 : ℚ) * (1 - ye) / ye)
  let W : SU_vector := (CC + NC) • s.evol_b1_proj irho 0 ie + NC • s.evol_b1_proj irho 1 ie +
    NC • s.evol_b1_proj irho 2 ie
  if s.basis = .mass then W + s.H0_array ie else W

/-- The object `t` has the dimensions, the particle type, the energy grid with its widths and
the configuration flags of `s`, and its state flag is clear if that of `s` is. -/
def Kept (s t : NuSQUIDS) : Prop :=
  t.numneu = s.numneu ∧ t.ne = s.ne ∧ t.nrhos = s.nrhos ∧ t.nsun = s.nsun ∧
  t.nscalars = s.nscalars ∧ t.NT = s.NT ∧ t.iinteraction = s.iinteraction ∧
  t.elogscale = s.elogscale ∧ t.ienergy = s.ienergy ∧
  t.delE = s.delE ∧ t.E_range = s.E_range ∧ (s.istate = false → t.istate = false)

/-- The calls a client makes on an object, each with its arguments. -/
inductive Call
  | setMixingAngle (i j : Nat) (val : ℚ)
  | setCPPhase (i j : Nat) (val : ℚ)
  | setSquareMassDifference (i : Nat) (val : ℚ)
  | setE (Enu : ℚ)
  | setBody (body_in : Option Body)
  | setTrack (track_in : Track)
  | setBasis (b : Basis)
  | setPositivityConstrain (opt : Bool)
  | setPositivityConstrainStep (step : ℚ)
  | setTauRegeneration (opt : Bool)
  | setInitialState1 (v : marray1) (basis : Basis)
  | setInitialState2 (v : marray2) (basis : Basis)
  | setInitialState3 (v : marray3) (basis : Basis)
  | evolveState
  | readStateHDF5 (file : H5File) (grp cross_section_grp_loc : String)

/-- The member a call stands for, applied to the object. -/
def Call.perform (ext : External) (c : Call) (s : NuSQUIDS) : Outcome NuSQUIDS :=
  match c with
  | .setMixingAngle i j val => Set_MixingAngle i j val s
  | .setCPPhase i j val => Set_CPPhase i j val s
  | .setSquareMassDifference i val => Set_SquareMassDifference i val s
  | .setE Enu => Set_E Enu s
  | .setBody body_in => .ok (Set_Body body_in s)
  | .setTrack track_in => .ok (Set_Track track_in s)
  | .setBasis b => Set_Basis b s
  | .setPositivityConstrain opt => .ok (Set_PositivityConstrain opt s)
  | .setPositivityConstrainStep step => .ok (Set_PositivityConstrainStep step s)
  | .setTauRegeneration opt => Set_TauRegeneration opt s
  | .setInitialState1 v basis => Set_initial_state1 ext v basis s
  | .setInitialState2 v basis => Set_initial_state2 ext v basis s
  | .setInitialState3 v basis => Set_initial_state3 ext v basis s
  | .evolveState => EvolveState ext s
  | .readStateHDF5 file grp loc => ReadStateHDF5 ext file grp loc s

/-- Whether the call is one of those that store a state: the three overloads of
`Set_initial_state` and `ReadStateHDF5`. -/
def Call.storesState : Call → Bool
  | .setInitialState1 _ _ => true
  | .setInitialState2 _ _ => true
  | .setInitialState3 _ _ => true
  | .readStateHDF5 _ _ _ => true
  | _ => false

/-- The object after a sequence of calls. A call that throws leaves the object as it was at the
throw, and the client carries on with it. -/
def runCalls (ext : External) : List Call → NuSQUIDS → NuSQUIDS
  | [], s => s
  | c :: cs, s => runCalls ext cs (c.perform ext s).obj

/-- Whether, in the course of the sequence, a call that stores a state returned. -/
def stateStoredDuring (ext : External) : List Call → NuSQUIDS → Bool
  | [], _ => false
  | c :: cs, s =>
    (c.storesState && !(c.perform ext s).isRaised) ||
      stateStoredDuring ext cs (c.perform ext s).obj

/-- An index of a rank-4 array: channel, flavor, upper node, lower node. -/
abbrev Idx4 := Nat × Nat × Nat × Nat

/-- The object `s` with the two kernels `dNdE_NC` (first component) and `dNdE_CC` (second
component) replaced. -/
def kernelPut (s : NuSQUIDS) (g : Idx4 → ℚ × ℚ) : NuSQUIDS :=
  { s with dNdE_NC := fun a b c d => (g (a, b, c, d)).1,
           dNdE_CC := fun a b c d => (g (a, b, c, d)).2 }

/-- The two kernels of `s`, neutral current first. -/
def kernelGet (s : NuSQUIDS) : Idx4 → ℚ × ℚ :=
  fun x => (s.dNdE_NC x.1 x.2.1 x.2.2.1 x.2.2.2, s.dNdE_CC x.1 x.2.1 x.2.2.1 x.2.2.2)

/-- The pair of kernel entries that the third block of `InitializeInteractions` stores at an
index: zero below the threshold `1e-50`, the differential cross section over the total one
otherwise. -/
def kernelEntry (w : InteractionsWork) (x : Idx4) : ℚ × ℚ :=
  (if w.dsignudE_NC x.1 x.2.1 x.2.2.1 x.2.2.2 < 1 / 10 ^ 50 then 0
    else w.dsignudE_NC x.1 x.2.1 x.2.2.1 x.2.2.2 / w.self.sigma_NC x.1 x.2.1 x.2.2.1,
   if w.dsignudE_CC x.1 x.2.1 x.2.2.1 x.2.2.2 < 1 / 10 ^ 50 then 0
    else w.dsignudE_CC x.1 x.2.1 x.2.2.1 x.2.2.2 / w.self.sigma_CC x.1 x.2.1 x.2.2.1)

/-- The work record over the object `s` with the two local arrays `dsignudE_CC` (first
component) and `dsignudE_NC` (second component). -/
def workPut (s : NuSQUIDS) (g : Idx4 → ℚ × ℚ) : InteractionsWork :=
  { self := s,
    dsignudE_CC := fun a b c d => (g (a, b, c, d)).1,
    dsignudE_NC := fun a b c d => (g (a, b, c, d)).2 }

/-- The two local arrays of a work record, charged current first. -/
def workGet (w : InteractionsWork) : Idx4 → ℚ × ℚ :=
  fun x => (w.dsignudE_CC x.1 x.2.1 x.2.2.1 x.2.2.2, w.dsignudE_NC x.1 x.2.1 x.2.2.1 x.2.2.2)

/-- The pair of entries that the second block of `InitializeInteractions` stores at an index:
the old entry times the factor of its row, `(sigma[e1] - XMIN) / Xint`, where `Xint` is the sum
of the old entries of the row weighted by the node widths and `XMIN` is, for both components,
`sigma_CC[0]`, as in the source. -/
def rescaled (s : NuSQUIDS) (g : Idx4 → ℚ × ℚ) (x : Idx4) : ℚ × ℚ :=
  ((g x).1 * ((s.sigma_CC x.1 x.2.1 x.2.2.1 - s.sigma_CC x.1 x.2.1 0) /
      ∑ e2 in Finset.range x.2.2.1, (g (x.1, x.2.1, x.2.2.1, e2)).1 * s.delE.data e2),
   (g x).2 * ((s.sigma_NC x.1 x.2.1 x.2.2.1 - s.sigma_CC x.1 x.2.1 0) /
      ∑ e2 in Finset.range x.2.2.1, (g (x.1, x.2.1, x.2.2.1, e2)).2 * s.delE.data e2))

/-- The object `s` with new tau decay tables. -/
def tauTablesUpd (il : Nat → ℚ) (ta tl : Nat → Nat → ℚ) (s : NuSQUIDS) : NuSQUIDS :=
  { s with invlen_tau := il, dNdE_tau_all := ta, dNdE_tau_lep := tl }

/-- The work record of `InitializeInteractions` after its first block: the object with the
total cross sections of the provider, and the two local arrays with its differential cross
sections. -/
def loadedWork (ext : External) (s : NuSQUIDS) : InteractionsWork :=
  loadCrossSections ext
    { self := s, dsignudE_CC := fun _ _ _ _ => ext.uninit 0 0,
      dsignudE_NC := fun _ _ _ _ => ext.uninit 1 0 }

/-- The work record of `InitializeInteractions` at the entry of its third block: after the
rescaling pass when `FixCrossSections` is defined, straight from the first block otherwise. -/
def passedWork (ext : External) (s : NuSQUIDS) : InteractionsWork :=
  if ext.FixCrossSections then fixCrossSections (loadedWork ext s) else loadedWork ext s

/-- The anticommutator is linear in its second argument. -/
def ACommLinear (ops : SUOps) : Prop :=
  (∀ a b c, ops.ACommutator a (b + c) = ops.ACommutator a b + ops.ACommutator a c) ∧
  (∀ a (k : ℚ) b, ops.ACommutator a (k • b) = k • ops.ACommutator a b)
/-- The matter potential `V = (CC + NC) P_e + NC P_mu + NC P_tau` without any vacuum term, with
`CC` and `NC` as in `matterPotential`, over the evolved flavor projectors of channel `irho` at
node `ie`. -/
def flavorPotential (med : Medium) (s : NuSQUIDS) (ie irho : Nat) : SU_vector :=
  let K := s.params.sqrt2 * s.params.GF * s.params.Na / s.params.cm ^ 3
  let ye := med.ye (bodyOf s) (trackOf s)
  let density := med.density (bodyOf s) (trackOf s)
  let CC := K * density * ye
  let NC := if ye < 1 / 10 ^ 10 then K * density else CC * (-(1 / 2 : ℚ) * (1 - ye) / ye)
  (CC + NC) • s.evol_b1_proj irho 0 ie + NC • s.evol_b1_proj irho 1 ie +
    NC • s.evol_b1_proj irho 2 ie
/-- The object `s` with new values for the members that `PreDerive` writes. -/
def preDeriveUpd (tr : Option Track) (eb : Nat → Nat → Nat → SU_vector)
    (nc cc it : Nat → Nat → Nat → ℚ) (n : Nat) (s : NuSQUIDS) : NuSQUIDS :=
  { s with track := tr, evol_b1_proj := eb, invlen_NC := nc, invlen_CC := cc, invlen_INT := it,
           progressbar_count := n }
/-- The vacuum Hamiltonian is consistent with the parameters and the energies: `DM2` is the sum
over `i` from 1 to `numneu - 1` of `GetEnergyDifference(i)` times the mass projector `i`, and
`H0_array[ei] = DM2 * (0.5 / E[ei])` at every node. -/
def VacuumConsistent (s : NuSQUIDS) : Prop :=
  s.DM2 = ∑ i in Finset.Ico 1 s.numneu, s.params.GetEnergyDifference i • s.b0_proj i ∧
  ∀ ei, ei < s.ne → s.H0_array ei = ((1 / 2) / s.E_range.data ei) • s.DM2

/-! ## Sample objects -/

/-- A parameter set with every angle, phase and splitting zero and every unit equal to one. -/
def exampleConst : Const :=
  { th := fun _ _ => 0, delta := fun _ _ => 0, de := fun _ => 0,
    GeV := 1, MeV := 1, sec := 1, km := 1, cm := 1, gr := 1, Na := 1, GF := 1, sqrt2 := 1,
    proton_mass := 1, neutron_mass := 1 }

/-- Sample collaborators: vectors with three significant components and the dot product on
them, a rotation and an operator evolution that change nothing, unit vectors as projectors, an
integrator that advances the time and the track position and leaves the state as it is, zeroed
allocations, and the codes 0, 1, 2 for the three particle types. -/
def exampleExt : External :=
  { inner := fun a b => a 0 * b 0 + a 1 * b 1 + a 2 * b 2,
    Evolve := fun op _ _ => op,
    RotateToB1 := fun _ v => v,
    Projector := fun _ i => fun k => if k = i then 1 else 0,
    ACommutator := fun a b => fun k => 2 * a k * b k,
    integrate := fun dt s =>
      { rho := s.rho, scalar := s.scalar, t := s.t + dt, track_x := (trackOf s).x + dt,
        evol_b1_proj := s.evol_b1_proj, invlen_NC := s.invlen_NC, invlen_CC := s.invlen_CC,
        invlen_INT := s.invlen_INT, progressbar_count := s.progressbar_count },
    fresh_rho := fun _ _ => 0,
    fresh_scalar := fun _ _ => 0,
    logspace := fun a _ n => { extent0 := n + 1, data := fun k => a + k },
    linspace := fun a _ n => { extent0 := n + 1, data := fun k => a + k },
    xgrid := fun a _ _ _ => fun k => a + k,
    SQUIDS_MAX_HILBERT_DIM := 6,
    SQUIDS_VERSION := 1,
    NUSQUIDS_VERSION := 1,
    FixCrossSections := false,
    TotalCrossSection := fun _ _ _ _ => 1,
    DifferentialCrossSection := fun _ _ _ _ _ => 1,
    dNdEnu_All := fun _ _ => 1,
    dNdEnu_Lep := fun _ _ => 1,
    nt_code := fun nt =>
      match nt with
      | .neutrino => 0
      | .antineutrino => 1
      | .both => 2
      | .invalid c => c,
    nt_of_code := fun c =>
      if c = 0 then .neutrino else if c = 1 then .antineutrino else if c = 2 then .both
      else .invalid c,
    makeBody := fun id ps => { id := id, name := "", params := ps },
    makeTrack := fun _ ps => { x := ps.getD 0 0, xini := ps.getD 0 0, xend := ps.getD 1 0, params := ps },
    uninit := fun _ _ => 0 }

/-- A sample object: three flavors, one energy node at energy 1, neutrinos only, the
interaction basis, a vacuum body and a track from 0 to 0, unit vectors as mass projectors and as
flavor projectors, an empty state buffer, body, track and energy set, no initial state yet. -/
def exampleObject : NuSQUIDS :=
  { basis := .interaction, numneu := 3, ne := 1, nsun := 3, nrhos := 1, nscalars := 0,
    NT := .neutrino, params := exampleConst,
    E_range := { extent0 := 1, data := fun _ => 1 },
    delE := { extent0 := 0, data := fun _ => 0 },
    x := fun _ => 1, t := 0, t_ini := 0, time_offset := 0,
    rho := fun _ _ => 0, scalar := fun _ _ => 0, state_allocated := true,
    dNdE_CC := fun _ _ _ _ => 0, dNdE_NC := fun _ _ _ _ => 0,
    invlen_NC := fun _ _ _ => 0, invlen_CC := fun _ _ _ => 0, invlen_INT := fun _ _ _ => 0,
    sigma_CC := fun _ _ _ => 0, sigma_NC := fun _ _ _ => 0,
    invlen_tau := fun _ => 0, dNdE_tau_all := fun _ _ => 0, dNdE_tau_lep := fun _ _ => 0,
    taubr_lep := 0, tau_lifetime := 0, tau_mass := 0, tau_reg_scale := 1,
    positivization_scale := 1,
    body := some { id := 1, name := "Vacuum", params := [] },
    track := some { x := 0, xini := 0, xend := 0, params := [0, 0] },
    DM2 := 0, H0_array := fun _ => 0,
    b0_proj := fun i => fun k => if k = i then 1 else 0,
    b1_proj := fun _ i => fun k => if k = i then 1 else 0,
    evol_b0_proj := fun _ i _ => fun k => if k = i then 1 else 0,
    evol_b1_proj := fun _ i _ => fun k => if k = i then 1 else 0,
    inusquids := true, ibody := true, ienergy := true, itrack := true, istate := false,
    iinteraction := false, elogscale := false, tauregeneration := false,
    positivization := false, progressbar := false, progressbar_count := 0,
    progressbar_loop := 100,
    CoherentRhoTerms := true, NonCoherentRhoTerms := false, OtherRhoTerms := false,
    GammaScalarTerms := false, OtherScalarTerms := false,
    evolve_log := [] }

/-- A pure electron-flavor initial state for three flavors, as a rank-1 array. -/
def electronState1 : marray1 :=
  { extent0 := 3, data := fun j => if j = 0 then 1 else 0 }

/-- A pure electron-flavor initial state for one node and three flavors, as a rank-2 array. -/
def electronState2 : marray2 :=
  { extent0 := 1, extent1 := 3, data := fun _ j => if j = 0 then 1 else 0 }

/-- The sample object with a state whose electron-flavor content is negative: the density
matrix at every node has the components -1, 2, 0. -/
def negativeObject : NuSQUIDS :=
  { exampleObject with
    rho := fun _ _ => fun k => if k = 0 then -1 else if k = 1 then 2 else 0,
    istate := true }

/-- The sample object on two nodes with both particle types and two scalars per node: the upper
node holds 3 taus and 5 antitaus, the node width is 2, the all-daughter kernel is 1/2 and the
leptonic kernel is 1/4. -/
def tauObject : NuSQUIDS :=
  { exampleObject with
    ne := 2, nrhos := 2, nscalars := 2, NT := .both,
    scalar := fun e c => if e = 1 then (if c = 0 then 3 else 5) else 0,
    delE := { extent0 := 1, data := fun _ => 2 },
    dNdE_tau_all := fun _ _ => 1 / 2,
    dNdE_tau_lep := fun _ _ => 1 / 4,
    iinteraction := true, istate := true }

/-- The sample object with an initial state, a track from 1 to 3, and the positivity
correction on with scale 1. -/
def offsetTrackObject : NuSQUIDS :=
  { exampleObject with
    track := some { x := 1, xini := 1, xend := 3, params := [1, 3] },
    positivization := true, positivization_scale := 1, istate := true }

/-- An empty file. -/
def emptyFile : H5File :=
  { attr_double := fun _ _ _ => 0, attr_int := fun _ _ _ => 0, attr_string := fun _ _ _ => "",
    dims := fun _ _ _ => 0, data := fun _ _ _ => 0 }

/-- The sample object with an initial state and the mixing angle `th12` set to 1/2, which is not
the default value. -/
def tunedObject : NuSQUIDS :=
  { exampleObject with
    params := exampleConst.SetMixingAngle 0 1 (1 / 2),
    istate := true }

/-- A reader on which no `init` has run yet. -/
def freshObject : NuSQUIDS :=
  { exampleObject with
    numneu := 0, ne := 0, nsun := 0, nrhos := 0, body := none, track := none,
    inusquids := false, ibody := false, ienergy := false, itrack := false,
    state_allocated := false }

/-- The two-node sample object with interaction tables: every total cross section is 7 (charged
current) and 11 (neutral current), every kernel entry 1/3, the tau decay lengths 9, the tau
kernels 1/2 and 1/4. -/
def xsObject : NuSQUIDS :=
  { tauObject with
    sigma_CC := fun _ _ _ => 7, sigma_NC := fun _ _ _ => 11,
    dNdE_CC := fun _ _ _ _ => 1 / 3, dNdE_NC := fun _ _ _ _ => 1 / 3,
    invlen_tau := fun _ => 9 }

/-- The object of the example `mul_ene_ex4`: 150 nodes, three flavors, neutrinos only, body and
track set; one scalar per node with the value 5 is added so that the zeroing of the scalars
shows. -/
def atmObject : NuSQUIDS :=
  { exampleObject with
    ne := 150, nscalars := 1,
    E_range := { extent0 := 150, data := fun k => 10000 + k },
    scalar := fun _ _ => 5 }

/-- The 150 x 3 initial state of the example `mul_ene_ex4`: muon flavor only, `N0 / E`. -/
def inistate : marray2 :=
  { extent0 := 150, extent1 := 3,
    data := fun i k => if k = 1 then 10 ^ 18 * (atmObject.E_range.data i)⁻¹ else 0 }

/-- A medium of density 2 and electron fraction 1/2. -/
def exampleMedium : Medium :=
  { ye := fun _ _ => 1 / 2, density := fun _ _ => 2 }

/-- The sample object with a single flavor. -/
def oneFlavorObject : NuSQUIDS :=
  { exampleObject with numneu := 1, nsun := 1 }

/-- Sample collaborators with the rescaling pass compiled in: the charged-current total cross
section at energy `E` is `E`, the neutral-current one `3 E`, every differential cross section
is 1. -/
def fixExt : External :=
  { exampleExt with
    FixCrossSections := true,
    TotalCrossSection := fun E _ _ cc => if cc then E else 3 * E,
    DifferentialCrossSection := fun _ _ _ _ _ => 1 }

/-- The two-channel sample object on the nodes `E = 1, 2` with the node width 1. -/
def gridObject : NuSQUIDS :=
  { tauObject with
    E_range := { extent0 := 2, data := fun k => k + 1 },
    delE := { extent0 := 1, data := fun _ => 1 } }

/-- The two-channel sample object on the nodes `E = 1, 2` with interactions: every density
matrix has all components 1, the charged-current inverse lengths and kernels are 1, and the
width array has its one entry `delE[0] = 1`; `w` is what lies behind it, at index 1. -/
def widthObject (w : ℚ) : NuSQUIDS :=
  { gridObject with
    delE := { extent0 := 1, data := fun k => if k = 0 then 1 else w },
    rho := fun _ _ => fun _ => 1,
    invlen_CC := fun _ _ _ => 1,
    dNdE_CC := fun _ _ _ _ => 1 }

/-- A mode-both object before `init`, constructed without interactions. -/
def bareSeed : NuSQUIDS :=
  { freshObject with numneu := 3, NT := .both, iinteraction := false }

/-- The two-node mode-both sample object without interactions: no scalars are allocated
(`nscalars = 0`); `q` is what lies where the first scalar of the upper node would be. -/
def bareObject (q : ℚ) : NuSQUIDS :=
  { gridObject with
    nscalars := 0, iinteraction := false,
    scalar := fun e c => if e = 1 ∧ c = 0 then q else 0 }

/-- A three-flavor object in mode `both` before `init`, constructed with interactions. -/
def interactingSeed : NuSQUIDS :=
  { freshObject with numneu := 3, NT := .both, iinteraction := true }
/-- The sample object in the mass basis with the second mass splitting set to 2: the
mass-splitting operator is `2 * massProjector[1]` and, at the energy 1, the vacuum term stored
in `H0_array[0]` is `massProjector[1]`, as `iniH0` computes them. -/
def massObject : NuSQUIDS :=
  { exampleObject with
    basis := .mass,
    params := exampleConst.SetEnergyDifference 1 2,
    DM2 := fun k => if k = 1 then 2 else 0,
    H0_array := fun _ => fun k => if k = 1 then 1 else 0,
    istate := true }
/-- The sample object in mode `both` with an initial state: at its one node the neutrino density
matrix is the electron projector and the antineutrino density matrix is the muon projector. -/
def pairObject : NuSQUIDS :=
  { exampleObject with
    NT := .both, nrhos := 2,
    rho := fun _ r => fun k => if k = r then 1 else 0,
    istate := true }
/-- A two-flavor object in mode `both` before `init`, constructed with interactions. -/
def twoFlavorSeed : NuSQUIDS :=
  { freshObject with numneu := 2, NT := .both, iinteraction := true }

/-- A two-flavor object on two nodes with interactions: the projector and table entries of the
flavors 0 and 1 are allocated; `p` is what lies in every component of the entries
`evol_b1_proj[rho][2][e]`, behind the last flavor. Every inverse length, kernel entry and
density-matrix component is 1. -/
def twoFlavorObject (p : ℚ) : NuSQUIDS :=
  { gridObject with
    numneu := 2, nsun := 2,
    evol_b1_proj := fun _ i _ => fun k => if i = 2 then p else if k = i then 1 else 0,
    rho := fun _ _ => fun _ => 1,
    invlen_INT := fun _ _ _ => 1, invlen_NC := fun _ _ _ => 1, invlen_CC := fun _ _ _ => 1,
    dNdE_NC := fun _ _ _ _ => 1, dNdE_CC := fun _ _ _ _ => 1 }

/-- The sample object at integrator time 5 after `Set_Track` with a track that starts at 0: the
time offset is 5. -/
def shiftedObject : NuSQUIDS :=
  { exampleObject with t := 5, time_offset := 5, istate := true }
/-- A single-energy two-flavor writer with an initial state and the mass splitting
`dm21sq = 3`. -/
def twoFlavorWriter : NuSQUIDS :=
  { exampleObject with
    numneu := 2, nsun := 2,
    params := exampleConst.SetEnergyDifference 1 3,
    DM2 := fun k => if k = 1 then 3 else 0,
    H0_array := fun _ => fun k => if k = 1 then 3 / 2 else 0,
    istate := true }

/-- A single-energy three-flavor reader on which `init` has run, with an initial state and the
mass splitting `dm31sq = 7`; its vacuum Hamiltonian is the one `iniH0` computes. -/
def staleReader : NuSQUIDS :=
  { exampleObject with
    params := exampleConst.SetEnergyDifference 2 7,
    DM2 := fun k => if k = 2 then 7 else 0,
    H0_array := fun _ => fun k => if k = 2 then 7 / 2 else 0,
    istate := true }

/-! ## Loops -/

theorem loopFrom_inv {σ : Type} (body : Nat → σ → Outcome σ) (Inv : Nat → σ → Prop) :
    ∀ (n i : Nat) (s : σ), Inv i s →
      (∀ k t, i ≤ k → k < i + n → Inv k t → ∃ t', body k t = .ok t' ∧ Inv (k + 1) t') →
      ∃ s', loopFrom body i n s = .ok s' ∧ Inv (i + n) s' := by
  intro n
  induction n with
  | zero => intro i s hs _; exact ⟨s, rfl, by simpa using hs⟩
  | succ n ih =>
    intro i s hs hstep
    obtain ⟨t', hb, ht'⟩ := hstep i s (le_refl _) (by omega) hs
    obtain ⟨s', hl, hs'⟩ := ih (i + 1) t' ht'
      (fun k t hk1 hk2 hI => hstep k t (by omega) (by omega) hI)
    refine ⟨s', ?_, ?_⟩
    · simp [loopFrom, hb, hl]
    · have h : i + (n + 1) = i + 1 + n := by omega
      rw [h]; exact hs'

theorem forLoop_inv {σ : Type} (body : Nat → σ → Outcome σ) (Inv : Nat → σ → Prop)
    (lo hi : Nat) (s : σ) (hle : lo ≤ hi) (hs : Inv lo s)
    (hstep : ∀ k t, lo ≤ k → k < hi → Inv k t → ∃ t', body k t = .ok t' ∧ Inv (k + 1) t') :
    ∃ s', forLoop lo hi body s = .ok s' ∧ Inv hi s' := by
  obtain ⟨s', h1, h2⟩ := loopFrom_inv body Inv (hi - lo) lo s hs
    (fun k t hk1 hk2 hI => hstep k t hk1 (by omega) hI)
  refine ⟨s', h1, ?_⟩
  have h : lo + (hi - lo) = hi := by omega
  rw [h] at h2; exact h2

theorem forLoop_closed {σ : Type} (body : Nat → σ → Outcome σ) (P : σ → Prop)
    (lo hi : Nat) (s : σ) (hs : P s)
    (hstep : ∀ k t, lo ≤ k → k < hi → P t → ∃ t', body k t = .ok t' ∧ P t') :
    ∃ s', forLoop lo hi body s = .ok s' ∧ P s' := by
  obtain ⟨s', h1, h2⟩ := loopFrom_inv body (fun _ t => P t) (hi - lo) lo s hs
    (fun k t hk1 hk2 hI => hstep k t hk1 (by omega) hI)
  exact ⟨s', h1, h2⟩

theorem iterFrom_inv {σ : Type} (body : Nat → σ → σ) (Inv : Nat → σ → Prop) :
    ∀ (n i : Nat) (s : σ), Inv i s →
      (∀ k t, i ≤ k → k < i + n → Inv k t → Inv (k + 1) (body k t)) →
      Inv (i + n) (iterFrom body i n s) := by
  intro n
  induction n with
  | zero => intro i s hs _; simpa [iterFrom] using hs
  | succ n ih =>
    intro i s hs hstep
    have h1 := hstep i s (le_refl _) (by omega) hs
    have h2 := ih (i + 1) (body i s) h1
      (fun k t hk1 hk2 hI => hstep k t (by omega) (by omega) hI)
    have h : i + (n + 1) = i + 1 + n := by omega
    rw [h]; simpa [iterFrom] using h2

theorem forEach_inv {σ : Type} (body : Nat → σ → σ) (Inv : Nat → σ → Prop)
    (lo hi : Nat) (s : σ) (hle : lo ≤ hi) (hs : Inv lo s)
    (hstep : ∀ k t, lo ≤ k → k < hi → Inv k t → Inv (k + 1) (body k t)) :
    Inv hi (forEach lo hi body s) := by
  have h2 := iterFrom_inv body Inv (hi - lo) lo s hs
    (fun k t hk1 hk2 hI => hstep k t hk1 (by omega) hI)
  have h : lo + (hi - lo) = hi := by omega
  rw [h] at h2; exact h2

theorem forEach_closed {σ : Type} (body : Nat → σ → σ) (P : σ → Prop)
    (lo hi : Nat) (s : σ) (hs : P s)
    (hstep : ∀ k t, lo ≤ k → k < hi → P t → P (body k t)) :
    P (forEach lo hi body s) :=
  iterFrom_inv body (fun _ t => P t) (hi - lo) lo s hs
    (fun k t hk1 hk2 hI => hstep k t hk1 (by omega) hI)

theorem andThen_ok {σ : Type} (o : Outcome σ) (f : σ → Outcome σ) (s : σ)
    (h : o = .ok s) : o.andThen f = f s := by
  subst h; rfl

/-! ## Frames of the projector routines -/

theorem ProjFrame_refl (s : NuSQUIDS) : ProjFrame s s :=
  ⟨s.params, s.istate, s.b1_proj, s.evol_b1_proj, rfl⟩

theorem AntineutrinoCPFix_frame (s t : NuSQUIDS) (rho : Nat) (ht : ProjFrame s t) :
    ∃ t', AntineutrinoCPFix rho t = .ok t' ∧ ProjFrame s t' := by
  obtain ⟨p0, i0, b10, eb10, rfl⟩ := ht
  have ht : ProjFrame s (projUpd p0 i0 b10 eb10 s) := ⟨p0, i0, b10, eb10, rfl⟩
  unfold AntineutrinoCPFix
  split
  · apply forLoop_closed _ (ProjFrame s) _ _ _ ht
    intro i a _ hi ha
    obtain ⟨p, b, b1, eb1, rfl⟩ := ha
    apply forLoop_closed _ (ProjFrame s) _ _ _ ⟨p, b, b1, eb1, rfl⟩
    intro j c _ hj hc
    obtain ⟨p', b', b1', eb1', rfl⟩ := hc
    have hi' : ¬ (i > s.numneu) := by
      have : i < s.numneu := hi
      omega
    have hj' : ¬ (j > s.numneu) := by
      have : j < s.numneu := hj
      omega
    refine ⟨projUpd (p'.SetPhase i j (-(p'.GetPhase i j))) false b1' eb1' s, ?_, ⟨_, _, _, _, rfl⟩⟩
    simp [Get_CPPhase, Set_CPPhase, projUpd, hi', hj']
  · exact ⟨_, rfl, ht⟩

theorem rotateWithCPFix_frame (ops : SUOps) (s t : NuSQUIDS) (rho : Nat)
    (get : NuSQUIDS → SU_vector) (put : SU_vector → NuSQUIDS → NuSQUIDS)
    (hput : ∀ x a, ProjFrame s a → ProjFrame s (put x a)) (ht : ProjFrame s t) :
    ∃ t', rotateWithCPFix ops rho get put t = .ok t' ∧ ProjFrame s t' := by
  obtain ⟨t1, h1, hf1⟩ := AntineutrinoCPFix_frame s t rho ht
  obtain ⟨t2, h2, hf2⟩ := AntineutrinoCPFix_frame s
    (put (ops.RotateToB1 t1.params (get t1)) t1) rho (hput _ _ hf1)
  exact ⟨t2, by simp [rotateWithCPFix, Outcome.andThen, h1, h2], hf2⟩

theorem setB1_frame (s a : NuSQUIDS) (rho flv : Nat) (x : SU_vector) (h : ProjFrame s a) :
    ProjFrame s (setB1 rho flv x a) := by
  obtain ⟨p, i, b1, eb1, rfl⟩ := h
  exact ⟨_, _, _, _, rfl⟩

theorem setEvolB1_frame (s a : NuSQUIDS) (rho flv e : Nat) (x : SU_vector) (h : ProjFrame s a) :
    ProjFrame s (setEvolB1 rho flv e x a) := by
  obtain ⟨p, i, b1, eb1, rfl⟩ := h
  exact ⟨_, _, _, _, rfl⟩

theorem SetIniFlavorProyectors_frame (ops : SUOps) (s : NuSQUIDS) :
    ∃ t, SetIniFlavorProyectors ops s = .ok t ∧ ProjFrame s t := by
  unfold SetIniFlavorProyectors
  apply forLoop_closed _ (ProjFrame s) _ _ _ (ProjFrame_refl s)
  intro rho a _ _ ha
  apply forLoop_closed _ (ProjFrame s) _ _ _ ha
  intro flv b _ _ hb
  obtain ⟨b1, h1, hf1⟩ := forLoop_closed
    (fun e1 c => rotateWithCPFix ops rho (fun d => d.evol_b1_proj rho flv e1)
      (setEvolB1 rho flv e1) (setEvolB1 rho flv e1 (c.b0_proj flv) c))
    (ProjFrame s) 0 b.ne b hb
    (fun e1 c _ _ hc => rotateWithCPFix_frame ops s _ rho _ _
      (fun x a ha => setEvolB1_frame s a rho flv e1 x ha) (setEvolB1_frame s c rho flv e1 _ hc))
  obtain ⟨b2, h2, hf2⟩ := rotateWithCPFix_frame ops s (setB1 rho flv (b1.b0_proj flv) b1) rho
    (fun d => d.b1_proj rho flv) (setB1 rho flv)
    (fun x a ha => setB1_frame s a rho flv x ha) (setB1_frame s b1 rho flv _ hf1)
  exact ⟨b2, by simp [Outcome.andThen, h1, h2], hf2⟩

theorem iniH0_frame (s : NuSQUIDS) : ∃ d h, iniH0 s = h0Upd d h s := by
  unfold iniH0
  have h2 : ∃ d h, forEach 1 s.nsun (fun i (a : NuSQUIDS) =>
      { a with DM2 := a.DM2 + (a.params.GetEnergyDifference i) • a.b0_proj i })
      { s with DM2 := 0 } = h0Upd d h s := by
    apply forEach_closed _ (fun t => ∃ d h, t = h0Upd d h s) _ _ _ ⟨0, s.H0_array, rfl⟩
    rintro i a _ _ ⟨d, h, rfl⟩
    exact ⟨_, _, rfl⟩
  obtain ⟨d, h, e⟩ := h2
  simp only [e]
  split
  · apply forEach_closed _ (fun t => ∃ d h, t = h0Upd d h s) _ _ _ ⟨d, h, rfl⟩
    rintro i a _ _ ⟨d', h', rfl⟩
    exact ⟨_, _, rfl⟩
  · exact ⟨d, h, rfl⟩

/-- What the common part of the initial-state setters establishes and what it leaves alone. -/
theorem resetForInitialState_spec (ext : External) (s : NuSQUIDS) :
    ∃ t, resetForInitialState ext s = .ok t ∧
      t.ne = s.ne ∧ t.numneu = s.numneu ∧ t.nrhos = s.nrhos ∧ t.nscalars = s.nscalars ∧
      t.NT = s.NT ∧ t.basis = s.basis ∧ t.ienergy = s.ienergy ∧ t.inusquids = s.inusquids ∧
      t.state_allocated = true ∧ t.nsun = s.numneu ∧ t.t = t.t_ini := by
  unfold resetForInitialState
  obtain ⟨t, h, ⟨p, i, b1, eb1, ht⟩⟩ := SetIniFlavorProyectors_frame ext.toSUOps
    (rewindAndAllocate ext s)
  obtain ⟨d, hh, e⟩ := iniH0_frame t
  refine ⟨iniH0 t, by rw [andThen_ok _ _ t h], ?_⟩
  rw [e, ht]
  simp [h0Upd, projUpd, rewindAndAllocate, ini, trackSetX]

/-! ## Initial-state setters: failure leaves the object alone -/

theorem andThen_ok_not_raised {σ : Type} (o : Outcome σ) (f : σ → σ) (t : σ)
    (h : o = .ok t) : (o.andThen (fun a => .ok (f a))).isRaised = false := by
  subst h; rfl

/-- C10: each of the three overloads of `Set_initial_state`, whenever it raises, leaves the whole
object (density matrices, scalars, projectors, vacuum Hamiltonian, integrator time, time offset,
track position, state flag and every other member) exactly as it was before the call. -/
theorem Set_initial_state_raise_leaves_object (ext : External) (s : NuSQUIDS) (basis : Basis) :
    (∀ v : marray1, (Set_initial_state1 ext v basis s).isRaised = true →
      (Set_initial_state1 ext v basis s).obj = s) ∧
    (∀ v : marray2, (Set_initial_state2 ext v basis s).isRaised = true →
      (Set_initial_state2 ext v basis s).obj = s) ∧
    (∀ v : marray3, (Set_initial_state3 ext v basis s).isRaised = true →
      (Set_initial_state3 ext v basis s).obj = s) := by
  obtain ⟨t, ht, _⟩ := resetForInitialState_spec ext s
  refine ⟨fun v => ?_, fun v => ?_, fun v => ?_⟩
  · unfold Set_initial_state1
    split_ifs <;> intro h <;> try rfl
    rw [andThen_ok_not_raised _ _ t ht] at h
    exact absurd h (by decide)
  · unfold Set_initial_state2
    split_ifs <;> intro h <;> try rfl
    rw [andThen_ok_not_raised _ _ t ht] at h
    exact absurd h (by decide)
  · unfold Set_initial_state3
    split_ifs <;> intro h <;> try rfl
    rw [andThen_ok_not_raised _ _ t ht] at h
    exact absurd h (by decide)

/-- Witness for C10: on the sample object an empty rank-1 array, a rank-2 array with the wrong
number of nodes and any rank-3 array (the object tracks neutrinos only) are rejected, and the
object is the sample object afterwards. -/
theorem Set_initial_state_raise_leaves_object_witness :
    ((Set_initial_state1 exampleExt { extent0 := 0, data := fun _ => 0 } .flavor
        exampleObject).isRaised = true ∧
      (Set_initial_state1 exampleExt { extent0 := 0, data := fun _ => 0 } .flavor
        exampleObject).obj = exampleObject) ∧
    ((Set_initial_state2 exampleExt { extent0 := 2, extent1 := 3, data := fun _ _ => 1 } .flavor
        exampleObject).isRaised = true ∧
      (Set_initial_state2 exampleExt { extent0 := 2, extent1 := 3, data := fun _ _ => 1 } .flavor
        exampleObject).obj = exampleObject) ∧
    ((Set_initial_state3 exampleExt
        { extent0 := 1, extent1 := 1, extent2 := 3, data := fun _ _ _ => 1 } .mass
        exampleObject).isRaised = true ∧
      (Set_initial_state3 exampleExt
        { extent0 := 1, extent1 := 1, extent2 := 3, data := fun _ _ _ => 1 } .mass
        exampleObject).obj = exampleObject) :=
  ⟨⟨rfl, (Set_initial_state_raise_leaves_object exampleExt exampleObject .flavor).1 _ rfl⟩,
   ⟨rfl, (Set_initial_state_raise_leaves_object exampleExt exampleObject .flavor).2.1 _ rfl⟩,
   ⟨rfl, (Set_initial_state_raise_leaves_object exampleExt exampleObject .mass).2.2 _ rfl⟩⟩

/-! ## The evolution driver: frames -/

theorem EvalFlavorAtNode_ok (ops : SUOps) (s : NuSQUIDS) (flv ei rho : Nat)
    (he : s.ienergy = true) (hr : rho = 0 ∨ s.NT = .both) :
    EvalFlavorAtNode ops s flv ei rho = .ok (flavorValue ops s flv ei rho) := by
  unfold EvalFlavorAtNode flavorValue
  have h2 : ¬ (rho ≠ 0 ∧ s.NT ≠ .both) := by
    rcases hr with h | h
    · simp [h]
    · simp [h]
  simp only [he, h2, Bool.not_true, Bool.false_eq_true, if_false]
  split <;> rfl

theorem EvolFrame_refl (s : NuSQUIDS) : EvolFrame s s :=
  ⟨{ rho := s.rho, scalar := s.scalar, t := s.t, track_x := 0, evol_b1_proj := s.evol_b1_proj,
     invlen_NC := s.invlen_NC, invlen_CC := s.invlen_CC, invlen_INT := s.invlen_INT,
     progressbar_count := s.progressbar_count }, s.track, s.evolve_log, rfl, rfl, rfl⟩

theorem trackOf_map_SetX (tr : Option Track) (x : ℚ) (d : Track) :
    ((tr.map (fun (u : Track) => u.SetX x)).getD d).xini = (tr.getD d).xini ∧
    ((tr.map (fun (u : Track) => u.SetX x)).getD d).xend = (tr.getD d).xend := by
  cases tr <;> simp [Track.SetX]

theorem Evolve_frame (ext : External) (s a : NuSQUIDS) (dt : ℚ) (h : EvolFrame s a) :
    EvolFrame s (Evolve ext dt a) := by
  obtain ⟨r, tr, log, rfl, h1, h2⟩ := h
  refine ⟨ext.integrate dt (evolUpd r tr log s),
    tr.map (fun (u : Track) => u.SetX (ext.integrate dt (evolUpd r tr log s)).track_x),
    dt :: log, rfl, ?_, ?_⟩
  · rw [← h1]
    exact (trackOf_map_SetX tr _ _).1
  · rw [← h2]
    exact (trackOf_map_SetX tr _ _).2

theorem setRho_frame (s a : NuSQUIDS) (ie r : Nat) (x : SU_vector) (h : EvolFrame s a) :
    EvolFrame s (setRho ie r x a) := by
  obtain ⟨r0, tr, log, rfl, h1, h2⟩ := h
  exact ⟨{ r0 with rho := fun i j => if i = ie ∧ j = r then x else r0.rho i j }, tr, log, rfl, h1, h2⟩

theorem setScalar_frame (s a : NuSQUIDS) (ie r : Nat) (x : ℚ) (h : EvolFrame s a) :
    EvolFrame s (setScalar ie r x a) := by
  obtain ⟨r0, tr, log, rfl, h1, h2⟩ := h
  exact ⟨{ r0 with scalar := fun i j => if i = ie ∧ j = r then x else r0.scalar i j }, tr, log,
    rfl, h1, h2⟩

theorem PositivizeFlavors_frame (ops : SUOps) (s a : NuSQUIDS) (he : s.ienergy = true)
    (hwf : ChannelsMatchType s) (h : EvolFrame s a) :
    ∃ a', PositivizeFlavors ops a = .ok a' ∧ EvolFrame s a' := by
  unfold PositivizeFlavors
  apply forLoop_closed _ (EvolFrame s) _ _ _ h
  intro rho b _ hrho hb
  have hrho' : rho < s.nrhos := by
    obtain ⟨r, tr, log, rfl, _, _⟩ := h
    exact hrho
  apply forLoop_closed _ (EvolFrame s) _ _ _ hb
  intro ie c _ _ hc
  apply forLoop_closed _ (EvolFrame s) _ _ _ hc
  intro flv d _ _ hd
  have hde : d.ienergy = true := by
    obtain ⟨r, tr, log, rfl, _, _⟩ := hd
    exact he
  have hdr : rho = 0 ∨ d.NT = .both := by
    obtain ⟨r, tr, log, rfl, _, _⟩ := hd
    by_cases hNT : s.NT = .both
    · exact Or.inr hNT
    · have := hwf hNT
      left; omega
  rw [EvalFlavorAtNode_ok ops d flv ie rho hde hdr]
  simp only []
  split
  · exact ⟨_, rfl, setRho_frame s d ie rho _ hd⟩
  · exact ⟨_, rfl, hd⟩

theorem SetScalarsToZero_frame (s a : NuSQUIDS) (h : EvolFrame s a) :
    EvolFrame s (SetScalarsToZero a) := by
  unfold SetScalarsToZero
  apply forEach_closed _ (EvolFrame s) _ _ _ h
  intro rho b _ _ hb
  apply forEach_closed _ (EvolFrame s) _ _ _ hb
  intro e1 c _ _ hc
  exact setScalar_frame s c e1 rho 0 hc

theorem ConvertTauIntoNuTau_frame (s a : NuSQUIDS) (h : EvolFrame s a) :
    EvolFrame s (ConvertTauIntoNuTau a) := by
  unfold ConvertTauIntoNuTau
  apply SetScalarsToZero_frame
  apply forEach_closed _ (EvolFrame s) _ _ _ h
  intro e1 c _ _ hc
  exact setRho_frame s _ e1 1 _ (setRho_frame s c e1 0 _ hc)

theorem EvolveState_guard_raises (ext : External) (s : NuSQUIDS) (hg : EvolveStateGuardFails s) :
    ∃ msg, EvolveState ext s = .raised msg s := by
  unfold EvolveState
  split_ifs with h1 h2 h3 h4 h5 h6 h7 h8
  all_goals first
    | exact ⟨_, rfl⟩
    | (exfalso
       rcases hg with h | h | h | h | h | h <;> simp_all)

theorem inner_zero_right (ops : SUOps) (hb : ops.Bilinear) (a : SU_vector) :
    ops.inner a 0 = 0 := by
  have h := hb.smul_right 0 a a
  simpa using h

theorem inner_zero_left (ops : SUOps) (hb : ops.Bilinear) (a : SU_vector) :
    ops.inner 0 a = 0 := by
  have h := hb.smul_left 0 a a
  simpa using h

theorem inner_sum_right (ops : SUOps) (hb : ops.Bilinear) (a : SU_vector) (c : Nat → ℚ)
    (P : Nat → SU_vector) (n : Nat) :
    ops.inner a (∑ j in Finset.range n, c j • P j) =
      ∑ j in Finset.range n, c j * ops.inner a (P j) := by
  induction n with
  | zero => simpa using inner_zero_right ops hb a
  | succ n ih => rw [Finset.sum_range_succ, Finset.sum_range_succ, hb.add_right, hb.smul_right, ih]

theorem inner_sum_left (ops : SUOps) (hb : ops.Bilinear) (a : SU_vector) (c : Nat → ℚ)
    (P : Nat → SU_vector) (n : Nat) :
    ops.inner (∑ j in Finset.range n, c j • P j) a =
      ∑ j in Finset.range n, c j * ops.inner (P j) a := by
  induction n with
  | zero => simpa using inner_zero_left ops hb a
  | succ n ih => rw [Finset.sum_range_succ, Finset.sum_range_succ, hb.add_left, hb.smul_left, ih]

theorem sum_pick (c : Nat → ℚ) (n f : Nat) (hf : f < n) :
    ∑ j in Finset.range n, c j * (if f = j then (1 : ℚ) else 0) = c f := by
  simp [mul_ite, Finset.sum_ite_eq, hf]

theorem sum_pick_rev (c : Nat → ℚ) (n f : Nat) (hf : f < n) :
    ∑ j in Finset.range n, c j * (if j = f then (1 : ℚ) else 0) = c f := by
  simp [mul_ite, Finset.sum_ite_eq', hf]

/-- Orthonormal flavor projectors read a weighted sum of themselves back componentwise. -/
theorem inner_filled (ops : SUOps) (hb : ops.Bilinear) (s : NuSQUIDS) (n : Nat)
    (v : Nat → Nat → Nat → ℚ) (i r f : Nat) (hn : n = s.numneu) (hf : f < s.numneu)
    (horth : FlavorOrthonormal ops s r) :
    ops.inner (s.b1_proj r f) (filledFlavor s n v i r) = v i r f ∧
    ops.inner (filledFlavor s n v i r) (s.b1_proj r f) = v i r f := by
  subst hn
  unfold filledFlavor
  constructor
  · rw [hb.add_right, hb.smul_right, inner_sum_right ops hb]
    rw [Finset.sum_congr rfl (fun j hj => by
      rw [horth f j hf (Finset.mem_range.mp hj)])]
    rw [sum_pick _ _ _ hf]; ring
  · rw [hb.add_left, hb.smul_left, inner_sum_left ops hb]
    rw [Finset.sum_congr rfl (fun j hj => by
      rw [horth j f (Finset.mem_range.mp hj) hf])]
    rw [sum_pick_rev _ _ _ hf]; ring

/-! ## The filling loop of the initial-state setters -/

theorem fill_inner_flavor (s : NuSQUIDS) (R : Nat → Nat → SU_vector) (i r n : Nat)
    (w : Nat → ℚ) :
    forEach 0 n (fun j c => setRho i r (c.rho i r + w j • c.b1_proj r j) c) (rhoUpd R s) =
      rhoUpd (fun a b => if a = i ∧ b = r then
        R i r + ∑ j in Finset.range n, w j • s.b1_proj r j else R a b) s := by
  apply forEach_inv _ (fun k t => t = rhoUpd (fun a b => if a = i ∧ b = r then
        R i r + ∑ j in Finset.range k, w j • s.b1_proj r j else R a b) s) 0 n _ (Nat.zero_le n)
  · unfold rhoUpd
    congr 1
    funext a b
    split_ifs with h
    · obtain ⟨rfl, rfl⟩ := h; simp
    · rfl
  · intro k t _ _ ht
    subst ht
    simp only [setRho, rhoUpd]
    congr 1
    funext a b
    by_cases h : a = i ∧ b = r
    · simp [h, Finset.sum_range_succ, add_assoc]
    · simp [h]

/-- The filling loop for basis `flavor`: only the density matrices change, and every node
below `ne` and channel below `nrhos` holds the weighted sum of the flavor projectors. -/
theorem fillState_flavor (s : NuSQUIDS) (n : Nat) (v : Nat → Nat → Nat → ℚ) :
    ∃ R, fillState .flavor n v s = rhoUpd R s ∧
      ∀ i r, i < s.ne → r < s.nrhos → R i r = filledFlavor s n v i r := by
  unfold fillState
  apply forEach_inv _ (fun k t => ∃ R, t = rhoUpd R s ∧
      ∀ i r, i < k → r < s.nrhos → R i r = filledFlavor s n v i r) 0 s.ne s (Nat.zero_le _)
  · exact ⟨s.rho, rfl, fun i r hi _ => absurd hi (Nat.not_lt_zero i)⟩
  · rintro i a _ _ ⟨R, rfl, hR⟩
    have key := forEach_inv
      (fun r (b : NuSQUIDS) =>
        if Basis.flavor = Basis.flavor then
          forEach 0 n (fun j c => setRho i r (c.rho i r + v i r j • c.b1_proj r j) c)
            (setRho i r ((0 : ℚ) • b.b0_proj 0) b)
        else if Basis.flavor = Basis.mass then
          forEach 0 n (fun j c => setRho i r (c.rho i r + v i r j • c.b0_proj j) c)
            (setRho i r ((0 : ℚ) • b.b0_proj 0) b)
        else b)
      (fun k t => ∃ R', t = rhoUpd R' s ∧
        (∀ i' r, i' < i → r < s.nrhos → R' i' r = filledFlavor s n v i' r) ∧
        (∀ r, r < k → R' i r = filledFlavor s n v i r)) 0 s.nrhos (rhoUpd R s) (Nat.zero_le _)
      ⟨R, rfl, hR, fun r hr => absurd hr (Nat.not_lt_zero r)⟩
      (by
        rintro r b _ _ ⟨R', rfl, h1, h2⟩
        simp only [if_true]
        have e : setRho i r ((0 : ℚ) • (rhoUpd R' s).b0_proj 0) (rhoUpd R' s) =
            rhoUpd (fun a b => if a = i ∧ b = r then (0 : ℚ) • s.b0_proj 0 else R' a b) s := rfl
        rw [e, fill_inner_flavor]
        refine ⟨_, rfl, ?_, ?_⟩
        · intro i' r' hi' hr'
          have hne : ¬ (i' = i) := fun h => by omega
          simp only [hne, false_and, if_false]
          exact h1 i' r' hi' hr'
        · intro r' hr'
          by_cases hrr : r' = r
          · subst hrr
            simp [filledFlavor]
          · simp only [hrr, and_false, if_false]
            exact h2 r' (by omega))
    obtain ⟨R', e, h1, h2⟩ := key
    refine ⟨R', e, ?_⟩
    intro i' r hi' hr
    by_cases hii : i' = i
    · subst hii; exact h2 r hr
    · exact h1 i' r (by omega) hr

theorem SetScalarsToZero_scalar (a : NuSQUIDS) : ∃ S, SetScalarsToZero a = scalarUpd S a := by
  unfold SetScalarsToZero
  apply forEach_closed _ (fun t => ∃ S, t = scalarUpd S a) _ _ _ ⟨a.scalar, rfl⟩
  rintro rho b _ _ ⟨S, rfl⟩
  apply forEach_closed _ (fun t => ∃ S, t = scalarUpd S a) _ _ _ ⟨S, rfl⟩
  rintro e1 c _ _ ⟨S', rfl⟩
  exact ⟨_, rfl⟩

theorem finishInitialState_frame (a : NuSQUIDS) : ∃ S, finishInitialState a = finishUpd S a := by
  unfold finishInitialState
  split
  · obtain ⟨S, e⟩ := SetScalarsToZero_scalar a
    exact ⟨S, by simp only [e]; rfl⟩
  · exact ⟨a.scalar, rfl⟩

/-! ## Round trip of the initial state -/

theorem flavorValue_after_fill (ops : SUOps) (hbil : ops.Bilinear)
    (hzero : ∀ op h, ops.Evolve op h 0 = op) (t : NuSQUIDS) (R : Nat → Nat → SU_vector)
    (S : Nat → Nat → ℚ) (n : Nat) (v : Nat → Nat → Nat → ℚ) (i f : Nat)
    (hn : n = t.numneu) (hf : f < t.numneu) (hR : R i 0 = filledFlavor t n v i 0)
    (horth : FlavorOrthonormal ops t 0) (htt : t.t = t.t_ini) :
    flavorValue ops (finishUpd S (rhoUpd R t)) f i 0 = v i 0 f := by
  unfold flavorValue GetExpectationValue
  simp only [finishUpd, rhoUpd, hR, htt, sub_self, hzero]
  split
  · exact (inner_filled ops hbil t n v i 0 f hn hf horth).1
  · exact (inner_filled ops hbil t n v i 0 f hn hf horth).2

/-- The object a successful flavor-basis `Set_initial_state` leaves, in terms of the object `t`
that the common part returns. -/
theorem after_fill_shape (ext : External) (s : NuSQUIDS) (n : NuSQUIDS → Nat)
    (v : Nat → Nat → Nat → ℚ) (s' : NuSQUIDS)
    (h : (resetForInitialState ext s).andThen (fun s1 =>
      .ok (finishInitialState (fillState .flavor (n s1) v s1))) = .ok s') :
    ∃ t R S, s' = finishUpd S (rhoUpd R t) ∧
      (∀ i r, i < s.ne → r < s.nrhos → R i r = filledFlavor t (n t) v i r) ∧
      t.numneu = s.numneu ∧ t.NT = s.NT ∧ t.ienergy = s.ienergy ∧ t.inusquids = s.inusquids ∧
      t.state_allocated = true ∧ t.nsun = s.numneu ∧ t.ne = s.ne ∧ t.t = t.t_ini := by
  obtain ⟨t, ht, h1, h2, h3, _, h5, _, h7, h8, h9, h10, h11⟩ := resetForInitialState_spec ext s
  rw [andThen_ok _ _ t ht] at h
  obtain ⟨R, eR, hR⟩ := fillState_flavor t (n t) v
  obtain ⟨S, eS⟩ := finishInitialState_frame (fillState .flavor (n t) v t)
  rw [eS, eR] at h
  injection h with h
  refine ⟨t, R, S, h.symm, ?_, h2, h5, h7, h8, h9, h10, h1, h11⟩
  intro i r hi hr
  exact hR i r (by omega) (by omega)

/-- C1: after a successful `Set_initial_state(v, flavor)` on an object with at least one channel,
if the flavor projectors of the object are orthonormal under a bilinear scalar product and an
operator evolved over zero path length is the operator itself, then an evaluation with no
evolution in between returns the entries of `v`: `EvalFlavorAtNode(f, i, 0) = v[i][f]` for every
node `i < ne` and flavor `f < numneu` after the rank-2 overload, and after the rank-1 overload
`EvalFlavorAtNode(f, 0, 0) = v[f]` and, on an initialised object, `EvalFlavor(f) = v[f]`. -/
theorem Set_initial_state_flavor_round_trip (ext : External) (s : NuSQUIDS)
    (hbil : ext.toSUOps.Bilinear) (hzero : ∀ op h, ext.Evolve op h 0 = op)
    (hch : 0 < s.nrhos) :
    (∀ (v : marray2) (s' : NuSQUIDS), Set_initial_state2 ext v .flavor s = .ok s' →
      FlavorOrthonormal ext.toSUOps s' 0 →
      ∀ i f, i < s.ne → f < s.numneu →
        EvalFlavorAtNode ext.toSUOps s' f i 0 = .ok (v.data i f)) ∧
    (∀ (v : marray1) (s' : NuSQUIDS), Set_initial_state1 ext v .flavor s = .ok s' →
      FlavorOrthonormal ext.toSUOps s' 0 →
      ∀ f, f < s.numneu →
        EvalFlavorAtNode ext.toSUOps s' f 0 0 = .ok (v.data f) ∧
        (s.inusquids = true → EvalFlavor ext.toSUOps s' f = .ok (v.data f))) := by
  constructor
  · intro v s' h horth i f hi hf
    unfold Set_initial_state2 at h
    split_ifs at h with g1 g2 g3 g4 g5 g6 g7
    obtain ⟨t, R, S, rfl, hR, hnum, hNT, hen, _, _, _, hne, htt⟩ :=
      after_fill_shape ext s (fun s1 => s1.numneu) (fun i _ j => v.data i j) s' h
    have he : s.ienergy = true := by simpa using g7
    rw [EvalFlavorAtNode_ok _ _ _ _ _ (by exact hen.trans he) (Or.inl rfl)]
    congr 1
    exact flavorValue_after_fill ext.toSUOps hbil hzero t R S t.numneu (fun i _ j => v.data i j)
      i f rfl (by omega) (hR i 0 hi hch) horth htt
  · intro v s' h horth f hf
    unfold Set_initial_state1 at h
    split_ifs at h with g1 g2 g3 g4 g5 g6 g7
    obtain ⟨t, R, S, rfl, hR, hnum, hNT, hen, hinu, hal, hnsun, hne, htt⟩ :=
      after_fill_shape ext s (fun _ => v.extent0) (fun _ _ j => v.data j) s' h
    have he : s.ienergy = true := by simpa using g7
    have hne1 : s.ne = 1 := by simpa using g5
    have hval := flavorValue_after_fill ext.toSUOps hbil hzero t R S v.extent0
      (fun _ _ j => v.data j) 0 f (by simpa [hnum] using g2) (by omega)
      (hR 0 0 (by omega) hch) horth htt
    constructor
    · rw [EvalFlavorAtNode_ok _ _ _ _ _ (by exact hen.trans he) (Or.inl rfl)]
      congr 1
    · intro hini
      have e1 : t.ienergy = true := hen.trans he
      have e2 : t.inusquids = true := hinu.trans hini
      have e3 : t.ne = 1 := hne.trans hne1
      have e4 : ¬ (f ≥ t.nsun) := by omega
      unfold EvalFlavor
      simp only [finishUpd, rhoUpd, hal, e1, e2, e3, e4, Bool.not_true, Bool.false_eq_true,
        if_false, ne_eq, not_true_eq_false]
      unfold flavorValue at hval
      simp only [finishUpd, rhoUpd] at hval
      split
      · next hb => simp only [hb, if_true] at hval; exact congrArg Except.ok hval
      · next hb => simp only [hb, if_false] at hval; exact congrArg Except.ok hval

theorem eq_ok_obj {σ : Type} (o : Outcome σ) (h : o.isRaised = false) : o = .ok o.obj := by
  cases o with
  | ok s => rfl
  | raised msg s => exact Bool.noConfusion h

theorem exampleExt_bilinear : exampleExt.toSUOps.Bilinear where
  add_left := fun a b c => by simp only [exampleExt, Pi.add_apply]; ring
  smul_left := fun k a c => by simp only [exampleExt, Pi.smul_apply, smul_eq_mul]; ring
  add_right := fun a b c => by simp only [exampleExt, Pi.add_apply]; ring
  smul_right := fun k a c => by simp only [exampleExt, Pi.smul_apply, smul_eq_mul]; ring

theorem example_flavor_state_b1 (f : Nat) (hf : f < 3) :
    ((Set_initial_state2 exampleExt electronState2 .flavor exampleObject).obj.b1_proj 0 f =
      fun k => if k = f then 1 else 0) ∧
    ((Set_initial_state1 exampleExt electronState1 .flavor exampleObject).obj.b1_proj 0 f =
      fun k => if k = f then 1 else 0) := by
  interval_cases f <;> exact ⟨rfl, rfl⟩

theorem example_flavor_state_orthonormal :
    FlavorOrthonormal exampleExt.toSUOps
      (Set_initial_state2 exampleExt electronState2 .flavor exampleObject).obj 0 ∧
    FlavorOrthonormal exampleExt.toSUOps
      (Set_initial_state1 exampleExt electronState1 .flavor exampleObject).obj 0 := by
  constructor
  · intro f g hf hg
    have hf3 : f < 3 := hf
    have hg3 : g < 3 := hg
    rw [(example_flavor_state_b1 f hf3).1, (example_flavor_state_b1 g hg3).1]
    simp only [exampleExt]
    interval_cases f <;> interval_cases g <;> norm_num
  · intro f g hf hg
    have hf3 : f < 3 := hf
    have hg3 : g < 3 := hg
    rw [(example_flavor_state_b1 f hf3).2, (example_flavor_state_b1 g hg3).2]
    simp only [exampleExt]
    interval_cases f <;> interval_cases g <;> norm_num

/-- Witness for C1: on the sample object (three flavors, one node, zero path length) a pure
electron-flavor state set through either overload evaluates to 1 for the electron flavor and
to 0 for the other two. -/
theorem Set_initial_state_flavor_round_trip_witness :
    (EvalFlavorAtNode exampleExt.toSUOps
        (Set_initial_state2 exampleExt electronState2 .flavor exampleObject).obj 0 0 0 = .ok 1 ∧
      EvalFlavorAtNode exampleExt.toSUOps
        (Set_initial_state2 exampleExt electronState2 .flavor exampleObject).obj 1 0 0 = .ok 0 ∧
      EvalFlavorAtNode exampleExt.toSUOps
        (Set_initial_state2 exampleExt electronState2 .flavor exampleObject).obj 2 0 0 = .ok 0) ∧
    (EvalFlavor exampleExt.toSUOps
        (Set_initial_state1 exampleExt electronState1 .flavor exampleObject).obj 0 = .ok 1 ∧
      EvalFlavor exampleExt.toSUOps
        (Set_initial_state1 exampleExt electronState1 .flavor exampleObject).obj 1 = .ok 0 ∧
      EvalFlavor exampleExt.toSUOps
        (Set_initial_state1 exampleExt electronState1 .flavor exampleObject).obj 2 = .ok 0) :=
  have h := Set_initial_state_flavor_round_trip exampleExt exampleObject exampleExt_bilinear
    (fun _ _ => rfl) (Nat.lt_succ_self 0)
  have h2 := h.1 electronState2 _ (eq_ok_obj _ rfl) example_flavor_state_orthonormal.1
  have h1 := h.2 electronState1 _ (eq_ok_obj _ rfl) example_flavor_state_orthonormal.2
  ⟨⟨h2 0 0 (by decide) (by decide), h2 0 1 (by decide) (by decide),
    h2 0 2 (by decide) (by decide)⟩,
   ⟨(h1 0 (by decide)).2 rfl, (h1 1 (by decide)).2 rfl, (h1 2 (by decide)).2 rfl⟩⟩

/-! ## The positivity correction -/

theorem iterFrom_succ {σ : Type} (body : Nat → σ → σ) :
    ∀ (n i : Nat) (s : σ), iterFrom body i (n + 1) s = body (i + n) (iterFrom body i n s) := by
  intro n
  induction n with
  | zero => intro i s; rfl
  | succ n ih =>
    intro i s
    have h := ih (i + 1) (body i s)
    have e : i + 1 + n = i + (n + 1) := by omega
    rw [e] at h
    exact h

theorem forEach_succ {σ : Type} (body : Nat → σ → σ) (k : Nat) (s : σ) :
    forEach 0 (k + 1) body s = body k (forEach 0 k body s) := by
  have h := iterFrom_succ body k 0 s
  simpa [forEach] using h

theorem flavorValue_rhoUpd (ops : SUOps) (s : NuSQUIDS) (R : Nat → Nat → SU_vector)
    (flv ie rho : Nat) :
    flavorValue ops (rhoUpd R s) flv ie rho = valOf ops s (R ie rho) flv ie rho := by
  unfold flavorValue valOf evalOp GetExpectationValue rhoUpd
  split <;> rfl

theorem positivize_inner (ops : SUOps) (s : NuSQUIDS) (he : s.ienergy = true)
    (R : Nat → Nat → SU_vector) (ie rho : Nat) (hr : rho = 0 ∨ s.NT = .both) :
    forLoop 0 s.numneu (fun flv c =>
        match EvalFlavorAtNode ops c flv ie rho with
        | .error msg => .raised msg c
        | .ok quantity =>
          if quantity < 0 then
            .ok (setRho ie rho (c.rho ie rho - quantity • c.evol_b1_proj rho flv ie) c)
          else .ok c) (rhoUpd R s) =
      .ok (rhoUpd (fun a b => if a = ie ∧ b = rho then posSlot ops s ie rho (R ie rho)
        else R a b) s) := by
  obtain ⟨s', h1, h2⟩ := forLoop_inv
    (fun flv c =>
        match EvalFlavorAtNode ops c flv ie rho with
        | .error msg => .raised msg c
        | .ok quantity =>
          if quantity < 0 then
            .ok (setRho ie rho (c.rho ie rho - quantity • c.evol_b1_proj rho flv ie) c)
          else .ok c)
    (fun k t => t = rhoUpd (fun a b => if a = ie ∧ b = rho then
        forEach 0 k (posStep ops s ie rho) (R ie rho) else R a b) s)
    0 s.numneu (rhoUpd R s) (Nat.zero_le _)
    (by
      unfold rhoUpd
      congr 1
      funext a b
      by_cases h : a = ie ∧ b = rho
      · obtain ⟨rfl, rfl⟩ := h
        simp [forEach, iterFrom]
      · simp [h])
    (by
      intro k t _ _ ht
      subst ht
      beta_reduce
      have hev : ∀ F : Nat → Nat → SU_vector, EvalFlavorAtNode ops (rhoUpd F s) k ie rho =
          .ok (valOf ops s (F ie rho) k ie rho) := fun F => by
        rw [EvalFlavorAtNode_ok ops (rhoUpd F s) k ie rho he hr, flavorValue_rhoUpd]
      rw [hev]
      simp only [and_self, if_true]
      refine ⟨rhoUpd (fun a b => if a = ie ∧ b = rho then
        forEach 0 (k + 1) (posStep ops s ie rho) (R ie rho) else R a b) s, ?_, rfl⟩
      rw [forEach_succ]
      by_cases hq : valOf ops s (forEach 0 k (posStep ops s ie rho) (R ie rho)) k ie rho < 0
      · simp only [hq, if_true, posStep, setRho, rhoUpd, and_self]
        congr 2
        funext a b
        by_cases h : a = ie ∧ b = rho
        · simp [h]
        · simp [h]
      · simp only [hq, if_false, posStep, rhoUpd])
  rw [h1, h2]
  rfl

theorem positivize_middle (ops : SUOps) (s : NuSQUIDS) (he : s.ienergy = true)
    (F : Nat → Nat → SU_vector) (rho : Nat) (hr : rho = 0 ∨ s.NT = .both) :
    forLoop 0 s.ne (fun ie b =>
      forLoop 0 b.numneu (fun flv c =>
        match EvalFlavorAtNode ops c flv ie rho with
        | .error msg => .raised msg c
        | .ok quantity =>
          if quantity < 0 then
            .ok (setRho ie rho (c.rho ie rho - quantity • c.evol_b1_proj rho flv ie) c)
          else .ok c) b) (rhoUpd F s) =
      .ok (rhoUpd (fun a b => if b = rho ∧ a < s.ne then posSlot ops s a rho (F a rho)
        else F a b) s) := by
  obtain ⟨s', h1, h2⟩ := forLoop_inv
    (fun ie b =>
      forLoop 0 b.numneu (fun flv c =>
        match EvalFlavorAtNode ops c flv ie rho with
        | .error msg => .raised msg c
        | .ok quantity =>
          if quantity < 0 then
            .ok (setRho ie rho (c.rho ie rho - quantity • c.evol_b1_proj rho flv ie) c)
          else .ok c) b)
    (fun k t => t = rhoUpd (fun a b => if b = rho ∧ a < k then posSlot ops s a rho (F a rho)
        else F a b) s)
    0 s.ne (rhoUpd F s) (Nat.zero_le _)
    (by
      unfold rhoUpd
      congr 1
      funext a b
      simp)
    (by
      intro k t _ _ ht
      subst ht
      refine ⟨_, positivize_inner ops s he _ k rho hr, ?_⟩
      unfold rhoUpd
      congr 1
      funext a b
      by_cases h1 : b = rho
      · by_cases h2 : a = k
        · subst h1; subst h2; simp
        · by_cases h3 : a < k
          · have h4 : a < k + 1 := by omega
            simp [h1, h2, h3, h4]
          · have h4 : ¬ a < k + 1 := by omega
            simp [h1, h2, h3, h4]
      · simp [h1])
  rw [h1, h2]

/-- The whole of `PositivizeFlavors` in closed form: on an object with the energy set and a
channel count that agrees with the particle type the call returns, and only the density
matrices change, each by the innermost loop on its own node and channel. -/
theorem PositivizeFlavors_eq (ops : SUOps) (s : NuSQUIDS) (he : s.ienergy = true)
    (hwf : ChannelsMatchType s) :
    PositivizeFlavors ops s = .ok (rhoUpd (positivized ops s) s) := by
  unfold PositivizeFlavors
  obtain ⟨s', h1, h2⟩ := forLoop_inv
    (fun rho a =>
      forLoop 0 a.ne (fun ie b =>
        forLoop 0 b.numneu (fun flv c =>
          match EvalFlavorAtNode ops c flv ie rho with
          | .error msg => .raised msg c
          | .ok quantity =>
            if quantity < 0 then
              .ok (setRho ie rho (c.rho ie rho - quantity • c.evol_b1_proj rho flv ie) c)
            else .ok c) b) a)
    (fun k t => t = rhoUpd (fun a b => if b < k ∧ a < s.ne then posSlot ops s a b (s.rho a b)
        else s.rho a b) s)
    0 s.nrhos s (Nat.zero_le _)
    (by
      have e : (fun a b => if b < 0 ∧ a < s.ne then posSlot ops s a b (s.rho a b)
          else s.rho a b) = s.rho := by
        funext a b; simp
      show s = rhoUpd (fun a b => if b < 0 ∧ a < s.ne then posSlot ops s a b (s.rho a b)
          else s.rho a b) s
      rw [e]; rfl)
    (by
      intro k t _ hk ht
      subst ht
      have hr : k = 0 ∨ s.NT = .both := by
        by_cases hNT : s.NT = .both
        · exact Or.inr hNT
        · have := hwf hNT
          left; omega
      refine ⟨_, positivize_middle ops s he _ k hr, ?_⟩
      unfold rhoUpd
      congr 1
      funext a b
      by_cases h1 : b = k
      · subst h1
        by_cases h2 : a < s.ne
        · simp [h2]
        · simp [h2]
      · by_cases h3 : b < k
        · have h4 : b < k + 1 := by omega
          simp [h1, h3, h4]
        · have h4 : ¬ b < k + 1 := by omega
          simp [h1, h3, h4])
  rw [h1, h2]
  rfl

theorem valOf_sub (ops : SUOps) (hbil : ops.Bilinear) (s : NuSQUIDS)
    (H : EvolvedProjectorsOrthonormal ops s) (ie rho f g : Nat) (hrho : rho < s.nrhos)
    (hie : ie < s.ne) (hf : f < s.numneu) (hg : g < s.numneu) (Y : SU_vector) (q : ℚ) :
    valOf ops s (Y - q • s.evol_b1_proj rho g ie) f ie rho =
      valOf ops s Y f ie rho - q * (if f = g then 1 else 0) := by
  unfold valOf
  rw [H.1 rho ie f hrho hie hf]
  have e : Y - q • s.evol_b1_proj rho g ie = Y + (-q) • s.evol_b1_proj rho g ie := by
    rw [neg_smul, sub_eq_add_neg]
  rw [e]
  split
  · rw [hbil.add_right, hbil.smul_right, H.2 rho ie f g hrho hie hf hg]; ring
  · rw [hbil.add_left, hbil.smul_left, H.2 rho ie g f hrho hie hg hf]
    by_cases hfg : f = g
    · subst hfg; simp; ring
    · have hgf : ¬ g = f := fun h => hfg h.symm
      simp [hfg, hgf]

/-- The innermost loop clamps: every flavor value of the corrected density matrix is the larger
of the value before and zero, and a density matrix with no negative flavor value is returned
as it is. -/
theorem posSlot_clamps (ops : SUOps) (hbil : ops.Bilinear) (s : NuSQUIDS)
    (H : EvolvedProjectorsOrthonormal ops s) (ie rho : Nat) (hrho : rho < s.nrhos)
    (hie : ie < s.ne) (X : SU_vector) :
    (∀ f, f < s.numneu →
      valOf ops s (posSlot ops s ie rho X) f ie rho = max (valOf ops s X f ie rho) 0) ∧
    ((∀ f, f < s.numneu → 0 ≤ valOf ops s X f ie rho) → posSlot ops s ie rho X = X) := by
  have key := forEach_inv (posStep ops s ie rho)
    (fun k Y => (∀ f, f < s.numneu → valOf ops s Y f ie rho =
        if f < k then max (valOf ops s X f ie rho) 0 else valOf ops s X f ie rho) ∧
      ((∀ f, f < k → f < s.numneu → 0 ≤ valOf ops s X f ie rho) → Y = X))
    0 s.numneu X (Nat.zero_le _)
    ⟨fun f _ => by simp, fun _ => rfl⟩
    (by
      rintro k Y _ hk ⟨h1, h2⟩
      have hq : valOf ops s Y k ie rho = valOf ops s X k ie rho := by
        rw [h1 k hk]; simp
      unfold posStep
      by_cases hneg : valOf ops s Y k ie rho < 0
      · simp only [hneg, if_true]
        constructor
        · intro f hf
          rw [valOf_sub ops hbil s H ie rho f k hrho hie hf hk, h1 f hf]
          by_cases hfk : f = k
          · subst hfk
            have hX : valOf ops s X f ie rho < 0 := hq ▸ hneg
            simp [hq, max_eq_right (le_of_lt hX)]
          · by_cases hlt : f < k
            · have : f < k + 1 := by omega
              simp [hfk, hlt, this]
            · have : ¬ f < k + 1 := by omega
              simp [hfk, hlt, this]
        · intro hall
          have := hall k (Nat.lt_succ_self k) hk
          rw [← hq] at this
          exact absurd hneg (not_lt.mpr this)
      · simp only [hneg, if_false]
        constructor
        · intro f hf
          rw [h1 f hf]
          by_cases hfk : f = k
          · subst hfk
            have hX : 0 ≤ valOf ops s X f ie rho := hq ▸ (not_lt.mp hneg)
            simp [max_eq_left hX]
          · by_cases hlt : f < k
            · have : f < k + 1 := by omega
              simp [hlt, this]
            · have : ¬ f < k + 1 := by omega
              simp [hlt, this]
        · intro hall
          exact h2 (fun f hf1 hf2 => hall f (by omega) hf2))
  obtain ⟨k1, k2⟩ := key
  constructor
  · intro f hf
    have := k1 f hf
    simpa [hf, posSlot] using this
  · intro hall
    exact k2 (fun f _ hf => hall f hf)

/-- C4: on an object with the energy set and a channel count that agrees with the particle type,
if the evolved flavor projectors are the operators `EvalFlavorAtNode` evaluates against and are
orthonormal under a bilinear scalar product, then `PositivizeFlavors` returns, and afterwards
every flavor expectation value (channel `rho < nrhos`, node `ie < ne`, flavor `f < numneu`) is
the larger of its value before the call and zero; the flavor-summed total at a node grows by
the sum of the magnitudes of the negative entries; and the object is unchanged when no entry
was negative. -/
theorem PositivizeFlavors_clamps (ops : SUOps) (s : NuSQUIDS) (hbil : ops.Bilinear)
    (he : s.ienergy = true) (hwf : ChannelsMatchType s)
    (H : EvolvedProjectorsOrthonormal ops s) :
    (PositivizeFlavors ops s).isRaised = false ∧
    (∀ rho ie f, rho < s.nrhos → ie < s.ne → f < s.numneu →
      EvalFlavorAtNode ops s f ie rho = .ok (flavorValue ops s f ie rho) ∧
      EvalFlavorAtNode ops (PositivizeFlavors ops s).obj f ie rho =
        .ok (max (flavorValue ops s f ie rho) 0)) ∧
    (∀ rho ie, rho < s.nrhos → ie < s.ne →
      ∑ f in Finset.range s.numneu, flavorValue ops (PositivizeFlavors ops s).obj f ie rho =
        ∑ f in Finset.range s.numneu, flavorValue ops s f ie rho +
        ∑ f in Finset.range s.numneu,
          (if flavorValue ops s f ie rho < 0 then -flavorValue ops s f ie rho else 0)) ∧
    ((∀ rho ie f, rho < s.nrhos → ie < s.ne → f < s.numneu → 0 ≤ flavorValue ops s f ie rho) →
      (PositivizeFlavors ops s).obj = s) := by
  have hs : ∀ f ie rho, flavorValue ops s f ie rho = valOf ops s (s.rho ie rho) f ie rho :=
    fun f ie rho => flavorValue_rhoUpd ops s s.rho f ie rho
  have hr : ∀ rho, rho < s.nrhos → (rho = 0 ∨ s.NT = .both) := by
    intro rho hrho
    by_cases hNT : s.NT = .both
    · exact Or.inr hNT
    · have := hwf hNT
      left; omega
  have hval : ∀ rho ie f, rho < s.nrhos → ie < s.ne → f < s.numneu →
      flavorValue ops (rhoUpd (positivized ops s) s) f ie rho =
        max (flavorValue ops s f ie rho) 0 := by
    intro rho ie f hrho hie hf
    rw [flavorValue_rhoUpd, hs]
    have e : positivized ops s ie rho = posSlot ops s ie rho (s.rho ie rho) := by
      simp [positivized, hrho, hie]
    rw [e]
    exact (posSlot_clamps ops hbil s H ie rho hrho hie (s.rho ie rho)).1 f hf
  rw [PositivizeFlavors_eq ops s he hwf]
  refine ⟨rfl, ?_, ?_, ?_⟩
  · intro rho ie f hrho hie hf
    refine ⟨EvalFlavorAtNode_ok ops s f ie rho he (hr rho hrho), ?_⟩
    show EvalFlavorAtNode ops (rhoUpd (positivized ops s) s) f ie rho = _
    rw [EvalFlavorAtNode_ok ops (rhoUpd (positivized ops s) s) f ie rho he (hr rho hrho),
      hval rho ie f hrho hie hf]
  · intro rho ie hrho hie
    show ∑ f in Finset.range s.numneu, flavorValue ops (rhoUpd (positivized ops s) s) f ie rho = _
    rw [← Finset.sum_add_distrib]
    apply Finset.sum_congr rfl
    intro f hf
    rw [hval rho ie f hrho hie (Finset.mem_range.mp hf)]
    by_cases hneg : flavorValue ops s f ie rho < 0
    · simp [hneg, max_eq_right (le_of_lt hneg)]
    · simp [hneg, max_eq_left (not_lt.mp hneg)]
  · intro hall
    show rhoUpd (positivized ops s) s = s
    have e : positivized ops s = s.rho := by
      funext ie rho
      unfold positivized
      split
      · next h =>
        exact (posSlot_clamps ops hbil s H ie rho h.1 h.2 (s.rho ie rho)).2
          (fun f hf => by rw [← hs]; exact hall rho ie f h.1 h.2 hf)
      · rfl
    rw [e]; rfl

theorem negativeObject_projectors : EvolvedProjectorsOrthonormal exampleExt.toSUOps negativeObject := by
  constructor
  · intro rho ie f _ _ _
    rfl
  · intro rho ie f g _ _ hf hg
    have hf3 : f < 3 := hf
    have hg3 : g < 3 := hg
    simp only [exampleExt, negativeObject, exampleObject]
    interval_cases f <;> interval_cases g <;> norm_num

theorem negativeObject_values :
    flavorValue exampleExt.toSUOps negativeObject 0 0 0 = -1 ∧
    flavorValue exampleExt.toSUOps negativeObject 1 0 0 = 2 ∧
    flavorValue exampleExt.toSUOps negativeObject 2 0 0 = 0 := by
  refine ⟨?_, ?_, ?_⟩ <;>
    simp [flavorValue, GetExpectationValue, negativeObject, exampleObject, exampleExt]

/-- Witness for C4: on the sample object with flavor content -1, 2, 0 the call returns and the
flavor content afterwards is 0, 2, 0. -/
theorem PositivizeFlavors_clamps_witness :
    (PositivizeFlavors exampleExt.toSUOps negativeObject).isRaised = false ∧
    EvalFlavorAtNode exampleExt.toSUOps negativeObject 0 0 0 = .ok (-1) ∧
    EvalFlavorAtNode exampleExt.toSUOps
      (PositivizeFlavors exampleExt.toSUOps negativeObject).obj 0 0 0 = .ok 0 ∧
    EvalFlavorAtNode exampleExt.toSUOps
      (PositivizeFlavors exampleExt.toSUOps negativeObject).obj 1 0 0 = .ok 2 ∧
    EvalFlavorAtNode exampleExt.toSUOps
      (PositivizeFlavors exampleExt.toSUOps negativeObject).obj 2 0 0 = .ok 0 := by
  have h := PositivizeFlavors_clamps exampleExt.toSUOps negativeObject exampleExt_bilinear rfl
    (fun _ => Nat.le_refl 1) negativeObject_projectors
  have h0 := h.2.1 0 0 0 (by decide) (by decide) (by decide)
  have h1 := h.2.1 0 0 1 (by decide) (by decide) (by decide)
  have h2 := h.2.1 0 0 2 (by decide) (by decide) (by decide)
  rw [negativeObject_values.1] at h0
  rw [negativeObject_values.2.1] at h1
  rw [negativeObject_values.2.2] at h2
  refine ⟨h.1, h0.1, ?_, ?_, ?_⟩
  · rw [h0.2]; norm_num
  · rw [h1.2]; norm_num
  · rw [h2.2]; norm_num

/-! ## The tau conversion -/

theorem SetScalarsToZero_inner (a : NuSQUIDS) (S : Nat → Nat → ℚ) (rho : Nat) :
    forEach 0 a.ne (fun e1 b => setScalar e1 rho 0 b) (scalarUpd S a) =
      scalarUpd (fun e r => if r = rho ∧ e < a.ne then 0 else S e r) a := by
  apply forEach_inv _ (fun k t => t = scalarUpd (fun e r => if r = rho ∧ e < k then 0
    else S e r) a) 0 a.ne _ (Nat.zero_le _)
  · unfold scalarUpd
    congr 1
    funext e r
    simp
  · intro k t _ _ ht
    subst ht
    simp only [setScalar, scalarUpd]
    congr 1
    funext e r
    split_ifs <;> first | rfl | (exfalso; omega)

/-- The member `SetScalarsToZero` in closed form. -/
theorem SetScalarsToZero_eq (a : NuSQUIDS) :
    SetScalarsToZero a =
      scalarUpd (fun e r => if r < a.nscalars ∧ e < a.ne then 0 else a.scalar e r) a := by
  unfold SetScalarsToZero
  apply forEach_inv _ (fun k t => t = scalarUpd (fun e r => if r < k ∧ e < a.ne then 0
    else a.scalar e r) a) 0 a.nscalars _ (Nat.zero_le _)
  · show a = scalarUpd _ a
    have e : (fun e r => if r < 0 ∧ e < a.ne then (0 : ℚ) else a.scalar e r) = a.scalar := by
      funext e r; simp
    rw [e]; rfl
  · intro k t _ _ ht
    subst ht
    refine (SetScalarsToZero_inner a _ k).trans ?_
    unfold scalarUpd
    congr 1
    funext e r
    split_ifs <;> first | rfl | (exfalso; omega)

theorem tauSums_eq (s : NuSQUIDS) (e1 : Nat) (h : e1 < s.ne) :
    (tauSums s e1).tau_neu_all = tauAll s 0 e1 ∧ (tauSums s e1).tau_neu_lep = tauLep s 0 e1 ∧
    (tauSums s e1).tau_aneu_all = tauAll s 1 e1 ∧ (tauSums s e1).tau_aneu_lep = tauLep s 1 e1 := by
  unfold tauSums tauAll tauLep
  apply forEach_inv _ (fun k (acc : TauSums) =>
    acc.tau_neu_all = ∑ e2 in Finset.Ico (e1 + 1) k,
      s.dNdE_tau_all e2 e1 * s.delE.data e2 * s.scalar e2 0 ∧
    acc.tau_neu_lep = ∑ e2 in Finset.Ico (e1 + 1) k,
      s.dNdE_tau_lep e2 e1 * s.delE.data e2 * s.scalar e2 0 ∧
    acc.tau_aneu_all = ∑ e2 in Finset.Ico (e1 + 1) k,
      s.dNdE_tau_all e2 e1 * s.delE.data e2 * s.scalar e2 1 ∧
    acc.tau_aneu_lep = ∑ e2 in Finset.Ico (e1 + 1) k,
      s.dNdE_tau_lep e2 e1 * s.delE.data e2 * s.scalar e2 1) (e1 + 1) s.ne _ h
  · simp
  · rintro k acc hk _ ⟨h1, h2, h3, h4⟩
    simp only [Finset.sum_Ico_succ_top hk, h1, h2, h3, h4, and_self]

/-- The first loop of `ConvertTauIntoNuTau` in closed form: channels 0 and 1 of every node below
`ne` receive their increment, computed from the object at entry. -/
theorem convertTau_loop (s : NuSQUIDS) :
    forEach 0 s.ne (fun e1 a =>
      let sums := tauSums a e1
      let a1 := setRho e1 0 (a.rho e1 0 +
        (sums.tau_neu_all • a.evol_b1_proj 0 2 e1 +
         sums.tau_aneu_lep • a.evol_b1_proj 0 0 e1 +
         sums.tau_aneu_lep • a.evol_b1_proj 0 1 e1)) a
      setRho e1 1 (a1.rho e1 1 +
        (sums.tau_aneu_all • a1.evol_b1_proj 1 2 e1 +
         sums.tau_neu_lep • a1.evol_b1_proj 1 0 e1 +
         sums.tau_neu_lep • a1.evol_b1_proj 1 1 e1)) a1) s =
    rhoUpd (fun e r => if e < s.ne ∧ (r = 0 ∨ r = 1) then s.rho e r + tauIncrement s e r
      else s.rho e r) s := by
  apply forEach_inv _ (fun k t => t = rhoUpd (fun e r =>
    if e < k ∧ (r = 0 ∨ r = 1) then s.rho e r + tauIncrement s e r else s.rho e r) s)
    0 s.ne _ (Nat.zero_le _)
  · show s = rhoUpd _ s
    have e : (fun e r => if e < 0 ∧ (r = 0 ∨ r = 1) then s.rho e r + tauIncrement s e r
        else s.rho e r) = s.rho := by
      funext e r; simp
    rw [e]; rfl
  · intro k t _ _ ht
    subst ht
    have hs : ∀ R : Nat → Nat → SU_vector, tauSums (rhoUpd R s) k = tauSums s k := fun _ => rfl
    simp only [setRho, rhoUpd] at hs ⊢
    congr 1
    funext e r
    by_cases h1 : e = k
    · subst h1
      by_cases h2 : r = 0
      · subst h2
        simp [tauIncrement, hs]
      · by_cases h3 : r = 1
        · subst h3
          simp [tauIncrement, hs]
        · simp [h2, h3]
    · by_cases h4 : e < k
      · have h5 : e < k + 1 := by omega
        simp [h1, h4, h5]
      · have h5 : ¬ e < k + 1 := by omega
        simp [h1, h4, h5]

theorem flat_index (ie j n m : Nat) (hie : ie < n) (hj : j < m) :
    (ie * m + j) / m = ie ∧ (ie * m + j) % m = j ∧ ie * m + j < n * m := by
  have hm : 0 < m := by omega
  refine ⟨?_, ?_, ?_⟩
  · rw [Nat.add_comm, Nat.add_mul_div_right _ _ hm, Nat.div_eq_of_lt hj]; simp
  · rw [Nat.add_comm, Nat.add_mul_mod_self_right, Nat.mod_eq_of_lt hj]
  · have h1 : (ie + 1) * m ≤ n * m := Nat.mul_le_mul_right m hie
    have h2 : (ie + 1) * m = ie * m + m := Nat.succ_mul ie m
    omega

theorem flatBuf_at (f : Nat → Nat → ℚ) (ie j n m : Nat) (hie : ie < n) (hj : j < m) :
    flatBuf f n m (ie * m + j) = f ie j := by
  obtain ⟨h1, h2, h3⟩ := flat_index ie j n m hie hj
  simp [flatBuf, h1, h2, h3]

/-- The flattening loop of `WriteStateHDF5` with the two written values given per node and
component: the buffers are filled row by row. -/
theorem flatten_loop (N A : Nat → Nat → ℚ) (n m : Nat) :
    forEach 0 n (fun ie b0 =>
      forEach 0 m (fun i (b : StateBuffers) =>
        { neustate := set1 b.neustate (ie * m + i) (N ie i),
          aneustate := set1 b.aneustate (ie * m + i) (A ie i) }) b0)
      { neustate := fun _ => 0, aneustate := fun _ => 0 } =
    { neustate := flatBuf N n m, aneustate := flatBuf A n m } := by
  apply forEach_inv _ (fun k (b : StateBuffers) =>
    b = { neustate := flatBuf N k m, aneustate := flatBuf A k m }) 0 n _ (Nat.zero_le _)
  · simp only [StateBuffers.mk.injEq]
    constructor <;> funext x <;> simp [flatBuf]
  · intro k b _ _ hb
    subst hb
    have key := forEach_inv
      (fun i (b : StateBuffers) =>
        ({ neustate := set1 b.neustate (k * m + i) (N k i),
           aneustate := set1 b.aneustate (k * m + i) (A k i) } : StateBuffers))
      (fun i (b : StateBuffers) =>
        b = { neustate := fun x => if x < k * m + i then N (x / m) (x % m) else 0,
              aneustate := fun x => if x < k * m + i then A (x / m) (x % m) else 0 })
      0 m { neustate := flatBuf N k m, aneustate := flatBuf A k m } (Nat.zero_le _)
      (by
        simp only [StateBuffers.mk.injEq]
        constructor <;> funext x <;> simp [flatBuf])
      (by
        intro i b _ hi hb
        subst hb
        obtain ⟨h1, h2, _⟩ := flat_index k i (k + 1) m (Nat.lt_succ_self k) hi
        simp only [StateBuffers.mk.injEq]
        constructor
        · funext x
          by_cases hx : x = k * m + i
          · subst hx
            have : k * m + i < k * m + (i + 1) := by omega
            simp [set1, h1, h2, this]
          · by_cases hlt : x < k * m + i
            · have : x < k * m + (i + 1) := by omega
              simp [set1, hx, hlt, this]
            · have : ¬ x < k * m + (i + 1) := by omega
              simp [set1, hx, hlt, this]
        · funext x
          by_cases hx : x = k * m + i
          · subst hx
            have : k * m + i < k * m + (i + 1) := by omega
            simp [set1, h1, h2, this]
          · by_cases hlt : x < k * m + i
            · have : x < k * m + (i + 1) := by omega
              simp [set1, hx, hlt, this]
            · have : ¬ x < k * m + (i + 1) := by omega
              simp [set1, hx, hlt, this])
    have e : (k + 1) * m = k * m + m := Nat.succ_mul k m
    show forEach 0 m _ _ = StateBuffers.mk (flatBuf N (k + 1) m) (flatBuf A (k + 1) m)
    rw [key]
    unfold flatBuf
    rw [e]

/-- The buffers that `WriteStateHDF5` hands to the datasets `neustate` and `aneustate`, for each
of the three particle types. -/
theorem flattenState_eq (w : NuSQUIDS) :
    (w.NT = .both → flattenState w =
      { neustate := flatBuf (fun ie i => w.rho ie 0 i) w.ne (w.numneu * w.numneu),
        aneustate := flatBuf (fun ie i => w.rho ie 1 i) w.ne (w.numneu * w.numneu) }) ∧
    (w.NT = .neutrino → flattenState w =
      { neustate := flatBuf (fun ie i => w.rho ie 0 i) w.ne (w.numneu * w.numneu),
        aneustate := flatBuf (fun _ _ => 0) w.ne (w.numneu * w.numneu) }) ∧
    (w.NT = .antineutrino → flattenState w =
      { neustate := flatBuf (fun _ _ => 0) w.ne (w.numneu * w.numneu),
        aneustate := flatBuf (fun ie i => w.rho ie 0 i) w.ne (w.numneu * w.numneu) }) := by
  refine ⟨fun h => ?_, fun h => ?_, fun h => ?_⟩
  · unfold flattenState
    simp only [h, if_true]
    exact flatten_loop _ _ _ _
  · unfold flattenState
    simp only [h, if_true, reduceCtorEq, if_false]
    exact flatten_loop _ _ _ _
  · unfold flattenState
    simp only [h, if_true, reduceCtorEq, if_false]
    exact flatten_loop _ _ _ _

/-- The unflattening loop of `ReadStateHDF5` for a body that writes component `j` of the
channels selected by `W` at node `ie` from the buffers `D`: every component below the dataset
extents is read from the buffer, every other component is left. -/
theorem unflatten_loop (s : NuSQUIDS) (W : Nat → Prop) [DecidablePred W] (D : Nat → Nat → ℚ)
    (d0 d1 : Nat) (body : Nat → Nat → NuSQUIDS → NuSQUIDS)
    (hbody : ∀ ie j R, body ie j (rhoUpd R s) =
      rhoUpd (fun a c => if a = ie ∧ W c then set1 (R a c) j (D c (ie * d1 + j)) else R a c) s) :
    forEach 0 d0 (fun ie a => forEach 0 d1 (fun j b => body ie j b) a) s =
      rhoUpd (fun a c => fun x =>
        if W c ∧ a < d0 ∧ x < d1 then D c (a * d1 + x) else s.rho a c x) s := by
  apply forEach_inv _ (fun k t => t = rhoUpd (fun a c => fun x =>
    if W c ∧ a < k ∧ x < d1 then D c (a * d1 + x) else s.rho a c x) s) 0 d0 _ (Nat.zero_le _)
  · show s = rhoUpd _ s
    have e : (fun a c => fun x => if W c ∧ a < 0 ∧ x < d1 then D c (a * d1 + x)
        else s.rho a c x) = s.rho := by
      funext a c x; simp
    rw [e]; rfl
  · intro k t _ _ ht
    subst ht
    have key := forEach_inv (fun j b => body k j b)
      (fun j t => t = rhoUpd (fun a c => fun x =>
        if W c ∧ ((a < k ∧ x < d1) ∨ (a = k ∧ x < j)) then D c (a * d1 + x)
        else s.rho a c x) s)
      0 d1 (rhoUpd (fun a c => fun x =>
        if W c ∧ a < k ∧ x < d1 then D c (a * d1 + x) else s.rho a c x) s) (Nat.zero_le _)
      (by
        unfold rhoUpd
        congr 1
        funext a c x
        simp)
      (by
        intro j t _ hj ht
        subst ht
        beta_reduce
        rw [hbody]
        unfold rhoUpd
        congr 1
        funext a c x
        by_cases hW : W c
        · by_cases ha : a = k
          · subst ha
            by_cases hx : x = j
            · subst hx
              simp [set1, hW]
            · have e1 : x < j + 1 ↔ x < j := by omega
              simp [set1, hW, hx, e1]
          · simp [set1, hW, ha]
        · simp [set1, hW])
    show forEach 0 d1 (fun j b => body k j b) _ = _
    rw [key]
    unfold rhoUpd
    congr 1
    funext a c x
    have e1 : ((a < k ∧ x < d1) ∨ (a = k ∧ x < d1)) ↔ (a < k + 1 ∧ x < d1) := by omega
    simp only [e1]

/-- The state part of `ReadStateHDF5` in closed form, for each of the three particle types. -/
theorem unflattenState_eq (s : NuSQUIDS) (d0 d1 : Nat) (neudata aneudata : Nat → ℚ) :
    (s.NT = .neutrino → unflattenState d0 d1 neudata aneudata s =
      rhoUpd (fun a c => fun x =>
        if c = 0 ∧ a < d0 ∧ x < d1 then neudata (a * d1 + x) else s.rho a c x) s) ∧
    (s.NT = .antineutrino → unflattenState d0 d1 neudata aneudata s =
      rhoUpd (fun a c => fun x =>
        if c = 0 ∧ a < d0 ∧ x < d1 then aneudata (a * d1 + x) else s.rho a c x) s) ∧
    (s.NT = .both → unflattenState d0 d1 neudata aneudata s =
      rhoUpd (fun a c => fun x =>
        if (c = 0 ∨ c = 1) ∧ a < d0 ∧ x < d1 then
          (if c = 0 then neudata else aneudata) (a * d1 + x)
        else s.rho a c x) s) := by
  refine ⟨fun h => ?_, fun h => ?_, fun h => ?_⟩
  · unfold unflattenState
    apply unflatten_loop s (fun c => c = 0) (fun _ => neudata) d0 d1
    intro ie j R
    simp only [rhoUpd, h, if_true, setRho]
    congr 1
    funext a c
    by_cases hc : a = ie ∧ c = 0
    · obtain ⟨rfl, rfl⟩ := hc; simp
    · simp [hc]
  · unfold unflattenState
    apply unflatten_loop s (fun c => c = 0) (fun _ => aneudata) d0 d1
    intro ie j R
    simp only [rhoUpd, h, if_true, setRho, reduceCtorEq, if_false]
    congr 1
    funext a c
    by_cases hc : a = ie ∧ c = 0
    · obtain ⟨rfl, rfl⟩ := hc; simp
    · simp [hc]
  · unfold unflattenState
    apply unflatten_loop s (fun c => c = 0 ∨ c = 1) (fun c => if c = 0 then neudata else aneudata)
      d0 d1
    intro ie j R
    simp only [rhoUpd, h, if_true, setRho, reduceCtorEq, if_false]
    congr 1
    funext a c
    by_cases ha : a = ie
    · subst ha
      by_cases hc0 : c = 0
      · subst hc0; simp
      · by_cases hc1 : c = 1
        · subst hc1; simp
        · simp [hc0, hc1]
    · simp [ha]

/-- C8: for each particle type (neutrino, antineutrino, both), the buffers that `WriteStateHDF5`
builds from the state of the writer `w`, read back as `ReadStateHDF5` does into a reader `r` of
the same particle type with the extents of the written dataset (`E_range.size()`, which counts
the nodes, by `numneu*numneu`), restore every component: `state[ie].rho[c][j]` of the reader
equals that of the writer for every node `ie < ne`, component `j < numneu^2` and channel `c`
(channel 0, and channel 1 as well for `both`). -/
theorem state_buffers_round_trip (w r : NuSQUIDS) (hNT : r.NT = w.NT)
    (hE : w.E_range.size = w.ne) :
    ∀ ie j, ie < w.ne → j < w.numneu * w.numneu →
      ((w.NT = .neutrino ∨ w.NT = .antineutrino) →
        (unflattenState w.E_range.size (w.numneu * w.numneu) (flattenState w).neustate
          (flattenState w).aneustate r).rho ie 0 j = w.rho ie 0 j) ∧
      (w.NT = .both →
        (unflattenState w.E_range.size (w.numneu * w.numneu) (flattenState w).neustate
          (flattenState w).aneustate r).rho ie 0 j = w.rho ie 0 j ∧
        (unflattenState w.E_range.size (w.numneu * w.numneu) (flattenState w).neustate
          (flattenState w).aneustate r).rho ie 1 j = w.rho ie 1 j) := by
  intro ie j hie hj
  rw [hE]
  constructor
  · rintro (h | h)
    · rw [(unflattenState_eq r _ _ _ _).1 (hNT.trans h), (flattenState_eq w).2.1 h]
      simp only [rhoUpd, hie, hj, and_self, if_true]
      exact flatBuf_at _ ie j w.ne _ hie hj
    · rw [(unflattenState_eq r _ _ _ _).2.1 (hNT.trans h), (flattenState_eq w).2.2 h]
      simp only [rhoUpd, hie, hj, and_self, if_true]
      exact flatBuf_at _ ie j w.ne _ hie hj
  · intro h
    rw [(unflattenState_eq r _ _ _ _).2.2 (hNT.trans h), (flattenState_eq w).1 h]
    constructor
    · simp only [rhoUpd, hie, hj, and_self, if_true, true_or]
      exact flatBuf_at _ ie j w.ne _ hie hj
    · simp only [rhoUpd, hie, hj, and_self, if_true, or_true, one_ne_zero, if_false]
      exact flatBuf_at _ ie j w.ne _ hie hj

/-- Witness for C8: the state of the sample object with negative electron content, written and
read back into the sample object, has its components 0, 1 and 8 restored. -/
theorem state_buffers_round_trip_witness :
    (unflattenState negativeObject.E_range.size (negativeObject.numneu * negativeObject.numneu)
      (flattenState negativeObject).neustate (flattenState negativeObject).aneustate
      exampleObject).rho 0 0 0 = negativeObject.rho 0 0 0 ∧
    (unflattenState negativeObject.E_range.size (negativeObject.numneu * negativeObject.numneu)
      (flattenState negativeObject).neustate (flattenState negativeObject).aneustate
      exampleObject).rho 0 0 1 = negativeObject.rho 0 0 1 ∧
    (unflattenState negativeObject.E_range.size (negativeObject.numneu * negativeObject.numneu)
      (flattenState negativeObject).neustate (flattenState negativeObject).aneustate
      exampleObject).rho 0 0 8 = negativeObject.rho 0 0 8 :=
  ⟨(state_buffers_round_trip negativeObject exampleObject rfl rfl 0 0 (by decide) (by decide)).1
      (Or.inl rfl),
   (state_buffers_round_trip negativeObject exampleObject rfl rfl 0 1 (by decide) (by decide)).1
      (Or.inl rfl),
   (state_buffers_round_trip negativeObject exampleObject rfl rfl 0 8 (by decide) (by decide)).1
      (Or.inl rfl)⟩

/-! ## The path lengths handed to `Evolve` -/

theorem EvolFrame_fields (s t : NuSQUIDS) (h : EvolFrame s t) :
    t.positivization_scale = s.positivization_scale ∧ t.ienergy = s.ienergy ∧
    t.positivization = s.positivization ∧
    (trackOf t).GetFinalX = (trackOf s).GetFinalX ∧ ChannelsMatchType t = ChannelsMatchType s := by
  obtain ⟨r, tr, log, rfl, _, h2⟩ := h
  exact ⟨rfl, rfl, rfl, h2, rfl⟩

theorem PositivizeFlavors_log (ops : SUOps) (s a : NuSQUIDS) (he : s.ienergy = true)
    (hwf : ChannelsMatchType s) (h : EvolFrame s a) :
    ∃ a', PositivizeFlavors ops a = .ok a' ∧ EvolFrame s a' ∧ a'.evolve_log = a.evolve_log := by
  obtain ⟨a', h1, h2⟩ := PositivizeFlavors_frame ops s a he hwf h
  obtain ⟨_, e2, _, _, e5⟩ := EvolFrame_fields s a h
  have h3 := PositivizeFlavors_eq ops a (e2.trans he) (by rw [e5]; exact hwf)
  rw [h3] at h1
  injection h1 with h1
  exact ⟨a', by rw [h3, h1], h2, by rw [← h1]; rfl⟩

theorem positivizeIfSet_log (ops : SUOps) (s a : NuSQUIDS) (he : s.ienergy = true)
    (hwf : ChannelsMatchType s) (h : EvolFrame s a) :
    ∃ a', positivizeIfSet ops a = .ok a' ∧ EvolFrame s a' ∧ a'.evolve_log = a.evolve_log := by
  unfold positivizeIfSet
  split
  · exact PositivizeFlavors_log ops s a he hwf h
  · exact ⟨a, rfl, h, rfl⟩

theorem ConvertTauIntoNuTau_log (a : NuSQUIDS) :
    (ConvertTauIntoNuTau a).evolve_log = a.evolve_log := by
  unfold ConvertTauIntoNuTau
  rw [convertTau_loop, SetScalarsToZero_eq]
  rfl

theorem castInt_nonneg (q : ℚ) (h : 0 ≤ q) : 0 ≤ castInt q := by
  unfold castInt
  exact Int.tdiv_nonneg (Rat.num_nonneg.mpr h) (Int.ofNat_nonneg _)

theorem toNat_cast (z : Int) (h : 0 ≤ z) : ((z.toNat : ℕ) : ℚ) = (z : ℚ) := by
  have e : ((z.toNat : ℕ) : ℤ) = z := Int.toNat_of_nonneg h
  calc ((z.toNat : ℕ) : ℚ) = (((z.toNat : ℕ) : ℤ) : ℚ) := (Int.cast_natCast _).symm
    _ = (z : ℚ) := by rw [e]

/-- The sum of the path lengths that one `EvolveState` call hands to `Evolve` in a chunked
mode, before any assumption on the track: the full chunks, then the last call with the final
position minus the chunks. -/
theorem EvolveState_chunked_log (ext : External) (s : NuSQUIDS) (hwf : ChannelsMatchType s)
    (hg : ¬ EvolveStateGuardFails s)
    (hmode : s.tauregeneration = true ∨ s.positivization = true) :
    ∃ s', EvolveState ext s = .ok s' ∧
      s'.evolve_log.sum = s.evolve_log.sum +
        (((chunkSteps s).toNat : ℚ) * chunkScale s +
          ((trackOf s).GetFinalX - chunkScale s * (chunkSteps s : ℚ))) := by
  have hb : s.body.isNone = false := by
    cases hbody : s.body with
    | none => exact absurd (Or.inl hbody) hg
    | some b => rfl
  have hib : s.ibody = true := by
    cases h : s.ibody with
    | false => exact absurd (Or.inr (Or.inl h)) hg
    | true => rfl
  have htr : s.track.isNone = false := by
    cases h : s.track with
    | none => exact absurd (Or.inr (Or.inr (Or.inl h))) hg
    | some b => rfl
  have hit : s.itrack = true := by
    cases h : s.itrack with
    | false => exact absurd (Or.inr (Or.inr (Or.inr (Or.inl h)))) hg
    | true => rfl
  have hst : s.istate = true := by
    cases h : s.istate with
    | false => exact absurd (Or.inr (Or.inr (Or.inr (Or.inr (Or.inl h))))) hg
    | true => rfl
  have he : s.ienergy = true := by
    cases h : s.ienergy with
    | false => exact absurd (Or.inr (Or.inr (Or.inr (Or.inr (Or.inr h))))) hg
    | true => rfl
  unfold EvolveState
  simp only [hb, hib, htr, hit, hst, he, Bool.not_true, Bool.false_eq_true, if_false]
  by_cases htau : s.tauregeneration = true
  · have hcs : (if s.positivization = true then min s.tau_reg_scale s.positivization_scale
        else s.tau_reg_scale) = chunkScale s := by
      simp [chunkScale, htau]
    simp only [htau, Bool.not_true, Bool.false_eq_true, if_false, hcs]
    obtain ⟨s1, h1, hf1, hl1⟩ := forLoop_inv
      (fun _ a => (positivizeIfSet ext.toSUOps (Evolve ext (chunkScale s) a)).andThen
        (fun a1 => .ok (ConvertTauIntoNuTau a1)))
      (fun k t => EvolFrame s t ∧
        t.evolve_log.sum = s.evolve_log.sum + (k : ℚ) * chunkScale s)
      0 (castInt (((trackOf s).GetFinalX - (trackOf s).GetInitialX) / chunkScale s)).toNat
      s (Nat.zero_le _) ⟨EvolFrame_refl s, by simp⟩
      (by
        rintro k a _ _ ⟨ha, hla⟩
        obtain ⟨a1, e1, f1, l1⟩ := positivizeIfSet_log ext.toSUOps s _ he hwf
          (Evolve_frame ext s a (chunkScale s) ha)
        refine ⟨ConvertTauIntoNuTau a1, by simp only [e1, Outcome.andThen],
          ConvertTauIntoNuTau_frame s a1 f1, ?_⟩
        rw [ConvertTauIntoNuTau_log, l1]
        show (chunkScale s :: a.evolve_log).sum = _
        rw [List.sum_cons, hla]
        push_cast
        ring)
    obtain ⟨_, _, _, hx1, _⟩ := EvolFrame_fields s s1 hf1
    obtain ⟨s2, h2, hf2, hl2⟩ := positivizeIfSet_log ext.toSUOps s
      (Evolve ext ((trackOf s1).GetFinalX - chunkScale s *
        (castInt (((trackOf s).GetFinalX - (trackOf s).GetInitialX) / chunkScale s) : Int)) s1)
      he hwf (Evolve_frame ext s s1 _ hf1)
    refine ⟨ConvertTauIntoNuTau s2, ?_, ?_⟩
    · rw [andThen_ok _ _ s1 h1, andThen_ok _ _ s2 h2]
    · rw [ConvertTauIntoNuTau_log, hl2]
      show (_ :: s1.evolve_log).sum = _
      rw [List.sum_cons, hl1, hx1]
      unfold chunkSteps
      ring
  · have hpos : s.positivization = true := by
      rcases hmode with h | h
      · exact absurd h htau
      · exact h
    have htau' : s.tauregeneration = false := by
      cases h : s.tauregeneration with
      | false => rfl
      | true => exact absurd h htau
    have hcs : s.positivization_scale = chunkScale s := by
      simp [chunkScale, htau']
    simp only [htau', Bool.not_false, if_true, hpos]
    obtain ⟨s1, h1, hf1, hl1⟩ := forLoop_inv
      (fun _ a => PositivizeFlavors ext.toSUOps (Evolve ext a.positivization_scale a))
      (fun k t => EvolFrame s t ∧
        t.evolve_log.sum = s.evolve_log.sum + (k : ℚ) * chunkScale s)
      0 (castInt (((trackOf s).GetFinalX - (trackOf s).GetInitialX) /
        s.positivization_scale)).toNat
      s (Nat.zero_le _) ⟨EvolFrame_refl s, by simp⟩
      (by
        rintro k a _ _ ⟨ha, hla⟩
        obtain ⟨e0, _, _, _, _⟩ := EvolFrame_fields s a ha
        obtain ⟨a1, e1, f1, l1⟩ := PositivizeFlavors_log ext.toSUOps s _ he hwf
          (Evolve_frame ext s a a.positivization_scale ha)
        refine ⟨a1, e1, f1, ?_⟩
        rw [l1]
        show (a.positivization_scale :: a.evolve_log).sum = _
        rw [List.sum_cons, hla, e0, hcs]
        push_cast
        ring)
    obtain ⟨e0, _, _, hx1, _⟩ := EvolFrame_fields s s1 hf1
    obtain ⟨s2, h2, hf2, hl2⟩ := PositivizeFlavors_log ext.toSUOps s
      (Evolve ext ((trackOf s1).GetFinalX - s1.positivization_scale *
        (castInt (((trackOf s).GetFinalX - (trackOf s).GetInitialX) /
          s.positivization_scale) : Int)) s1)
      he hwf (Evolve_frame ext s s1 _ hf1)
    refine ⟨s2, ?_, ?_⟩
    · rw [andThen_ok _ _ s1 h1]; exact h2
    · rw [hl2]
      show (_ :: s1.evolve_log).sum = _
      rw [List.sum_cons, hl1, hx1, e0]
      unfold chunkSteps
      rw [← hcs]
      ring

/-- In a chunked mode, on a track with `xi <= xf` and a positive chunk length, the path lengths
that one `EvolveState` call hands to `Evolve` sum to the final position `xf` of the track. -/
theorem EvolveState_chunked_total (ext : External) (s : NuSQUIDS) (hwf : ChannelsMatchType s)
    (hg : ¬ EvolveStateGuardFails s)
    (hmode : s.tauregeneration = true ∨ s.positivization = true)
    (hscale : 0 < chunkScale s) (hx : (trackOf s).GetInitialX ≤ (trackOf s).GetFinalX) :
    (EvolveState ext s).isRaised = false ∧
    (EvolveState ext s).obj.evolve_log.sum = s.evolve_log.sum + (trackOf s).GetFinalX := by
  obtain ⟨s', h1, h2⟩ := EvolveState_chunked_log ext s hwf hg hmode
  have hq : 0 ≤ ((trackOf s).GetFinalX - (trackOf s).GetInitialX) / chunkScale s :=
    div_nonneg (sub_nonneg.mpr hx) (le_of_lt hscale)
  have hn : 0 ≤ chunkSteps s := castInt_nonneg _ hq
  rw [h1]
  refine ⟨rfl, ?_⟩
  show s'.evolve_log.sum = _
  rw [h2, toNat_cast _ hn]
  ring

/-- With both options off, `EvolveState` hands the single length `xf - xi` to `Evolve`. -/
theorem EvolveState_plain_log (ext : External) (s : NuSQUIDS)
    (hg : ¬ EvolveStateGuardFails s)
    (htau : s.tauregeneration = false) (hpos : s.positivization = false) :
    (EvolveState ext s).isRaised = false ∧
    (EvolveState ext s).obj.evolve_log =
      ((trackOf s).GetFinalX - (trackOf s).GetInitialX) :: s.evolve_log := by
  have hb : s.body.isNone = false := by
    cases hbody : s.body with
    | none => exact absurd (Or.inl hbody) hg
    | some b => rfl
  have hib : s.ibody = true := by
    cases h : s.ibody with
    | false => exact absurd (Or.inr (Or.inl h)) hg
    | true => rfl
  have htr : s.track.isNone = false := by
    cases h : s.track with
    | none => exact absurd (Or.inr (Or.inr (Or.inl h))) hg
    | some b => rfl
  have hit : s.itrack = true := by
    cases h : s.itrack with
    | false => exact absurd (Or.inr (Or.inr (Or.inr (Or.inl h)))) hg
    | true => rfl
  have hst : s.istate = true := by
    cases h : s.istate with
    | false => exact absurd (Or.inr (Or.inr (Or.inr (Or.inr (Or.inl h))))) hg
    | true => rfl
  have he : s.ienergy = true := by
    cases h : s.ienergy with
    | false => exact absurd (Or.inr (Or.inr (Or.inr (Or.inr (Or.inr h))))) hg
    | true => rfl
  unfold EvolveState
  simp only [hb, hib, htr, hit, hst, he, htau, hpos, Bool.not_true, Bool.not_false,
    Bool.false_eq_true, if_false, if_true]
  exact ⟨rfl, rfl⟩

theorem offsetTrackObject_guards : ¬ EvolveStateGuardFails offsetTrackObject := by
  unfold EvolveStateGuardFails
  simp [offsetTrackObject, exampleObject]

/-- C3, the code at a failing input: on a track from `xi = 1` to `xf = 3` with the positivity
correction on and scale 1, `EvolveState` returns and the path lengths it handed to `Evolve` sum
to 3, while `xf - xi = 2`, the length the same track gets with both options off. -/
theorem EvolveState_chunked_overshoots :
    (EvolveState exampleExt offsetTrackObject).isRaised = false ∧
    (EvolveState exampleExt offsetTrackObject).obj.evolve_log.sum = 3 ∧
    (trackOf offsetTrackObject).GetFinalX - (trackOf offsetTrackObject).GetInitialX = 2 ∧
    (EvolveState exampleExt (Set_PositivityConstrain false offsetTrackObject)).obj.evolve_log =
      [2] := by
  have h := EvolveState_chunked_total exampleExt offsetTrackObject (fun _ => Nat.le_refl 1)
    offsetTrackObject_guards (Or.inr rfl)
    (by norm_num [chunkScale, offsetTrackObject, exampleObject])
    (by norm_num [trackOf, Track.GetInitialX, Track.GetFinalX, offsetTrackObject, exampleObject])
  have h2 := EvolveState_plain_log exampleExt (Set_PositivityConstrain false offsetTrackObject)
    offsetTrackObject_guards rfl rfl
  refine ⟨h.1, ?_, ?_, ?_⟩
  · rw [h.2]
    norm_num [trackOf, Track.GetFinalX, offsetTrackObject, exampleObject]
  · norm_num [trackOf, Track.GetInitialX, Track.GetFinalX, offsetTrackObject, exampleObject]
  · rw [h2.2]
    norm_num [trackOf, Track.GetInitialX, Track.GetFinalX, offsetTrackObject, exampleObject,
      Set_PositivityConstrain]

/-! ## Persisted mixing parameters -/

/-- C7, the code at a failing input: a single-energy three-flavor writer holds `th12 = 1/2` and
writes it under the attribute `th12`; a reader on which no `init` has run reads the group back
without raising, and its `Get_MixingAngle(0,1)` is the default 0.583996, not 1/2. -/
theorem ReadStateHDF5_resets_mixing_angle :
    Get_MixingAngle 0 1 tunedObject = .ok (1 / 2) ∧
    (WriteStateHDF5 exampleExt tunedObject emptyFile "/" false "").map
      (fun f => f.attr_double "/" "mixingangles" "th12") = .ok (1 / 2) ∧
    (writeThenRead exampleExt tunedObject emptyFile "/" false freshObject).isRaised = false ∧
    Get_MixingAngle 0 1 (writeThenRead exampleExt tunedObject emptyFile "/" false freshObject).obj =
      .ok (583996 / 1000000) ∧
    (583996 / 1000000 : ℚ) ≠ 1 / 2 :=
  ⟨rfl, rfl, rfl, rfl, by norm_num⟩

/-! ## Persisted interaction tensors -/

/-- The last loop of the cross-section part of `ReadStateHDF5`, with the two local arrays `U2`
and `U3` it copies from. -/
theorem read_tau_loop (U2 U3 : Nat → ℚ) (s : NuSQUIDS) :
    forEach 0 s.ne (fun e1 a =>
      forEach 0 e1 (fun e2 (b : NuSQUIDS) =>
        { b with dNdE_tau_all := set2 b.dNdE_tau_all e1 e2 (U2 (e1 * b.ne + e2)),
                 dNdE_tau_lep := set2 b.dNdE_tau_lep e1 e2 (U3 (e1 * b.ne + e2)) }) a) s =
    tauKernelUpd
      (fun a c => if a < s.ne ∧ c < a then U2 (a * s.ne + c) else s.dNdE_tau_all a c)
      (fun a c => if a < s.ne ∧ c < a then U3 (a * s.ne + c) else s.dNdE_tau_lep a c) s := by
  apply forEach_inv _ (fun k t => t = tauKernelUpd
      (fun a c => if a < k ∧ c < a then U2 (a * s.ne + c) else s.dNdE_tau_all a c)
      (fun a c => if a < k ∧ c < a then U3 (a * s.ne + c) else s.dNdE_tau_lep a c) s)
    0 s.ne _ (Nat.zero_le _)
  · show s = tauKernelUpd _ _ s
    have e2 : (fun a c => if a < 0 ∧ c < a then U2 (a * s.ne + c) else s.dNdE_tau_all a c) =
        s.dNdE_tau_all := by funext a c; simp
    have e3 : (fun a c => if a < 0 ∧ c < a then U3 (a * s.ne + c) else s.dNdE_tau_lep a c) =
        s.dNdE_tau_lep := by funext a c; simp
    rw [e2, e3]; rfl
  · intro k t _ _ ht
    subst ht
    have key := forEach_inv
      (fun e2 (b : NuSQUIDS) =>
        { b with dNdE_tau_all := set2 b.dNdE_tau_all k e2 (U2 (k * b.ne + e2)),
                 dNdE_tau_lep := set2 b.dNdE_tau_lep k e2 (U3 (k * b.ne + e2)) })
      (fun j t => t = tauKernelUpd
        (fun a c => if (a < k ∧ c < a) ∨ (a = k ∧ c < j) then U2 (a * s.ne + c)
          else s.dNdE_tau_all a c)
        (fun a c => if (a < k ∧ c < a) ∨ (a = k ∧ c < j) then U3 (a * s.ne + c)
          else s.dNdE_tau_lep a c) s)
      0 k (tauKernelUpd
        (fun a c => if a < k ∧ c < a then U2 (a * s.ne + c) else s.dNdE_tau_all a c)
        (fun a c => if a < k ∧ c < a then U3 (a * s.ne + c) else s.dNdE_tau_lep a c) s)
      (Nat.zero_le _)
      (by
        unfold tauKernelUpd
        congr 1 <;> funext a c <;> simp)
      (by
        intro j t _ hj ht
        subst ht
        simp only [tauKernelUpd, set2]
        congr 1 <;> funext a c
        · by_cases ha : a = k
          · subst ha
            by_cases hc : c = j
            · subst hc; simp [set2]
            · have e1 : c < j + 1 ↔ c < j := by omega
              simp [set2, hc, e1]
          · simp [set2, ha]
        · by_cases ha : a = k
          · subst ha
            by_cases hc : c = j
            · subst hc; simp [set2]
            · have e1 : c < j + 1 ↔ c < j := by omega
              simp [set2, hc, e1]
          · simp [set2, ha])
    show forEach 0 k _ _ = _
    rw [key]
    unfold tauKernelUpd
    have e1 : ∀ a c : Nat, ((a < k ∧ c < a) ∨ (a = k ∧ c < k)) ↔ (a < k + 1 ∧ c < a) := by
      intro a c; omega
    simp only [e1]

theorem readBlocks_ne (file : H5File) (xs : String) (s : NuSQUIDS) :
    (readSigma file xs s).ne = s.ne ∧ (readKernels file xs s).ne = s.ne ∧
    (readInvlenTau file xs s).ne = s.ne := by
  refine ⟨?_, ?_, ?_⟩
  · unfold readSigma
    dsimp only
    apply forEach_closed _ (fun (t : NuSQUIDS) => t.ne = s.ne) _ _ _ rfl
    intro rho a _ _ ha
    apply forEach_closed _ (fun (t : NuSQUIDS) => t.ne = s.ne) _ _ _ ha
    intro flv b _ _ hb
    apply forEach_closed _ (fun (t : NuSQUIDS) => t.ne = s.ne) _ _ _ hb
    intro ie c _ _ hc
    exact hc
  · unfold readKernels
    dsimp only
    apply forEach_closed _ (fun (t : NuSQUIDS) => t.ne = s.ne) _ _ _ rfl
    intro rho a _ _ ha
    apply forEach_closed _ (fun (t : NuSQUIDS) => t.ne = s.ne) _ _ _ ha
    intro flv b _ _ hb
    apply forEach_closed _ (fun (t : NuSQUIDS) => t.ne = s.ne) _ _ _ hb
    intro e1 c _ _ hc
    apply forEach_closed _ (fun (t : NuSQUIDS) => t.ne = s.ne) _ _ _ hc
    intro e2 d _ _ hd
    exact hd
  · unfold readInvlenTau
    dsimp only
    apply forEach_closed _ (fun (t : NuSQUIDS) => t.ne = s.ne) _ _ _ rfl
    intro ie a _ _ ha
    exact ha

/-- The tau decay kernels that `ReadStateHDF5` leaves do not depend on the file: for every file,
every group and every reader, each entry below the diagonal is the content of the local array
that was declared and never filled. -/
theorem readCrossSections_tau_kernels (ext : External) (file : H5File) (xs : String)
    (r : NuSQUIDS) (e1 e2 : Nat) (h1 : e1 < r.ne) (h2 : e2 < e1) :
    (readCrossSections ext file xs r).dNdE_tau_all e1 e2 = ext.uninit 2 (e1 * r.ne + e2) ∧
    (readCrossSections ext file xs r).dNdE_tau_lep e1 e2 = ext.uninit 3 (e1 * r.ne + e2) := by
  have h3 : (readInvlenTau file xs (readKernels file xs (readSigma file xs
      (InitializeInteractionVectors r)))).ne = r.ne := by
    rw [(readBlocks_ne file xs _).2.2, (readBlocks_ne file xs _).2.1, (readBlocks_ne file xs _).1]
    rfl
  unfold readCrossSections readTauKernels
  simp only []
  rw [read_tau_loop]
  simp only [tauKernelUpd, h3, h1, h2, and_self, if_true]

/-- C9, the code at a failing input: a two-node writer holds the tau kernels 1/2 and 1/4 and
writes them, with its other interaction tensors, to the cross-section group; the entry of the
dataset `dNdEtauall` for the pair (1, 0) is 1/2. After the read the total cross sections, the
kernels `dNdE_CC` and the tau decay lengths of the reader are those of the writer, and its tau
kernels at (1, 0) are the zeros of the arrays that were never filled. -/
theorem ReadStateHDF5_drops_tau_kernels :
    xsObject.dNdE_tau_all 1 0 = 1 / 2 ∧ xsObject.dNdE_tau_lep 1 0 = 1 / 4 ∧
    (writeCrossSections xsObject "xs" emptyFile).data "xs" "dNdEtauall" 2 = 1 / 2 ∧
    (readCrossSections exampleExt (writeCrossSections xsObject "xs" emptyFile) "xs"
      tauObject).sigma_CC 1 2 1 = xsObject.sigma_CC 1 2 1 ∧
    (readCrossSections exampleExt (writeCrossSections xsObject "xs" emptyFile) "xs"
      tauObject).dNdE_CC 1 2 1 0 = xsObject.dNdE_CC 1 2 1 0 ∧
    (readCrossSections exampleExt (writeCrossSections xsObject "xs" emptyFile) "xs"
      tauObject).invlen_tau 1 = xsObject.invlen_tau 1 ∧
    (readCrossSections exampleExt (writeCrossSections xsObject "xs" emptyFile) "xs"
      tauObject).dNdE_tau_all 1 0 = 0 ∧
    (readCrossSections exampleExt (writeCrossSections xsObject "xs" emptyFile) "xs"
      tauObject).dNdE_tau_lep 1 0 = 0 ∧
    (0 : ℚ) ≠ 1 / 2 ∧ (0 : ℚ) ≠ 1 / 4 :=
  ⟨rfl, rfl, rfl, rfl, rfl, rfl,
    (readCrossSections_tau_kernels exampleExt _ "xs" tauObject 1 0 (by decide) (by decide)).1,
    (readCrossSections_tau_kernels exampleExt _ "xs" tauObject 1 0 (by decide) (by decide)).2,
    by norm_num, by norm_num⟩

/-! ## The rank-2 initial-state setter -/

theorem fillState_frame (basis : Basis) (n : Nat) (v : Nat → Nat → Nat → ℚ) (s : NuSQUIDS) :
    ∃ R, fillState basis n v s = rhoUpd R s := by
  unfold fillState
  apply forEach_closed _ (fun t => ∃ R, t = rhoUpd R s) _ _ _ ⟨s.rho, rfl⟩
  rintro i a _ _ ⟨R, rfl⟩
  apply forEach_closed _ (fun t => ∃ R, t = rhoUpd R s) _ _ _ ⟨R, rfl⟩
  rintro r b _ _ ⟨R1, rfl⟩
  split_ifs
  · apply forEach_closed _ (fun t => ∃ R, t = rhoUpd R s) _ _ _ ⟨_, rfl⟩
    rintro j c _ _ ⟨R2, rfl⟩
    exact ⟨_, rfl⟩
  · apply forEach_closed _ (fun t => ∃ R, t = rhoUpd R s) _ _ _ ⟨_, rfl⟩
    rintro j c _ _ ⟨R2, rfl⟩
    exact ⟨_, rfl⟩
  · exact ⟨R1, rfl⟩

theorem finishInitialState_scalars (a : NuSQUIDS) :
    (finishInitialState a).istate = true ∧
      ∀ e r, e < a.ne → r < a.nscalars → (finishInitialState a).scalar e r = 0 := by
  unfold finishInitialState
  refine ⟨rfl, ?_⟩
  intro e r he hr
  have hn : a.nscalars ≠ 0 := by omega
  simp only [hn, ne_eq, not_false_eq_true, if_true]
  rw [SetScalarsToZero_eq]
  simp [scalarUpd, he, hr]

/-- C11: the rank-2 overload `Set_initial_state(v, basis)` raises if and only if `v` is empty, or
`v.extent(0) != ne`, or `v.extent(1) != numneu`, or the basis is neither `flavor` nor `mass`, or
the particle type is `both`, or the track or the body has not been set, or the energy has not
been set; and when it does not raise, the object ends with the state flag set and with the
scalar of every node below `ne` and every index below `nscalars` equal to zero. -/
theorem Set_initial_state2_raises_iff (ext : External) (v : marray2) (basis : Basis)
    (s : NuSQUIDS) :
    ((Set_initial_state2 ext v basis s).isRaised = true ↔
      (v.size = 0 ∨ v.extent0 ≠ s.ne ∨ v.extent1 ≠ s.numneu ∨
        ¬ (basis = .flavor ∨ basis = .mass) ∨ s.NT = .both ∨
        s.itrack = false ∨ s.ibody = false ∨ s.ienergy = false)) ∧
    ((Set_initial_state2 ext v basis s).isRaised = false →
      (Set_initial_state2 ext v basis s).obj.istate = true ∧
      ∀ e r, e < s.ne → r < s.nscalars →
        (Set_initial_state2 ext v basis s).obj.scalar e r = 0) := by
  obtain ⟨t, ht, hne, _, _, hns, _⟩ := resetForInitialState_spec ext s
  have hok : (resetForInitialState ext s).andThen (fun s1 =>
      .ok (finishInitialState (fillState basis s1.numneu (fun i _ j => v.data i j) s1))) =
      .ok (finishInitialState (fillState basis t.numneu (fun i _ j => v.data i j) t)) := by
    rw [andThen_ok _ _ t ht]
  unfold Set_initial_state2
  rw [hok]
  by_cases h1 : v.size = 0
  · rw [if_pos h1]
    exact ⟨⟨fun _ => Or.inl h1, fun _ => rfl⟩, fun h => Bool.noConfusion h⟩
  rw [if_neg h1]
  by_cases h2 : v.extent0 ≠ s.ne
  · rw [if_pos h2]
    exact ⟨⟨fun _ => Or.inr (Or.inl h2), fun _ => rfl⟩, fun h => Bool.noConfusion h⟩
  rw [if_neg h2]
  by_cases h3 : v.extent1 ≠ s.numneu
  · rw [if_pos h3]
    exact ⟨⟨fun _ => Or.inr (Or.inr (Or.inl h3)), fun _ => rfl⟩, fun h => Bool.noConfusion h⟩
  rw [if_neg h3]
  by_cases h4 : ¬ (basis = .flavor ∨ basis = .mass)
  · rw [if_pos h4]
    exact ⟨⟨fun _ => Or.inr (Or.inr (Or.inr (Or.inl h4))), fun _ => rfl⟩,
      fun h => Bool.noConfusion h⟩
  rw [if_neg h4]
  by_cases h5 : s.NT = .both
  · rw [if_pos h5]
    exact ⟨⟨fun _ => Or.inr (Or.inr (Or.inr (Or.inr (Or.inl h5)))), fun _ => rfl⟩,
      fun h => Bool.noConfusion h⟩
  rw [if_neg h5]
  by_cases h6 : (!s.itrack || !s.ibody) = true
  · rw [if_pos h6]
    refine ⟨⟨fun _ => ?_, fun _ => rfl⟩, fun h => Bool.noConfusion h⟩
    simp only [Bool.or_eq_true, Bool.not_eq_true'] at h6
    rcases h6 with h6 | h6
    · exact Or.inr (Or.inr (Or.inr (Or.inr (Or.inr (Or.inl h6)))))
    · exact Or.inr (Or.inr (Or.inr (Or.inr (Or.inr (Or.inr (Or.inl h6))))))
  rw [if_neg h6]
  by_cases h7 : (!s.ienergy) = true
  · rw [if_pos h7]
    refine ⟨⟨fun _ => ?_, fun _ => rfl⟩, fun h => Bool.noConfusion h⟩
    simp only [Bool.not_eq_true'] at h7
    exact Or.inr (Or.inr (Or.inr (Or.inr (Or.inr (Or.inr (Or.inr h7))))))
  rw [if_neg h7]
  simp only [Bool.or_eq_true, Bool.not_eq_true', not_or, Bool.not_eq_false] at h6 h7
  refine ⟨⟨fun h => Bool.noConfusion h, fun h => ?_⟩, fun _ => ?_⟩
  · rcases h with h | h | h | h | h | h | h | h
    · exact absurd h h1
    · exact absurd h h2
    · exact absurd h h3
    · exact absurd h h4
    · exact absurd h h5
    · rw [h6.1] at h; exact Bool.noConfusion h
    · rw [h6.2] at h; exact Bool.noConfusion h
    · rw [h7] at h; exact Bool.noConfusion h
  · obtain ⟨R, eR⟩ := fillState_frame basis t.numneu (fun i _ j => v.data i j) t
    have hf := finishInitialState_scalars (rhoUpd R t)
    simp only [Outcome.obj, eR]
    refine ⟨hf.1, fun e r he hr => hf.2 e r ?_ ?_⟩
    · show e < t.ne
      omega
    · show r < t.nscalars
      omega

/-- Witness for C11: the 150 x 3 array of the example is accepted by the 150-node, three-flavor
neutrino object, which ends with the state flag set and its scalars zero. -/
theorem Set_initial_state2_raises_iff_witness :
    (Set_initial_state2 exampleExt inistate .flavor atmObject).isRaised = false ∧
    (Set_initial_state2 exampleExt inistate .flavor atmObject).obj.istate = true ∧
    ∀ e r, e < 150 → r < 1 →
      (Set_initial_state2 exampleExt inistate .flavor atmObject).obj.scalar e r = 0 :=
  have h : (Set_initial_state2 exampleExt inistate .flavor atmObject).isRaised = false := by
    cases hb : (Set_initial_state2 exampleExt inistate .flavor atmObject).isRaised
    · rfl
    · exact absurd
        ((Set_initial_state2_raises_iff exampleExt inistate .flavor atmObject).1.1 hb)
        (by decide)
  ⟨h, (Set_initial_state2_raises_iff exampleExt inistate .flavor atmObject).2 h⟩
/-! ## Evaluators: when they raise -/

/-- C13: the interpolated members `EvalFlavor(flv, E, rho)` and `EvalMass(flv, E, rho)` raise if
and only if the energy is not set, or `rho != 0` while the particle type is not `both`, or the
working basis is `mass` (the interpolation of the base library is taken to return for every
energy); the at-node members raise if and only if one of the first two conditions holds,
whatever the basis, and in the mass basis they return the scalar product of the stored flavor
(mass) projector with the stored density matrix. -/
theorem interpolated_evaluation_raises_iff
    (D : NuSQUIDS → SU_vector → Nat → ℚ → ℚ) (ops : SUOps) (s : NuSQUIDS) (flv rho : Nat) :
    (∀ EE, (∃ msg, EvalFlavorE D s flv EE rho = .error msg) ↔
      (s.ienergy = false ∨ (rho ≠ 0 ∧ s.NT ≠ .both) ∨ s.basis = .mass)) ∧
    (∀ EE, (∃ msg, EvalMassE D s flv EE rho = .error msg) ↔
      (s.ienergy = false ∨ (rho ≠ 0 ∧ s.NT ≠ .both) ∨ s.basis = .mass)) ∧
    (∀ ei, (∃ msg, EvalFlavorAtNode ops s flv ei rho = .error msg) ↔
      (s.ienergy = false ∨ (rho ≠ 0 ∧ s.NT ≠ .both))) ∧
    (∀ ei, (∃ msg, EvalMassAtNode ops s flv ei rho = .error msg) ↔
      (s.ienergy = false ∨ (rho ≠ 0 ∧ s.NT ≠ .both))) ∧
    (s.basis = .mass → s.ienergy = true → (rho = 0 ∨ s.NT = .both) →
      ∀ ei, EvalFlavorAtNode ops s flv ei rho = .ok (ops.inner (s.b1_proj rho flv) (s.rho ei rho)) ∧
        EvalMassAtNode ops s flv ei rho = .ok (ops.inner (s.b0_proj flv) (s.rho ei rho))) := by
  refine ⟨fun EE => ?_, fun EE => ?_, fun ei => ?_, fun ei => ?_, fun hb he hr ei => ?_⟩
  · unfold EvalFlavorE
    cases he : s.ienergy <;> by_cases hr : rho ≠ 0 ∧ s.NT ≠ .both <;>
      by_cases hb : s.basis = .mass <;> simp [he, hr, hb]
  · unfold EvalMassE
    cases he : s.ienergy <;> by_cases hr : rho ≠ 0 ∧ s.NT ≠ .both <;>
      by_cases hb : s.basis = .mass <;> simp [he, hr, hb]
  · unfold EvalFlavorAtNode
    cases he : s.ienergy <;> by_cases hr : rho ≠ 0 ∧ s.NT ≠ .both <;>
      by_cases hb : s.basis = .mass <;> simp [he, hr, hb]
  · unfold EvalMassAtNode
    cases he : s.ienergy <;> by_cases hr : rho ≠ 0 ∧ s.NT ≠ .both <;>
      by_cases hb : s.basis = .mass <;> simp [he, hr, hb]
  · have hr2 : ¬ (rho ≠ 0 ∧ s.NT ≠ .both) := by
      rintro ⟨h1, h2⟩
      rcases hr with h | h
      · exact h1 h
      · exact h2 h
    unfold EvalFlavorAtNode EvalMassAtNode
    simp [he, hr2, hb]

/-- Witness for C13: on the sample object with the working basis set to `mass`, the at-node
members return the scalar products at node 0, channel 0. -/
theorem interpolated_evaluation_raises_iff_witness :
    EvalFlavorAtNode exampleExt.toSUOps { negativeObject with basis := .mass } 1 0 0 =
        .ok (exampleExt.inner (negativeObject.b1_proj 0 1) (negativeObject.rho 0 0)) ∧
      EvalMassAtNode exampleExt.toSUOps { negativeObject with basis := .mass } 1 0 0 =
        .ok (exampleExt.inner (negativeObject.b0_proj 1) (negativeObject.rho 0 0)) :=
  (interpolated_evaluation_raises_iff (fun _ _ _ _ => 0) exampleExt.toSUOps
    { negativeObject with basis := .mass } 1 0).2.2.2.2 rfl rfl (Or.inl rfl) 0

/-- C14: in mode `both`, which allocates the channels 0 and 1, the four evaluators accept the
channel index 2: on the two-channel sample object each of them returns a number read from
channel 2 instead of raising. -/
theorem evaluators_accept_unallocated_channel :
    tauObject.NT = .both ∧ tauObject.nrhos = 2 ∧
    EvalFlavorAtNode exampleExt.toSUOps tauObject 0 0 2 =
      .ok (exampleExt.inner (tauObject.rho 0 2) (tauObject.b1_proj 2 0)) ∧
    EvalMassAtNode exampleExt.toSUOps tauObject 0 0 2 =
      .ok (exampleExt.inner (tauObject.rho 0 2) (tauObject.b0_proj 0)) ∧
    EvalFlavorE (fun s op rho _ => exampleExt.inner (s.rho 0 rho) op) tauObject 0 1 2 =
      .ok (exampleExt.inner (tauObject.rho 0 2) (tauObject.b1_proj 2 0)) ∧
    EvalMassE (fun s op rho _ => exampleExt.inner (s.rho 0 rho) op) tauObject 0 1 2 =
      .ok (exampleExt.inner (tauObject.rho 0 2) (tauObject.b0_proj 0)) :=
  ⟨rfl, rfl, rfl, rfl, rfl, rfl⟩

/-! ## Parameter setters: the index guard -/

/-- C15: the index `numneu`, one past the last flavor, passes the guard of every parameter
member: `Set_MixingAngle(0, numneu, val)`, `Set_CPPhase(0, numneu, val)` and
`Set_SquareMassDifference(numneu, val)` store the value and clear the state flag, and the three
getters return the stored entry; and the guards reject exactly the indices above `numneu`. -/
theorem parameter_index_numneu_accepted (s : NuSQUIDS) (val : ℚ) :
    Set_MixingAngle 0 s.numneu val s =
      .ok { s with params := s.params.SetMixingAngle 0 s.numneu val, istate := false } ∧
    Set_CPPhase 0 s.numneu val s =
      .ok { s with params := s.params.SetPhase 0 s.numneu val, istate := false } ∧
    Set_SquareMassDifference s.numneu val s =
      .ok { s with params := s.params.SetEnergyDifference s.numneu val, istate := false } ∧
    Get_MixingAngle 0 s.numneu s = .ok (s.params.GetMixingAngle 0 s.numneu) ∧
    Get_CPPhase 0 s.numneu s = .ok (s.params.GetPhase 0 s.numneu) ∧
    Get_SquareMassDifference s.numneu s = .ok (s.params.GetEnergyDifference s.numneu) ∧
    (∀ i j, (Set_MixingAngle i j val s).isRaised = true ↔ (i > s.numneu ∨ j > s.numneu)) ∧
    (∀ i j, (Set_CPPhase i j val s).isRaised = true ↔ (i > s.numneu ∨ j > s.numneu)) ∧
    (∀ i, (Set_SquareMassDifference i val s).isRaised = true ↔ i > s.numneu) ∧
    (∀ i j, (Set_MixingAngle i j val s).isRaised = true → (Set_MixingAngle i j val s).obj = s) ∧
    (∀ i j, (Set_CPPhase i j val s).isRaised = true → (Set_CPPhase i j val s).obj = s) ∧
    (∀ i, (Set_SquareMassDifference i val s).isRaised = true →
      (Set_SquareMassDifference i val s).obj = s) := by
  refine ⟨?_, ?_, ?_, ?_, ?_, ?_, ?_, ?_, ?_, ?_, ?_, ?_⟩
  · simp [Set_MixingAngle]
  · simp [Set_CPPhase]
  · simp [Set_SquareMassDifference]
  · simp [Get_MixingAngle]
  · simp [Get_CPPhase]
  · simp [Get_SquareMassDifference]
  · intro i j
    unfold Set_MixingAngle
    split_ifs with h <;> simp [Outcome.isRaised, h]
  · intro i j
    unfold Set_CPPhase
    split_ifs with h <;> simp [Outcome.isRaised, h]
  · intro i
    unfold Set_SquareMassDifference
    split_ifs with h <;> simp [Outcome.isRaised, h]
  · intro i j
    unfold Set_MixingAngle
    split_ifs with h <;> simp [Outcome.isRaised, Outcome.obj]
  · intro i j
    unfold Set_CPPhase
    split_ifs with h <;> simp [Outcome.isRaised, Outcome.obj]
  · intro i
    unfold Set_SquareMassDifference
    split_ifs with h <;> simp [Outcome.isRaised, Outcome.obj]

/-! ## The matter potential -/

/-- C18: for every node `ie`, `HI(ie, irho)` returns the operator `W` of the specification
(built from `K = sqrt2 * G_F * N_A / cm^3`, `CC`, `NC` and the evolved flavor projectors of the
channel, plus `H0_array[ie]` in the mass basis) for the neutrino channel, i.e. in mode
`neutrino` or for channel 0 of mode `both`, and `(-1) * W` for the antineutrino channel, i.e. in
mode `antineutrino` or for channel 1 of mode `both`. -/
theorem HI_matter_potential (med : Medium) (s : NuSQUIDS) (ie irho : Nat) :
    ((s.NT = .neutrino ∧ irho = 0) ∨ (s.NT = .both ∧ irho = 0) →
      HI med s ie irho = .ok (matterPotential med s ie irho)) ∧
    ((s.NT = .antineutrino ∧ irho = 0) ∨ (s.NT = .both ∧ irho = 1) →
      HI med s ie irho = .ok ((-1 : ℚ) • matterPotential med s ie irho)) := by
  have hW : (let ye := med.ye (bodyOf s) (trackOf s)
      let density := med.density (bodyOf s) (trackOf s)
      let CC := s.params.sqrt2 * s.params.GF * s.params.Na * s.params.cm ^ (-3 : ℤ) * density * ye
      let NC :=
        if ye < 1 / 10 ^ 10 then
          s.params.sqrt2 * s.params.GF * s.params.Na * s.params.cm ^ (-3 : ℤ) * density
        else CC * (((-(1 / 2)) * (1 - ye)) / ye)
      let p0 : SU_vector := (CC + NC) • s.evol_b1_proj irho 0 ie
      let p1 : SU_vector := p0 + NC • s.evol_b1_proj irho 1 ie
      let p2 : SU_vector := p1 + NC • s.evol_b1_proj irho 2 ie
      (if s.basis = .mass then p2 + s.H0_array ie else p2)) = matterPotential med s ie irho := by
    unfold matterPotential
    have hc : s.params.cm ^ (-3 : ℤ) = (s.params.cm ^ 3)⁻¹ := by
      rw [zpow_neg]; norm_cast
    simp only [hc, div_eq_mul_inv]
  unfold HI
  simp only at hW ⊢
  rw [hW]
  constructor
  · rintro (⟨h1, h2⟩ | ⟨h1, h2⟩)
    · simp [h1]
    · simp [h1, h2]
  · rintro (⟨h1, h2⟩ | ⟨h1, h2⟩)
    · simp [h1]
    · simp [h1, h2]

/-- Witness for C18: on the sample object, which tracks neutrinos, in the sample medium,
`HI(0, 0)` is the operator `W`; on the two-channel sample object `HI(0, 1)` is `(-1) * W`. -/
theorem HI_matter_potential_witness :
    HI exampleMedium exampleObject 0 0 = .ok (matterPotential exampleMedium exampleObject 0 0) ∧
    HI exampleMedium tauObject 0 1 =
      .ok ((-1 : ℚ) • matterPotential exampleMedium tauObject 0 1) :=
  ⟨(HI_matter_potential exampleMedium exampleObject 0 0).1 (Or.inl ⟨rfl, rfl⟩),
   (HI_matter_potential exampleMedium tauObject 0 1).2 (Or.inr ⟨rfl, rfl⟩)⟩

/-! ## What the construction routines keep -/

theorem Kept_refl (s : NuSQUIDS) : Kept s s :=
  ⟨rfl, rfl, rfl, rfl, rfl, rfl, rfl, rfl, rfl, rfl, rfl, fun h => h⟩

theorem Kept_trans (s t u : NuSQUIDS) (h1 : Kept s t) (h2 : Kept t u) : Kept s u := by
  obtain ⟨a1, a2, a3, a4, a5, a6, a7, a8, a9, a10, a11, a13⟩ := h1
  obtain ⟨b1, b2, b3, b4, b5, b6, b7, b8, b9, b10, b11, b13⟩ := h2
  exact ⟨b1.trans a1, b2.trans a2, b3.trans a3, b4.trans a4, b5.trans a5, b6.trans a6,
    b7.trans a7, b8.trans a8, b9.trans a9, b10.trans a10, b11.trans a11,
    fun h => b13 (a13 h)⟩

theorem Kept_flag (s t : NuSQUIDS) (h : Kept s t) (i : Bool) (p : Const) :
    Kept s { t with params := p, istate := i && t.istate } := by
  obtain ⟨a1, a2, a3, a4, a5, a6, a7, a8, a9, a10, a11, a13⟩ := h
  exact ⟨a1, a2, a3, a4, a5, a6, a7, a8, a9, a10, a11, fun h => by simp [a13 h]⟩

theorem Set_MixingAngle_kept (i j : Nat) (val : ℚ) (t : NuSQUIDS) (hi : i ≤ t.numneu)
    (hj : j ≤ t.numneu) :
    ∃ t', Set_MixingAngle i j val t = .ok t' ∧ Kept t t' ∧ t'.istate = false := by
  refine ⟨{ t with params := t.params.SetMixingAngle i j val, istate := false }, ?_, ?_, rfl⟩
  · have h : ¬ (i > t.numneu ∨ j > t.numneu) := by omega
    simp [Set_MixingAngle, h]
  · exact ⟨rfl, rfl, rfl, rfl, rfl, rfl, rfl, rfl, rfl, rfl, rfl, fun _ => rfl⟩

theorem Set_CPPhase_kept (i j : Nat) (val : ℚ) (t : NuSQUIDS) (hi : i ≤ t.numneu)
    (hj : j ≤ t.numneu) :
    ∃ t', Set_CPPhase i j val t = .ok t' ∧ Kept t t' ∧ t'.istate = false := by
  refine ⟨{ t with params := t.params.SetPhase i j val, istate := false }, ?_, ?_, rfl⟩
  · have h : ¬ (i > t.numneu ∨ j > t.numneu) := by omega
    simp [Set_CPPhase, h]
  · exact ⟨rfl, rfl, rfl, rfl, rfl, rfl, rfl, rfl, rfl, rfl, rfl, fun _ => rfl⟩

theorem Set_SquareMassDifference_kept (i : Nat) (val : ℚ) (t : NuSQUIDS) (hi : i ≤ t.numneu) :
    ∃ t', Set_SquareMassDifference i val t = .ok t' ∧ Kept t t' ∧ t'.istate = false := by
  refine ⟨{ t with params := t.params.SetEnergyDifference i val, istate := false }, ?_, ?_, rfl⟩
  · have h : ¬ (i > t.numneu) := by omega
    simp [Set_SquareMassDifference, h]
  · exact ⟨rfl, rfl, rfl, rfl, rfl, rfl, rfl, rfl, rfl, rfl, rfl, fun _ => rfl⟩

theorem Set_MixingParametersToDefault_kept (s : NuSQUIDS) (h : 2 ≤ s.numneu) :
    ∃ t, Set_MixingParametersToDefault s = .ok t ∧ Kept s t ∧ t.istate = false := by
  obtain ⟨t1, e1, k1, _⟩ := Set_MixingAngle_kept 0 1 (583996 / 1000000) s (by omega) (by omega)
  obtain ⟨t2, e2, k2, _⟩ := Set_MixingAngle_kept 0 2 (148190 / 1000000) t1 (by omega)
    (by rw [k1.1]; omega)
  have k12 := Kept_trans _ _ _ k1 k2
  obtain ⟨t3, e3, k3, _⟩ := Set_MixingAngle_kept 1 2 (737324 / 1000000) t2 (by rw [k12.1]; omega)
    (by rw [k12.1]; omega)
  have k13 := Kept_trans _ _ _ k12 k3
  obtain ⟨t4, e4, k4, _⟩ := Set_SquareMassDifference_kept 1 (75 / 1000000) t3
    (by rw [k13.1]; omega)
  have k14 := Kept_trans _ _ _ k13 k4
  obtain ⟨t5, e5, k5, _⟩ := Set_SquareMassDifference_kept 2 (257 / 100000) t4
    (by rw [k14.1]; omega)
  have k15 := Kept_trans _ _ _ k14 k5
  obtain ⟨t6, e6, k6, f6⟩ := Set_CPPhase_kept 0 2 0 t5 (by omega) (by rw [k15.1]; omega)
  refine ⟨t6, ?_, Kept_trans _ _ _ k15 k6, f6⟩
  unfold Set_MixingParametersToDefault
  rw [e1, andThen_ok _ _ t1 rfl, e2, andThen_ok _ _ t2 rfl, e3, andThen_ok _ _ t3 rfl, e4,
    andThen_ok _ _ t4 rfl, e5, andThen_ok _ _ t5 rfl, e6]

theorem cpFlip_kept (s t : NuSQUIDS) (ht : Kept s t) :
    ∃ t', forLoop 0 t.numneu (fun i a =>
        forLoop (i + 1) a.numneu (fun j b =>
          match Get_CPPhase i j b with
          | .ok d => Set_CPPhase i j (-d) b
          | .error msg => .raised msg b) a) t = .ok t' ∧ Kept s t' := by
  have hn : t.numneu = s.numneu := ht.1
  rw [hn]
  apply forLoop_closed _ (Kept s) _ _ _ ht
  intro i a _ hi ha
  have hna : a.numneu = s.numneu := ha.1
  rw [hna]
  apply forLoop_closed _ (Kept s) _ _ _ ha
  intro j c _ hj hc
  have hnc : c.numneu = s.numneu := hc.1
  obtain ⟨c', e, k, _⟩ := Set_CPPhase_kept i j (-(c.params.GetPhase i j)) c (by omega) (by omega)
  refine ⟨c', ?_, Kept_trans _ _ _ hc k⟩
  have h : ¬ (i > c.numneu ∨ j > c.numneu) := by omega
  simp only [Get_CPPhase, h, if_false]
  exact e

theorem AntineutrinoCPFix_kept (s t : NuSQUIDS) (rho : Nat) (ht : Kept s t) :
    ∃ t', AntineutrinoCPFix rho t = .ok t' ∧ Kept s t' := by
  unfold AntineutrinoCPFix
  split
  · exact cpFlip_kept s t ht
  · exact ⟨_, rfl, ht⟩

theorem rotateWithCPFix_kept (ops : SUOps) (s t : NuSQUIDS) (rho : Nat)
    (get : NuSQUIDS → SU_vector) (put : SU_vector → NuSQUIDS → NuSQUIDS)
    (hput : ∀ x a, Kept s a → Kept s (put x a)) (ht : Kept s t) :
    ∃ t', rotateWithCPFix ops rho get put t = .ok t' ∧ Kept s t' := by
  obtain ⟨t1, h1, hf1⟩ := AntineutrinoCPFix_kept s t rho ht
  obtain ⟨t2, h2, hf2⟩ := AntineutrinoCPFix_kept s
    (put (ops.RotateToB1 t1.params (get t1)) t1) rho (hput _ _ hf1)
  exact ⟨t2, by simp [rotateWithCPFix, Outcome.andThen, h1, h2], hf2⟩

theorem iniProjectors_kept (ops : SUOps) (s : NuSQUIDS) :
    ∃ t, iniProjectors ops s = .ok t ∧ Kept s t := by
  unfold iniProjectors
  have h0 : Kept s (forEach 0 s.numneu (fun flv (a : NuSQUIDS) =>
      { a with b0_proj := fun k => if k = flv then ops.Projector a.nsun flv else a.b0_proj k })
      s) := by
    apply forEach_closed _ (Kept s) _ _ _ (Kept_refl s)
    intro flv a _ _ ha
    exact ha
  obtain ⟨t1, e1, k1⟩ := forLoop_closed
    (fun rho a =>
      forLoop 0 a.numneu (fun flv b =>
        rotateWithCPFix ops rho (fun c => c.b1_proj rho flv) (setB1 rho flv)
          (setB1 rho flv (ops.Projector b.nsun flv) b)) a)
    (Kept s) 0 _ _ h0
    (fun rho a _ _ ha => forLoop_closed _ (Kept s) _ _ _ ha
      (fun flv b _ _ hb => rotateWithCPFix_kept ops s _ rho _ _
        (fun x c hc => hc) hb))
  simp only at e1 ⊢
  rw [e1, andThen_ok _ _ t1 rfl]
  apply forLoop_closed _ (Kept s) _ _ _ k1
  intro rho a _ _ ha
  apply forLoop_closed _ (Kept s) _ _ _ ha
  intro flv b _ _ hb
  apply forLoop_closed _ (Kept s) _ _ _ hb
  intro e c _ _ hc
  exact rotateWithCPFix_kept ops s _ rho _ _ (fun x d hd => hd) hc

theorem iniH0_kept (s : NuSQUIDS) : Kept s (iniH0 s) := by
  obtain ⟨d, h, e⟩ := iniH0_frame s
  rw [e]
  exact Kept_refl s

theorem SetScalarsToZero_kept (s : NuSQUIDS) : Kept s (SetScalarsToZero s) := by
  rw [SetScalarsToZero_eq]
  exact Kept_refl s

theorem InitializeInteractions_kept (ext : External) (s : NuSQUIDS) :
    Kept s (InitializeInteractions ext s) := by
  have hload : ∀ w : InteractionsWork, Kept s w.self → Kept s (loadCrossSections ext w).self := by
    intro w hw
    unfold loadCrossSections
    apply forEach_closed _ (fun (w : InteractionsWork) => Kept s w.self) _ _ _ hw
    intro n w1 _ _ h1
    apply forEach_closed _ (fun (w : InteractionsWork) => Kept s w.self) _ _ _ h1
    intro f w2 _ _ h2
    apply forEach_closed _ (fun (w : InteractionsWork) => Kept s w.self) _ _ _ h2
    intro e1 w3 _ _ h3
    have h4 : Kept s (forEach 0 e1 (fun e2 (w5 : InteractionsWork) =>
          { w5 with
            dsignudE_NC := set4 w5.dsignudE_NC n f e1 e2
              (ext.DifferentialCrossSection (w5.self.E_range.data e1) (w5.self.E_range.data e2) f
                (neutype_xs_dict w5.self.NT n) false *
                  (w.self.params.cm ^ 2 * (w.self.params.GeV)⁻¹)),
            dsignudE_CC := set4 w5.dsignudE_CC n f e1 e2
              (ext.DifferentialCrossSection (w5.self.E_range.data e1) (w5.self.E_range.data e2) f
                (neutype_xs_dict w5.self.NT n) true *
                  (w.self.params.cm ^ 2 * (w.self.params.GeV)⁻¹)) }) w3).self := by
      apply forEach_closed _ (fun (w : InteractionsWork) => Kept s w.self) _ _ _ h3
      intro e2 w5 _ _ h5
      exact h5
    exact h4
  have hfix : ∀ w : InteractionsWork, Kept s w.self → Kept s (fixCrossSections w).self := by
    intro w hw
    unfold fixCrossSections
    apply forEach_closed _ (fun (w : InteractionsWork) => Kept s w.self) _ _ _ hw
    intro n w1 _ _ h1
    apply forEach_closed _ (fun (w : InteractionsWork) => Kept s w.self) _ _ _ h1
    intro f w2 _ _ h2
    apply forEach_closed _ (fun (w : InteractionsWork) => Kept s w.self) _ _ _ h2
    intro e1 w3 _ _ h3
    simp only
    split
    · apply forEach_closed _ (fun (w : InteractionsWork) => Kept s w.self) _ _ _ h3
      intro e2 w4 _ _ h4
      exact h4
    · exact h3
  have hcon : ∀ w : InteractionsWork, Kept s w.self → Kept s (constructdNdE w) := by
    intro w hw
    unfold constructdNdE
    apply forEach_closed _ (Kept s) _ _ _ hw
    intro n a _ _ h1
    apply forEach_closed _ (Kept s) _ _ _ h1
    intro f b _ _ h2
    apply forEach_closed _ (Kept s) _ _ _ h2
    intro e1 c _ _ h3
    apply forEach_closed _ (Kept s) _ _ _ h3
    intro e2 d _ _ h4
    simp only
    split <;> split <;> exact h4
  have htau : ∀ a : NuSQUIDS, Kept s a → Kept s (loadTauDecay ext a) := by
    intro a ha
    unfold loadTauDecay
    apply forEach_closed _ (Kept s) _ _ _
    · apply forEach_closed _ (Kept s) _ _ _ ha
      intro e1 b _ _ hb
      exact hb
    · intro e1 b _ _ hb
      apply forEach_closed _ (Kept s) _ _ _ hb
      intro e2 c _ _ hc
      exact hc
  have hftau : ∀ a : NuSQUIDS, Kept s a → Kept s (fixTauDecay a) := by
    intro a ha
    unfold fixTauDecay
    apply forEach_closed _ (Kept s) _ _ _ ha
    intro e1 b _ _ hb
    simp only
    split
    · apply forEach_closed _ (Kept s) _ _ _ hb
      intro e2 c _ _ hc
      exact hc
    · exact hb
  unfold InitializeInteractions
  have hw1 := hload (InteractionsWork.mk s (fun _ _ _ _ => ext.uninit 0 0)
    (fun _ _ _ _ => ext.uninit 1 0)) (Kept_refl s)
  cases hF : ext.FixCrossSections
  · simp only [Bool.false_eq_true, if_false]
    exact htau _ (hcon _ hw1)
  · simp only [if_true]
    exact hftau _ (htau _ (hcon _ (hfix _ hw1)))
/-! ## The two `init` members -/

theorem delE_loop (a : NuSQUIDS) (n : Nat) :
    forEach 0 n (fun ei (a : NuSQUIDS) =>
      { a with delE := { extent0 := a.delE.extent0,
                         data := set1 a.delE.data ei
                           (a.E_range.data (ei + 1) - a.E_range.data ei) } }) a =
    { a with delE := { extent0 := a.delE.extent0,
                       data := fun i => if i < n then a.E_range.data (i + 1) - a.E_range.data i
                         else a.delE.data i } } := by
  apply forEach_inv _ (fun k (t : NuSQUIDS) => t =
    { a with delE := { extent0 := a.delE.extent0,
                       data := fun i => if i < k then a.E_range.data (i + 1) - a.E_range.data i
                         else a.delE.data i } }) 0 n a (Nat.zero_le _)
  · simp
  · intro k t _ _ ht
    subst ht
    simp only [set1]
    congr 2
    funext i
    by_cases h : i = k
    · subst h; simp [set1]
    · have : i < k + 1 ↔ i < k := by omega
      simp [set1, h, this]

/-- The energy grid that the multi-energy `init` stores. -/
theorem initEnergyArrays_spec (ext : External) (Emin Emax : ℚ) (Esize : Nat) (xini : ℚ)
    (s3 : NuSQUIDS) :
    (initEnergyArrays ext Emin Emax Esize xini s3).numneu = s3.numneu ∧
    (initEnergyArrays ext Emin Emax Esize xini s3).ne = s3.ne ∧
    (initEnergyArrays ext Emin Emax Esize xini s3).istate = s3.istate ∧
    (initEnergyArrays ext Emin Emax Esize xini s3).delE.extent0 = s3.ne - 1 ∧
    (∀ i, i < s3.ne - 1 →
      (initEnergyArrays ext Emin Emax Esize xini s3).delE.data i =
        (initEnergyArrays ext Emin Emax Esize xini s3).E_range.data (i + 1) -
        (initEnergyArrays ext Emin Emax Esize xini s3).E_range.data i) := by
  unfold initEnergyArrays
  simp only [delE_loop, SetScalarsToZero_eq, scalarUpd, ini]
  refine ⟨?_, ?_, ?_, ?_, ?_⟩
  · split <;> split <;> rfl
  · split <;> split <;> rfl
  · split <;> split <;> rfl
  · split <;> split <;> rfl
  · intro i hi
    split <;> split <;> simp_all

theorem initTail_kept (ext : External) (ii : Bool) (a : NuSQUIDS) :
    Kept a (initTail ext ii a) := by
  unfold initTail
  lift_lets
  intro s11 s12 s13 s14 s15
  have h11 : Kept a s11 := by
    apply forEach_closed _ (Kept a) _ _ _ (Kept_refl a)
    intro ie b _ _ hb
    exact hb
  have h12 : Kept a s12 := Kept_trans _ _ _ h11 (iniH0_kept _)
  have h13 : Kept a s13 := h12
  have h14 : Kept a s14 := by
    show Kept a (if s13.iinteraction = true ∧ ii = true then
        InitializeInteractions ext (InitializeInteractionVectors s13) else s13)
    split
    · exact Kept_trans _ _ _ h13 (InitializeInteractions_kept ext s13)
    · exact h13
  have h15 : Kept a s15 := by
    show Kept a (if s14.iinteraction = true then
        { s14 with NonCoherentRhoTerms := true, OtherRhoTerms := true,
                   GammaScalarTerms := true, OtherScalarTerms := true }
      else s14)
    split
    · exact h14
    · exact h14
  exact h15

/-- The multi-energy `init` returns when its four guards pass and there are at least two
flavors. -/
theorem init_returns (ext : External) (Emin Emax : ℚ) (Esize : Nat) (ii : Bool) (xini : ℚ)
    (s : NuSQUIDS) (hNT : s.NT = .neutrino ∨ s.NT = .antineutrino ∨ s.NT = .both)
    (hmax : ¬ s.numneu > ext.SQUIDS_MAX_HILBERT_DIM) (hE : ¬ Emax < Emin) (hS : Esize ≠ 0)
    (h2 : 2 ≤ s.numneu) :
    ∃ t, init ext Emin Emax Esize ii xini s = .ok t ∧ t.istate = false ∧ t.ne = Esize ∧
      t.delE.extent0 = Esize - 1 ∧
      ∀ i, i < Esize - 1 → t.delE.data i = t.E_range.data (i + 1) - t.E_range.data i := by
  obtain ⟨a1, a2, a3, a4, a5⟩ := initEnergyArrays_spec ext Emin Emax Esize xini
    { s with nrhos := if s.NT = .both then 2 else 1, nsun := s.numneu, ne := Esize }
  obtain ⟨t5, e5, k5, f5⟩ := Set_MixingParametersToDefault_kept
    (initEnergyArrays ext Emin Emax Esize xini
      { s with nrhos := if s.NT = .both then 2 else 1, nsun := s.numneu, ne := Esize })
    (by rw [a1]; exact h2)
  obtain ⟨t6, e6, k6⟩ := iniProjectors_kept ext.toSUOps t5
  have k7 := Kept_trans _ _ _ k6 (initTail_kept ext ii t6)
  have k := Kept_trans _ _ _ k5 k7
  obtain ⟨_, c2, _, _, _, _, _, _, _, c10, c11, _⟩ := k
  refine ⟨initTail ext ii t6, ?_, k7.2.2.2.2.2.2.2.2.2.2.2 f5, c2.trans a2, ?_, ?_⟩
  · unfold init
    have hS2 : ¬ Esize ≤ 0 := by omega
    simp only [hNT, not_true_eq_false, if_false, hmax, hE, hS2]
    rw [e5, andThen_ok _ _ t5 rfl, e6, andThen_ok _ _ t6 rfl]
  · rw [c10]; exact a4
  · intro i hi
    rw [c10, c11]
    exact a5 i hi

/-- The multi-energy `init` raises in the default-parameter setter when there are fewer than
two flavors. -/
theorem init_small (ext : External) (Emin Emax : ℚ) (Esize : Nat) (ii : Bool) (xini : ℚ)
    (s : NuSQUIDS) (hNT : s.NT = .neutrino ∨ s.NT = .antineutrino ∨ s.NT = .both)
    (hmax : ¬ s.numneu > ext.SQUIDS_MAX_HILBERT_DIM) (hE : ¬ Emax < Emin) (hS : Esize ≠ 0)
    (h2 : s.numneu < 2) :
    ∃ msg t, init ext Emin Emax Esize ii xini s = .raised msg t ∧
      (s.istate = false → t.istate = false) := by
  obtain ⟨a1, a2, a3, a4, a5⟩ := initEnergyArrays_spec ext Emin Emax Esize xini
    { s with nrhos := if s.NT = .both then 2 else 1, nsun := s.numneu, ne := Esize }
  have hS2 : ¬ Esize ≤ 0 := by omega
  unfold init
  simp only [hNT, not_true_eq_false, if_false, hmax, hE, hS2]
  generalize initEnergyArrays ext Emin Emax Esize xini
    { s with nrhos := if s.NT = .both then 2 else 1, nsun := s.numneu, ne := Esize } = a at *
  have hn : a.numneu = 0 ∨ a.numneu = 1 := by
    have : a.numneu = s.numneu := a1
    omega
  rcases hn with hn | hn
  · refine ⟨"nuSQUIDS::Set_MixingAngle::Error: Mixing angle index greater than number of neutrino flavors.",
      a, ?_, fun h => ?_⟩
    · simp [Set_MixingParametersToDefault, Set_MixingAngle, Outcome.andThen, hn]
    · rw [a3]; exact h
  · refine ⟨"nuSQUIDS::Set_MixingAngle::Error: Mixing angle index greater than number of neutrino flavors.",
      projUpd (a.params.SetMixingAngle 0 1 (583996 / 1000000)) false a.b1_proj a.evol_b1_proj a,
      ?_, fun _ => rfl⟩
    simp [Set_MixingParametersToDefault, Set_MixingAngle, Outcome.andThen, hn, projUpd]

theorem init1_chain (ext : External) (a : NuSQUIDS) (h2 : 2 ≤ a.numneu) :
    ∃ t, (((Set_MixingParametersToDefault a).andThen (fun s5 =>
        if s5.NT = .antineutrino then
          forLoop 0 s5.numneu (fun i a =>
            forLoop (i + 1) a.numneu (fun j b =>
              match Get_CPPhase i j b with
              | .ok d => Set_CPPhase i j (-d) b
              | .error msg => .raised msg b) a) s5
        else .ok s5)).andThen (iniProjectors ext.toSUOps)).andThen (fun s6 =>
        let s7 := forEach 0 s6.ne (fun ie (a : NuSQUIDS) =>
          { a with H0_array := fun k => if k = ie then 0 else a.H0_array k }) s6
        let s8 := iniH0 s7
        .ok { s8 with inusquids := true }) = .ok t ∧ Kept a t ∧ t.istate = false := by
  obtain ⟨t5, e5, k5, f5⟩ := Set_MixingParametersToDefault_kept a h2
  have hflip : ∃ t, (if t5.NT = .antineutrino then
          forLoop 0 t5.numneu (fun i a =>
            forLoop (i + 1) a.numneu (fun j b =>
              match Get_CPPhase i j b with
              | .ok d => Set_CPPhase i j (-d) b
              | .error msg => .raised msg b) a) t5
        else .ok t5) = .ok t ∧ Kept t5 t := by
    split
    · exact cpFlip_kept t5 t5 (Kept_refl t5)
    · exact ⟨t5, rfl, Kept_refl t5⟩
  obtain ⟨t6, e6, k6⟩ := hflip
  obtain ⟨t7, e7, k7⟩ := iniProjectors_kept ext.toSUOps t6
  have h8 : Kept t7 (forEach 0 t7.ne (fun ie (a : NuSQUIDS) =>
      { a with H0_array := fun k => if k = ie then 0 else a.H0_array k }) t7) := by
    apply forEach_closed _ (Kept t7) _ _ _ (Kept_refl t7)
    intro ie b _ _ hb
    exact hb
  have h9 := Kept_trans _ _ _ h8 (iniH0_kept _)
  have k59 := Kept_trans _ _ _ k6 (Kept_trans _ _ _ k7 h9)
  refine ⟨{ iniH0 (forEach 0 t7.ne (fun ie (a : NuSQUIDS) =>
      { a with H0_array := fun k => if k = ie then 0 else a.H0_array k }) t7) with
      inusquids := true }, ?_, Kept_trans _ _ _ k5 k59, k59.2.2.2.2.2.2.2.2.2.2.2 f5⟩
  rw [e5, andThen_ok _ _ t5 rfl, e6, andThen_ok _ _ t6 rfl, e7, andThen_ok _ _ t7 rfl]

theorem init1_chain_small (ext : External) (a : NuSQUIDS) (h2 : a.numneu < 2) :
    ∃ msg t, (((Set_MixingParametersToDefault a).andThen (fun s5 =>
        if s5.NT = .antineutrino then
          forLoop 0 s5.numneu (fun i a =>
            forLoop (i + 1) a.numneu (fun j b =>
              match Get_CPPhase i j b with
              | .ok d => Set_CPPhase i j (-d) b
              | .error msg => .raised msg b) a) s5
        else .ok s5)).andThen (iniProjectors ext.toSUOps)).andThen (fun s6 =>
        let s7 := forEach 0 s6.ne (fun ie (a : NuSQUIDS) =>
          { a with H0_array := fun k => if k = ie then 0 else a.H0_array k }) s6
        let s8 := iniH0 s7
        .ok { s8 with inusquids := true }) = .raised msg t ∧
      (a.istate = false → t.istate = false) := by
  have hn : a.numneu = 0 ∨ a.numneu = 1 := by omega
  rcases hn with hn | hn
  · refine ⟨"nuSQUIDS::Set_MixingAngle::Error: Mixing angle index greater than number of neutrino flavors.",
      a, ?_, fun h => h⟩
    simp [Set_MixingParametersToDefault, Set_MixingAngle, Outcome.andThen, hn]
  · refine ⟨"nuSQUIDS::Set_MixingAngle::Error: Mixing angle index greater than number of neutrino flavors.",
      projUpd (a.params.SetMixingAngle 0 1 (583996 / 1000000)) false a.b1_proj a.evol_b1_proj a,
      ?_, fun _ => rfl⟩
    simp [Set_MixingParametersToDefault, Set_MixingAngle, Outcome.andThen, hn, projUpd]

/-- The single-energy `init` returns when its two guards pass and there are at least two
flavors. -/
theorem init1_returns (ext : External) (xini : ℚ) (s : NuSQUIDS)
    (hNT : s.NT = .neutrino ∨ s.NT = .antineutrino)
    (hmax : ¬ s.numneu > ext.SQUIDS_MAX_HILBERT_DIM) (h2 : 2 ≤ s.numneu) :
    ∃ t, init1 ext xini s = .ok t ∧ t.istate = false ∧ t.ne = 1 := by
  obtain ⟨t, e, k, f⟩ := init1_chain ext
    { ini ext 1 s.numneu 1 0 xini { s with ne := 1, nrhos := 1, nsun := s.numneu } with
      CoherentRhoTerms := true } h2
  refine ⟨t, ?_, f, k.2.1⟩
  unfold init1
  simp only [hNT, if_true, hmax, if_false]
  exact e

/-- The single-energy `init` raises in the default-parameter setter when there are fewer than
two flavors. -/
theorem init1_small (ext : External) (xini : ℚ) (s : NuSQUIDS)
    (hNT : s.NT = .neutrino ∨ s.NT = .antineutrino)
    (hmax : ¬ s.numneu > ext.SQUIDS_MAX_HILBERT_DIM) (h2 : s.numneu < 2) :
    ∃ msg t, init1 ext xini s = .raised msg t ∧ (s.istate = false → t.istate = false) := by
  obtain ⟨msg, t, e, f⟩ := init1_chain_small ext
    { ini ext 1 s.numneu 1 0 xini { s with ne := 1, nrhos := 1, nsun := s.numneu } with
      CoherentRhoTerms := true } h2
  refine ⟨msg, t, ?_, f⟩
  unfold init1
  simp only [hNT, if_true, hmax, if_false]
  exact e

theorem init_flag (ext : External) (Emin Emax : ℚ) (Esize : Nat) (ii : Bool) (xini : ℚ)
    (s : NuSQUIDS) (h : s.istate = false) :
    (init ext Emin Emax Esize ii xini s).obj.istate = false := by
  by_cases hNT : s.NT = .neutrino ∨ s.NT = .antineutrino ∨ s.NT = .both
  · by_cases hmax : s.numneu > ext.SQUIDS_MAX_HILBERT_DIM
    · unfold init
      simp only [hNT, not_true_eq_false, if_false, hmax, if_true]
      exact h
    · by_cases hE : Emax < Emin
      · unfold init
        simp only [hNT, not_true_eq_false, if_false, hmax, hE, if_true]
        exact h
      · by_cases hS : Esize = 0
        · unfold init
          simp only [hNT, not_true_eq_false, if_false, hmax, hE, hS, le_refl, if_true]
          exact h
        · by_cases h2 : 2 ≤ s.numneu
          · obtain ⟨t, e, f, _⟩ := init_returns ext Emin Emax Esize ii xini s hNT hmax hE hS h2
            rw [e]; exact f
          · obtain ⟨msg, t, e, f⟩ := init_small ext Emin Emax Esize ii xini s hNT hmax hE hS
              (by omega)
            rw [e]; exact f h
  · unfold init
    simp only [hNT, not_false_eq_true, if_true]
    exact h

theorem init1_flag (ext : External) (xini : ℚ) (s : NuSQUIDS) (h : s.istate = false) :
    (init1 ext xini s).obj.istate = false := by
  by_cases hNT : s.NT = .neutrino ∨ s.NT = .antineutrino
  · by_cases hmax : s.numneu > ext.SQUIDS_MAX_HILBERT_DIM
    · unfold init1
      simp only [hNT, if_true, hmax]
      exact h
    · by_cases h2 : 2 ≤ s.numneu
      · obtain ⟨t, e, f, _⟩ := init1_returns ext xini s hNT hmax h2
        rw [e]; exact f
      · obtain ⟨msg, t, e, f⟩ := init1_small ext xini s hNT hmax (by omega)
        rw [e]; exact f h
  · unfold init1
    simp only [hNT, if_false]
    exact h

/-- Counterexample for C16: on an object with one flavor whose particle type is `neutrino`,
with `numneu = 1` below `SQUIDS_MAX_HILBERT_DIM = 6`, `Emin = 1 <= Emax = 2` and `Esize = 2`,
none of the listed conditions holds and yet the multi-energy `init` raises; so does the
single-energy `init`. -/
theorem init_raises_for_one_flavor :
    (oneFlavorObject.NT = .neutrino ∨ oneFlavorObject.NT = .antineutrino ∨
      oneFlavorObject.NT = .both) ∧
    (oneFlavorObject.NT = .neutrino ∨ oneFlavorObject.NT = .antineutrino) ∧
    ¬ oneFlavorObject.numneu > exampleExt.SQUIDS_MAX_HILBERT_DIM ∧
    ¬ ((2 : ℚ) < 1) ∧ (2 : Nat) ≠ 0 ∧
    (init exampleExt 1 2 2 false 0 oneFlavorObject).isRaised = true ∧
    (init1 exampleExt 0 oneFlavorObject).isRaised = true := by
  have hNT : oneFlavorObject.NT = .neutrino := rfl
  have hmax : ¬ oneFlavorObject.numneu > exampleExt.SQUIDS_MAX_HILBERT_DIM := by decide
  have hE : ¬ ((2 : ℚ) < 1) := by norm_num
  refine ⟨Or.inl hNT, Or.inl hNT, hmax, hE, by decide, ?_, ?_⟩
  · obtain ⟨msg, t, e, _⟩ := init_small exampleExt 1 2 2 false 0 oneFlavorObject (Or.inl hNT)
      hmax hE (by decide) (by decide)
    rw [e]; rfl
  · obtain ⟨msg, t, e, _⟩ := init1_small exampleExt 0 oneFlavorObject (Or.inl hNT) hmax
      (by decide)
    rw [e]; rfl

/-- C16, amended: the multi-energy `init(Emin, Emax, Esize, ...)` raises if and only if the
particle type is not one of `neutrino`, `antineutrino`, `both`, or `numneu` exceeds
`SQUIDS_MAX_HILBERT_DIM`, or `Emax < Emin`, or `Esize == 0`, or `numneu < 2` (the default mixing
parameters address the flavor index 2, which the setter rejects when it is above `numneu`); the
single-energy `init(xini)` raises if and only if the particle type is not `neutrino` or
`antineutrino`, or `numneu` exceeds `SQUIDS_MAX_HILBERT_DIM`, or `numneu < 2`; and on success
with `Esize = N` the width array has `N - 1` entries with `width[i] = E[i+1] - E[i]`. -/
theorem init_raises_iff (ext : External) (Emin Emax : ℚ) (Esize : Nat) (ii : Bool) (xini : ℚ)
    (s : NuSQUIDS) :
    ((init ext Emin Emax Esize ii xini s).isRaised = true ↔
      (¬ (s.NT = .neutrino ∨ s.NT = .antineutrino ∨ s.NT = .both) ∨
        s.numneu > ext.SQUIDS_MAX_HILBERT_DIM ∨ Emax < Emin ∨ Esize = 0 ∨ s.numneu < 2)) ∧
    ((init1 ext xini s).isRaised = true ↔
      (¬ (s.NT = .neutrino ∨ s.NT = .antineutrino) ∨
        s.numneu > ext.SQUIDS_MAX_HILBERT_DIM ∨ s.numneu < 2)) ∧
    (∀ t, init ext Emin Emax Esize ii xini s = .ok t →
      t.ne = Esize ∧ t.delE.extent0 = Esize - 1 ∧
      ∀ i, i < Esize - 1 → t.delE.data i = t.E_range.data (i + 1) - t.E_range.data i) := by
  refine ⟨?_, ?_, ?_⟩
  · by_cases hNT : s.NT = .neutrino ∨ s.NT = .antineutrino ∨ s.NT = .both
    · by_cases hmax : s.numneu > ext.SQUIDS_MAX_HILBERT_DIM
      · unfold init
        simp only [hNT, not_true_eq_false, if_false, hmax, if_true]
        exact ⟨fun _ => Or.inr (Or.inl trivial), fun _ => rfl⟩
      · by_cases hE : Emax < Emin
        · unfold init
          simp only [hNT, not_true_eq_false, if_false, hmax, hE, if_true]
          exact ⟨fun _ => Or.inr (Or.inr (Or.inl trivial)), fun _ => rfl⟩
        · by_cases hS : Esize = 0
          · unfold init
            simp only [hNT, not_true_eq_false, if_false, hmax, hE, hS, le_refl, if_true]
            exact ⟨fun _ => Or.inr (Or.inr (Or.inr (Or.inl trivial))), fun _ => rfl⟩
          · by_cases h2 : 2 ≤ s.numneu
            · obtain ⟨t, e, _⟩ := init_returns ext Emin Emax Esize ii xini s hNT hmax hE hS h2
              rw [e]
              refine ⟨fun h => Bool.noConfusion h, fun h => ?_⟩
              rcases h with h | h | h | h | h
              · exact absurd hNT h
              · exact absurd h hmax
              · exact absurd h hE
              · exact absurd h hS
              · omega
            · obtain ⟨msg, t, e, _⟩ := init_small ext Emin Emax Esize ii xini s hNT hmax hE hS
                (by omega)
              rw [e]
              exact ⟨fun _ => Or.inr (Or.inr (Or.inr (Or.inr (by omega)))), fun _ => rfl⟩
    · unfold init
      simp only [hNT, not_false_eq_true, if_true]
      exact ⟨fun _ => Or.inl trivial, fun _ => rfl⟩
  · by_cases hNT : s.NT = .neutrino ∨ s.NT = .antineutrino
    · by_cases hmax : s.numneu > ext.SQUIDS_MAX_HILBERT_DIM
      · unfold init1
        simp only [hNT, if_true, hmax]
        exact ⟨fun _ => Or.inr (Or.inl trivial), fun _ => rfl⟩
      · by_cases h2 : 2 ≤ s.numneu
        · obtain ⟨t, e, _⟩ := init1_returns ext xini s hNT hmax h2
          rw [e]
          refine ⟨fun h => Bool.noConfusion h, fun h => ?_⟩
          rcases h with h | h | h
          · exact absurd hNT h
          · exact absurd h hmax
          · omega
        · obtain ⟨msg, t, e, _⟩ := init1_small ext xini s hNT hmax (by omega)
          rw [e]
          exact ⟨fun _ => Or.inr (Or.inr (by omega)), fun _ => rfl⟩
    · unfold init1
      simp only [hNT, if_false]
      exact ⟨fun _ => Or.inl (fun h => h.elim), fun _ => rfl⟩
  · intro t ht
    by_cases hNT : s.NT = .neutrino ∨ s.NT = .antineutrino ∨ s.NT = .both
    · by_cases hmax : s.numneu > ext.SQUIDS_MAX_HILBERT_DIM
      · unfold init at ht
        simp only [hNT, not_true_eq_false, if_false, hmax, if_true] at ht
        exact Outcome.noConfusion ht
      · by_cases hE : Emax < Emin
        · unfold init at ht
          simp only [hNT, not_true_eq_false, if_false, hmax, hE, if_true] at ht
          exact Outcome.noConfusion ht
        · by_cases hS : Esize = 0
          · unfold init at ht
            simp only [hNT, not_true_eq_false, if_false, hmax, hE, hS, le_refl, if_true] at ht
            exact Outcome.noConfusion ht
          · by_cases h2 : 2 ≤ s.numneu
            · obtain ⟨t', e, _, h3, h4, h5⟩ :=
                init_returns ext Emin Emax Esize ii xini s hNT hmax hE hS h2
              rw [e] at ht
              injection ht with ht
              subst ht
              exact ⟨h3, h4, h5⟩
            · obtain ⟨msg, t', e, _⟩ := init_small ext Emin Emax Esize ii xini s hNT hmax hE hS
                (by omega)
              rw [e] at ht
              exact Outcome.noConfusion ht
    · unfold init at ht
      simp only [hNT, not_false_eq_true, if_true] at ht
      exact Outcome.noConfusion ht

/-- Witness for C16: on the three-flavor sample object the multi-energy `init` with
`Emin = Emax = 1` and `Esize = 1` returns and leaves an empty width array, and with three nodes
it leaves two widths, each the difference of neighbouring nodes. -/
theorem init_raises_iff_witness :
    (init exampleExt 1 1 1 false 0 exampleObject).isRaised = false ∧
    (init exampleExt 1 1 1 false 0 exampleObject).obj.delE.extent0 = 0 ∧
    (init exampleExt 1 2 3 false 0 exampleObject).obj.delE.extent0 = 2 ∧
    ∀ i, i < 2 → (init exampleExt 1 2 3 false 0 exampleObject).obj.delE.data i =
      (init exampleExt 1 2 3 false 0 exampleObject).obj.E_range.data (i + 1) -
      (init exampleExt 1 2 3 false 0 exampleObject).obj.E_range.data i := by
  have hr : ∀ (a b : ℚ) (n : Nat), ¬ b < a → n ≠ 0 →
      ∃ t, init exampleExt a b n false 0 exampleObject = .ok t := by
    intro a b n hab hn
    cases hc : init exampleExt a b n false 0 exampleObject with
    | ok t => exact ⟨t, rfl⟩
    | raised msg t =>
      have h := (init_raises_iff exampleExt a b n false 0 exampleObject).1.1 (by rw [hc]; rfl)
      rcases h with h | h | h | h | h
      · exact absurd (Or.inl rfl) h
      · exact absurd h (by decide)
      · exact absurd h hab
      · exact absurd h hn
      · exact absurd h (by decide)
  obtain ⟨t1, e1⟩ := hr 1 1 1 (by norm_num) (by decide)
  obtain ⟨t3, e3⟩ := hr 1 2 3 (by norm_num) (by decide)
  have h1 := (init_raises_iff exampleExt 1 1 1 false 0 exampleObject).2.2 t1 e1
  have h3 := (init_raises_iff exampleExt 1 2 3 false 0 exampleObject).2.2 t3 e3
  rw [e1, e3]
  exact ⟨rfl, h1.2.1, h3.2.1, h3.2.2⟩

/-! ## The state flag -/

theorem readMixing_kept (file : H5File) (grp : String) (s : NuSQUIDS) :
    ∃ t, readMixing file grp s = .ok t ∧ Kept s t := by
  unfold readMixing
  obtain ⟨t1, e1, k1⟩ := forLoop_closed
    (fun i a =>
      forLoop (i + 1) a.numneu (fun j b =>
        (Set_MixingAngle i j
          (file.attr_double grp "mixingangles" ("th" ++ toString (i + 1) ++ toString (j + 1))) b).andThen
        (Set_CPPhase i j
          (file.attr_double grp "CPphases" ("delta" ++ toString (i + 1) ++ toString (j + 1))))) a)
    (Kept s) 0 s.numneu s (Kept_refl s)
    (fun i a _ hi ha => by
      have hna : a.numneu = s.numneu := ha.1
      beta_reduce
      rw [hna]
      apply forLoop_closed _ (Kept s) _ _ _ ha
      intro j b _ hj hb
      have hnb : b.numneu = s.numneu := hb.1
      obtain ⟨b1, eb1, kb1, _⟩ := Set_MixingAngle_kept i j
        (file.attr_double grp "mixingangles" ("th" ++ toString (i + 1) ++ toString (j + 1))) b
        (by omega) (by omega)
      obtain ⟨b2, eb2, kb2, _⟩ := Set_CPPhase_kept i j
        (file.attr_double grp "CPphases" ("delta" ++ toString (i + 1) ++ toString (j + 1))) b1
        (by rw [kb1.1]; omega) (by rw [kb1.1]; omega)
      exact ⟨b2, by rw [eb1, andThen_ok _ _ b1 rfl, eb2],
        Kept_trans _ _ _ hb (Kept_trans _ _ _ kb1 kb2)⟩)
  rw [e1, andThen_ok _ _ t1 rfl]
  have hn1 : t1.numneu = s.numneu := k1.1
  rw [hn1]
  by_cases h0 : 1 ≤ s.numneu
  · apply forLoop_closed _ (Kept s) _ _ _ k1
    intro i a _ hi ha
    have hna : a.numneu = s.numneu := ha.1
    obtain ⟨a1, ea1, ka1, _⟩ := Set_SquareMassDifference_kept i
      (file.attr_double grp "massdifferences" ("dm" ++ toString (i + 1) ++ "1sq")) a (by omega)
    exact ⟨a1, ea1, Kept_trans _ _ _ ha ka1⟩
  · have hz : s.numneu = 0 := by omega
    rw [hz]
    exact ⟨t1, rfl, k1⟩

theorem andThen_raised_obj {σ : Type} (P : σ → Prop) (o : Outcome σ) (f : σ → Outcome σ)
    (hr : (o.andThen f).isRaised = true) (ho : P o.obj)
    (hf : ∀ t, o = .ok t → (f t).isRaised = true → P (f t).obj) : P (o.andThen f).obj := by
  cases o with
  | ok t => exact hf t rfl hr
  | raised msg t => exact ho

theorem andThen_obj {σ : Type} (P : σ → Prop) (o : Outcome σ) (f : σ → Outcome σ)
    (ho : P o.obj) (hf : ∀ t, o = .ok t → P (f t).obj) : P (o.andThen f).obj := by
  cases o with
  | ok t => exact hf t rfl
  | raised msg t => exact ho

theorem Set_E_flag (Enu : ℚ) (s : NuSQUIDS) (h : s.istate = false) :
    (Set_E Enu s).obj.istate = false := by
  unfold Set_E
  split
  · exact h
  · rfl

/-- A `ReadStateHDF5` that raises leaves a clear state flag clear. -/
theorem ReadStateHDF5_flag (ext : External) (file : H5File) (grp loc : String) (s : NuSQUIDS)
    (h : s.istate = false) (hr : (ReadStateHDF5 ext file grp loc s).isRaised = true) :
    (ReadStateHDF5 ext file grp loc s).obj.istate = false := by
  unfold ReadStateHDF5 at hr ⊢
  simp only at hr ⊢
  split at hr
  · rw [if_pos (by assumption)]
    exact h
  · rw [if_neg (by assumption)]
    split at hr
    · rw [if_pos (by assumption)]
      exact h
    · rw [if_neg (by assumption)]
      obtain ⟨t2, e2, k2⟩ := readMixing_kept file grp
        { s with numneu := (file.attr_int grp "basic" "numneu").toNat,
                 NT := ext.nt_of_code (file.attr_int grp "basic" "NT"),
                 iinteraction := decide (file.attr_string grp "basic" "interactions" = "True") }
      have f2 : t2.istate = false := k2.2.2.2.2.2.2.2.2.2.2.2 h
      rw [e2, andThen_ok _ _ t2 rfl] at hr ⊢
      apply andThen_raised_obj (fun (t : NuSQUIDS) => t.istate = false) _ _ hr
      · unfold SetBodyTrack
        split
        · exact f2
        · exact f2
      · intro t4 e4 hr4
        have f4 : t4.istate = false := by
          unfold SetBodyTrack at e4
          split at e4
          · injection e4 with e4
            rw [← e4]
            exact f2
          · exact Outcome.noConfusion e4
        apply andThen_raised_obj (fun (t : NuSQUIDS) => t.istate = false) _ _ hr4
        · split
          · apply andThen_obj (fun (t : NuSQUIDS) => t.istate = false)
            · split
              · exact init1_flag ext _ _ f4
              · exact f4
            · intro t5 e5
              refine Set_E_flag _ t5 ?_
              split at e5
              · have := init1_flag ext (file.attr_double grp "basic" "squids_time_initial")
                  (trackSetX (file.attr_double grp "track" "X") t4) f4
                rw [e5] at this
                exact this
              · injection e5 with e5
                rw [← e5]
                exact f4
          · exact init_flag ext _ _ _ _ _ _ f4
        · intro t6 _ hr6
          exact Bool.noConfusion hr6

theorem Set_initial_state_raised_flag (ext : External) (s : NuSQUIDS) (basis : Basis) :
    (∀ v : marray1, (Set_initial_state1 ext v basis s).isRaised = true →
      (Set_initial_state1 ext v basis s).obj.istate = s.istate) ∧
    (∀ v : marray2, (Set_initial_state2 ext v basis s).isRaised = true →
      (Set_initial_state2 ext v basis s).obj.istate = s.istate) ∧
    (∀ v : marray3, (Set_initial_state3 ext v basis s).isRaised = true →
      (Set_initial_state3 ext v basis s).obj.istate = s.istate) := by
  obtain ⟨t, ht, _⟩ := resetForInitialState_spec ext s
  refine ⟨fun v => ?_, fun v => ?_, fun v => ?_⟩
  · unfold Set_initial_state1
    split_ifs <;> intro h <;> try rfl
    rw [andThen_ok_not_raised _ _ t ht] at h
    exact Bool.noConfusion h
  · unfold Set_initial_state2
    split_ifs <;> intro h <;> try rfl
    rw [andThen_ok_not_raised _ _ t ht] at h
    exact Bool.noConfusion h
  · unfold Set_initial_state3
    split_ifs <;> intro h <;> try rfl
    rw [andThen_ok_not_raised _ _ t ht] at h
    exact Bool.noConfusion h

/-- A call that is not a returning state-storing call leaves a clear state flag clear. -/
theorem perform_keeps_flag_clear (ext : External) (c : Call) (s : NuSQUIDS)
    (h : s.istate = false)
    (hc : (c.storesState && !(c.perform ext s).isRaised) = false) :
    (c.perform ext s).obj.istate = false := by
  cases c with
  | setMixingAngle i j val =>
    show (Set_MixingAngle i j val s).obj.istate = false
    unfold Set_MixingAngle
    split
    · exact h
    · rfl
  | setCPPhase i j val =>
    show (Set_CPPhase i j val s).obj.istate = false
    unfold Set_CPPhase
    split
    · exact h
    · rfl
  | setSquareMassDifference i val =>
    show (Set_SquareMassDifference i val s).obj.istate = false
    unfold Set_SquareMassDifference
    split
    · exact h
    · rfl
  | setE Enu => exact Set_E_flag Enu s h
  | setBody b => exact h
  | setTrack tr => exact h
  | setBasis b =>
    show (Set_Basis b s).obj.istate = false
    unfold Set_Basis
    split
    · exact h
    · exact h
  | setPositivityConstrain opt => exact h
  | setPositivityConstrainStep step => exact h
  | setTauRegeneration opt =>
    show (Set_TauRegeneration opt s).obj.istate = false
    unfold Set_TauRegeneration
    split
    · exact h
    · exact h
  | setInitialState1 v basis =>
    have hr : (Set_initial_state1 ext v basis s).isRaised = true := by
      simpa [Call.storesState, Call.perform] using hc
    exact ((Set_initial_state_raised_flag ext s basis).1 v hr).trans h
  | setInitialState2 v basis =>
    have hr : (Set_initial_state2 ext v basis s).isRaised = true := by
      simpa [Call.storesState, Call.perform] using hc
    exact ((Set_initial_state_raised_flag ext s basis).2.1 v hr).trans h
  | setInitialState3 v basis =>
    have hr : (Set_initial_state3 ext v basis s).isRaised = true := by
      simpa [Call.storesState, Call.perform] using hc
    exact ((Set_initial_state_raised_flag ext s basis).2.2 v hr).trans h
  | evolveState =>
    obtain ⟨msg, e⟩ := EvolveState_guard_raises ext s
      (Or.inr (Or.inr (Or.inr (Or.inr (Or.inl h)))))
    show (EvolveState ext s).obj.istate = false
    rw [e]
    exact h
  | readStateHDF5 file grp loc =>
    have hr : (ReadStateHDF5 ext file grp loc s).isRaised = true := by
      simpa [Call.storesState, Call.perform] using hc
    exact ReadStateHDF5_flag ext file grp loc s h hr

theorem runCalls_keeps_flag_clear (ext : External) :
    ∀ (calls : List Call) (s : NuSQUIDS), s.istate = false →
      stateStoredDuring ext calls s = false → (runCalls ext calls s).istate = false := by
  intro calls
  induction calls with
  | nil => intro s h _; exact h
  | cons c cs ih =>
    intro s h hs
    simp only [stateStoredDuring, Bool.or_eq_false_iff] at hs
    exact ih _ (perform_keeps_flag_clear ext c s h hs.1) hs.2

/-- Counterexample for C12: on the sample object with an initial state, `Set_MixingAngle(0,1,1/4)`
returns and clears the state flag, so `EvolveState` raises `Initial state not initialized`;
then, with no call of `Set_initial_state`, a `ReadStateHDF5` of a saved group returns, and
`EvolveState` runs. -/
theorem EvolveState_runs_after_read :
    (Set_MixingAngle 0 1 (1 / 4) tunedObject).isRaised = false ∧
    (Set_MixingAngle 0 1 (1 / 4) tunedObject).obj.istate = false ∧
    EvolveState exampleExt (Set_MixingAngle 0 1 (1 / 4) tunedObject).obj =
      .raised "nuSQUIDS::Error::Initial state not initialized"
        (Set_MixingAngle 0 1 (1 / 4) tunedObject).obj ∧
    (writeThenRead exampleExt tunedObject emptyFile "/" false
      (Set_MixingAngle 0 1 (1 / 4) tunedObject).obj).isRaised = false ∧
    (EvolveState exampleExt (writeThenRead exampleExt tunedObject emptyFile "/" false
      (Set_MixingAngle 0 1 (1 / 4) tunedObject).obj).obj).isRaised = false :=
  ⟨rfl, rfl, rfl, rfl, rfl⟩

/-- C12, amended: a successful `Set_MixingAngle`, `Set_CPPhase`, `Set_SquareMassDifference` or
`Set_E` leaves the state flag false; with the flag false `EvolveState` raises and leaves the
object as it was, with the message `Initial state not initialized` when body and track are set;
and the flag stays false through every sequence of calls (parameter, energy, body, track, basis
and option setters, `EvolveState`, `Set_initial_state`, `ReadStateHDF5`) in which no
`Set_initial_state` and no `ReadStateHDF5` returns. So `EvolveState` raises until a
`Set_initial_state` call or a `ReadStateHDF5` call succeeds. -/
theorem state_flag_clear_until_state_stored (ext : External) (s : NuSQUIDS) :
    (∀ i j val t, Set_MixingAngle i j val s = .ok t → t.istate = false) ∧
    (∀ i j val t, Set_CPPhase i j val s = .ok t → t.istate = false) ∧
    (∀ i val t, Set_SquareMassDifference i val s = .ok t → t.istate = false) ∧
    (∀ Enu t, Set_E Enu s = .ok t → t.istate = false) ∧
    (s.istate = false →
      (∃ msg, EvolveState ext s = .raised msg s) ∧
      (s.body ≠ none → s.ibody = true → s.track ≠ none → s.itrack = true →
        EvolveState ext s = .raised "nuSQUIDS::Error::Initial state not initialized" s)) ∧
    (s.istate = false → ∀ calls, stateStoredDuring ext calls s = false →
      (runCalls ext calls s).istate = false ∧
      ∃ msg, EvolveState ext (runCalls ext calls s) = .raised msg (runCalls ext calls s)) := by
  refine ⟨?_, ?_, ?_, ?_, ?_, ?_⟩
  · intro i j val t ht
    unfold Set_MixingAngle at ht
    split at ht
    · exact Outcome.noConfusion ht
    · injection ht with ht; rw [← ht]
  · intro i j val t ht
    unfold Set_CPPhase at ht
    split at ht
    · exact Outcome.noConfusion ht
    · injection ht with ht; rw [← ht]
  · intro i val t ht
    unfold Set_SquareMassDifference at ht
    split at ht
    · exact Outcome.noConfusion ht
    · injection ht with ht; rw [← ht]
  · intro Enu t ht
    unfold Set_E at ht
    split at ht
    · exact Outcome.noConfusion ht
    · injection ht with ht; rw [← ht]
  · intro h
    refine ⟨EvolveState_guard_raises ext s (Or.inr (Or.inr (Or.inr (Or.inr (Or.inl h))))), ?_⟩
    intro hb hib ht hit
    unfold EvolveState
    cases hbody : s.body with
    | none => exact absurd hbody hb
    | some b =>
      cases htrack : s.track with
      | none => exact absurd htrack ht
      | some tr => simp [hib, hit, h]
  · intro h calls hs
    have hf := runCalls_keeps_flag_clear ext calls s h hs
    exact ⟨hf, EvolveState_guard_raises ext _ (Or.inr (Or.inr (Or.inr (Or.inr (Or.inl hf)))))⟩

/-- Witness for C12: after `Set_MixingAngle(0,1,1/4)` on the sample object with an initial
state, a failed `Set_initial_state` (empty array), a `Set_E` and an `EvolveState` store no state,
so the flag is still false and `EvolveState` raises. -/
theorem state_flag_clear_until_state_stored_witness :
    (runCalls exampleExt
      [.setInitialState1 { extent0 := 0, data := fun _ => 0 } .flavor, .setE 2, .evolveState]
      (Set_MixingAngle 0 1 (1 / 4) tunedObject).obj).istate = false ∧
    ∃ msg, EvolveState exampleExt (runCalls exampleExt
      [.setInitialState1 { extent0 := 0, data := fun _ => 0 } .flavor, .setE 2, .evolveState]
      (Set_MixingAngle 0 1 (1 / 4) tunedObject).obj) = .raised msg (runCalls exampleExt
      [.setInitialState1 { extent0 := 0, data := fun _ => 0 } .flavor, .setE 2, .evolveState]
      (Set_MixingAngle 0 1 (1 / 4) tunedObject).obj) :=
  (state_flag_clear_until_state_stored exampleExt
    (Set_MixingAngle 0 1 (1 / 4) tunedObject).obj).2.2.2.2.2 rfl _ rfl


/-! ## Loops that fill an array row by row -/

/-- A loop whose `k`-th pass rewrites the entries of row `k` that satisfy `R`, with new values
that depend on the old entries of that row only, rewrites every such entry of the rows below
`n` with the value computed from the initial array. -/
theorem forEach_rows {σ I α : Type} (put : (I → α) → σ) (key : I → Nat) (R : I → Prop)
    [DecidablePred R] (v : (I → α) → I → α)
    (hv : ∀ g g' x, (∀ y, key y = key x → g y = g' y) → v g x = v g' x)
    (body : Nat → σ → σ)
    (hbody : ∀ k g, body k (put g) = put (fun x => if key x = k ∧ R x then v g x else g x))
    (n : Nat) (g0 : I → α) :
    forEach 0 n body (put g0) = put (fun x => if key x < n ∧ R x then v g0 x else g0 x) := by
  apply forEach_inv body
    (fun k t => t = put (fun x => if key x < k ∧ R x then v g0 x else g0 x)) 0 n _
    (Nat.zero_le n)
  · have h0 : (fun x => if key x < 0 ∧ R x then v g0 x else g0 x) = g0 := by
      funext x
      simp
    rw [h0]
  · intro k t _ _ ht
    subst ht
    rw [hbody]
    congr 1
    funext x
    by_cases h1 : key x = k ∧ R x
    · have h2 : key x < k + 1 ∧ R x := ⟨by omega, h1.2⟩
      rw [if_pos h1, if_pos h2]
      apply hv
      intro y hy
      have h3 : ¬ (key y < k ∧ R y) := by
        intro h; omega
      rw [if_neg h3]
    · rw [if_neg h1]
      by_cases h2 : key x < k ∧ R x
      · have h3 : key x < k + 1 ∧ R x := ⟨by omega, h2.2⟩
        rw [if_pos h2, if_pos h3]
      · have h3 : ¬ (key x < k + 1 ∧ R x) := by
          intro h
          by_cases h4 : key x = k
          · exact h1 ⟨h4, h.2⟩
          · exact h2 ⟨by omega, h.2⟩
        rw [if_neg h2, if_neg h3]

theorem forEach_sum (f : Nat → ℚ) (n : Nat) :
    forEach 0 n (fun k (acc : ℚ) => acc + f k) 0 = ∑ k in Finset.range n, f k := by
  apply forEach_inv _ (fun k (acc : ℚ) => acc = ∑ j in Finset.range k, f j) 0 n _
    (Nat.zero_le n)
  · simp
  · intro k t _ _ ht
    rw [ht, Finset.sum_range_succ]

/-! ## The kernels `dNdE_NC` and `dNdE_CC` -/

theorem constructdNdE_inner (w : InteractionsWork) (rho flv e1 : Nat) (g : Idx4 → ℚ × ℚ) :
    forEach 0 e1 (fun e2 (d : NuSQUIDS) =>
      let d1 : NuSQUIDS :=
        if w.dsignudE_NC rho flv e1 e2 < 1 / 10 ^ 50 ∨
            w.dsignudE_NC rho flv e1 e2 ≠ w.dsignudE_NC rho flv e1 e2 then
          { d with dNdE_NC := set4 d.dNdE_NC rho flv e1 e2 0 }
        else
          { d with dNdE_NC := set4 d.dNdE_NC rho flv e1 e2
                                (w.dsignudE_NC rho flv e1 e2 / d.sigma_NC rho flv e1) }
      if w.dsignudE_CC rho flv e1 e2 < 1 / 10 ^ 50 ∨
          w.dsignudE_CC rho flv e1 e2 ≠ w.dsignudE_CC rho flv e1 e2 then
        { d1 with dNdE_CC := set4 d1.dNdE_CC rho flv e1 e2 0 }
      else
        { d1 with dNdE_CC := set4 d1.dNdE_CC rho flv e1 e2
                               (w.dsignudE_CC rho flv e1 e2 / d1.sigma_CC rho flv e1) })
      (kernelPut w.self g) =
    kernelPut w.self (fun x =>
      if x.2.2.2 < e1 ∧ (x.1 = rho ∧ x.2.1 = flv ∧ x.2.2.1 = e1) then kernelEntry w x
      else g x) := by
  apply forEach_rows (kernelPut w.self) (fun x => x.2.2.2)
    (fun x => x.1 = rho ∧ x.2.1 = flv ∧ x.2.2.1 = e1) (fun _ x => kernelEntry w x)
    (fun _ _ _ _ => rfl)
  intro e2 g
  simp only [ne_eq, not_true_eq_false, or_false]
  unfold kernelPut
  by_cases hn : w.dsignudE_NC rho flv e1 e2 < 1 / 10 ^ 50 <;>
    by_cases hc : w.dsignudE_CC rho flv e1 e2 < 1 / 10 ^ 50 <;>
    simp only [hn, hc, if_true, if_false] <;>
    · congr 1 <;>
      · funext a b c d
        by_cases h : a = rho ∧ b = flv ∧ c = e1 ∧ d = e2
        · obtain ⟨rfl, rfl, rfl, rfl⟩ := h
          simp only [one_div] at hn hc
          simp [set4, kernelEntry, hn, hc]
        · have h' : ¬ (d = e2 ∧ a = rho ∧ b = flv ∧ c = e1) := by tauto
          simp [set4, h, h']

/-- The third block of `InitializeInteractions` in closed form: the entries with channel below
`nrhos`, flavor below `numneu` and nodes `e2 < e1 < ne` are rewritten, nothing else is. -/
theorem constructdNdE_eq (w : InteractionsWork) :
    constructdNdE w = kernelPut w.self (fun x =>
      if x.1 < w.self.nrhos ∧ (x.2.1 < w.self.numneu ∧ x.2.2.1 < w.self.ne ∧ x.2.2.2 < x.2.2.1)
      then kernelEntry w x else kernelGet w.self x) := by
  unfold constructdNdE
  show forEach 0 w.self.nrhos _ (kernelPut w.self (kernelGet w.self)) = _
  apply forEach_rows (kernelPut w.self) (fun x => x.1)
    (fun x => x.2.1 < w.self.numneu ∧ x.2.2.1 < w.self.ne ∧ x.2.2.2 < x.2.2.1)
    (fun _ x => kernelEntry w x) (fun _ _ _ _ => rfl)
  intro rho g
  refine (forEach_rows (kernelPut w.self) (fun x => x.2.1)
    (fun x => x.1 = rho ∧ x.2.2.1 < w.self.ne ∧ x.2.2.2 < x.2.2.1)
    (fun _ x => kernelEntry w x) (fun _ _ _ _ => rfl) _ ?_ w.self.numneu g).trans ?_
  · intro flv g
    refine (forEach_rows (kernelPut w.self) (fun x => x.2.2.1)
      (fun x => x.1 = rho ∧ x.2.1 = flv ∧ x.2.2.2 < x.2.2.1)
      (fun _ x => kernelEntry w x) (fun _ _ _ _ => rfl) _ ?_ w.self.ne g).trans ?_
    · intro e1 g
      refine (constructdNdE_inner w rho flv e1 g).trans ?_
      congr 1
      funext x
      exact if_congr (by beta_reduce; omega) rfl rfl
    · congr 1
      funext x
      exact if_congr (by beta_reduce; omega) rfl rfl
  · congr 1
    funext x
    exact if_congr (by omega) rfl rfl

/-! ## The rescaling of the differential cross sections -/

theorem rescaled_congr (s : NuSQUIDS) (g g' : Idx4 → ℚ × ℚ) (x : Idx4)
    (h : ∀ y : Idx4, y.1 = x.1 → y.2.1 = x.2.1 → y.2.2.1 = x.2.2.1 → g y = g' y) :
    rescaled s g x = rescaled s g' x := by
  unfold rescaled
  rw [h x rfl rfl rfl]
  have e : ∀ e2, g (x.1, x.2.1, x.2.2.1, e2) = g' (x.1, x.2.1, x.2.2.1, e2) :=
    fun e2 => h _ rfl rfl rfl
  simp only [e]

theorem fixCrossSections_inner (s : NuSQUIDS) (n f e1 : Nat) (c1 c2 : ℚ) (g : Idx4 → ℚ × ℚ) :
    forEach 0 e1 (fun e2 (w4 : InteractionsWork) =>
      { w4 with
        dsignudE_CC := set4 w4.dsignudE_CC n f e1 e2 (w4.dsignudE_CC n f e1 e2 * c1),
        dsignudE_NC := set4 w4.dsignudE_NC n f e1 e2 (w4.dsignudE_NC n f e1 e2 * c2) })
      (workPut s g) =
    workPut s (fun x =>
      if x.2.2.2 < e1 ∧ (x.1 = n ∧ x.2.1 = f ∧ x.2.2.1 = e1) then ((g x).1 * c1, (g x).2 * c2)
      else g x) := by
  apply forEach_rows (workPut s) (fun x => x.2.2.2)
    (fun x => x.1 = n ∧ x.2.1 = f ∧ x.2.2.1 = e1) (fun g x => ((g x).1 * c1, (g x).2 * c2))
    (fun g g' x h => by beta_reduce; rw [h x rfl])
  intro e2 g
  unfold workPut
  congr 1 <;>
  · funext a b c d
    by_cases h : a = n ∧ b = f ∧ c = e1 ∧ d = e2
    · obtain ⟨rfl, rfl, rfl, rfl⟩ := h
      simp [set4]
    · have h' : ¬ (d = e2 ∧ a = n ∧ b = f ∧ c = e1) := by tauto
      simp [set4, h, h']

theorem fixCrossSections_row (s : NuSQUIDS) (n f e1 : Nat) (g : Idx4 → ℚ × ℚ) :
    (let w3 := workPut s g
     let XCC_int := forEach 0 e1 (fun e2 (acc : ℚ) =>
        acc + w3.dsignudE_CC n f e1 e2 * w3.self.delE.data e2) 0
     let XNC_int := forEach 0 e1 (fun e2 (acc : ℚ) =>
        acc + w3.dsignudE_NC n f e1 e2 * w3.self.delE.data e2) 0
     if e1 ≠ 0 then
       let CC_rescale := (w3.self.sigma_CC n f e1 - s.sigma_CC n f 0) / XCC_int
       let NC_rescale := (w3.self.sigma_NC n f e1 - s.sigma_CC n f 0) / XNC_int
       forEach 0 e1 (fun e2 (w4 : InteractionsWork) =>
         { w4 with
           dsignudE_CC := set4 w4.dsignudE_CC n f e1 e2
             (w4.dsignudE_CC n f e1 e2 * CC_rescale),
           dsignudE_NC := set4 w4.dsignudE_NC n f e1 e2
             (w4.dsignudE_NC n f e1 e2 * NC_rescale) }) w3
     else w3) =
    workPut s (fun x =>
      if x.2.2.1 = e1 ∧ (x.1 = n ∧ x.2.1 = f ∧ x.2.2.2 < x.2.2.1) then rescaled s g x
      else g x) := by
  simp only [forEach_sum]
  by_cases h0 : e1 = 0
  · subst h0
    simp only [ne_eq, not_true_eq_false, if_false]
    congr 1
    funext x
    have h : ¬ (x.2.2.1 = 0 ∧ (x.1 = n ∧ x.2.1 = f ∧ x.2.2.2 < x.2.2.1)) := by omega
    rw [if_neg h]
  · simp only [ne_eq, h0, not_false_eq_true, if_true]
    refine (fixCrossSections_inner s n f e1 _ _ g).trans ?_
    congr 1
    funext x
    by_cases h : x.2.2.1 = e1 ∧ (x.1 = n ∧ x.2.1 = f ∧ x.2.2.2 < x.2.2.1)
    · have h' : x.2.2.2 < e1 ∧ (x.1 = n ∧ x.2.1 = f ∧ x.2.2.1 = e1) := by omega
      rw [if_pos h, if_pos h']
      obtain ⟨h1, h2, h3, _⟩ := h
      unfold rescaled workPut
      simp only [h1, h2, h3]
    · have h' : ¬ (x.2.2.2 < e1 ∧ (x.1 = n ∧ x.2.1 = f ∧ x.2.2.1 = e1)) := by omega
      rw [if_neg h, if_neg h']

/-- The second block of `InitializeInteractions` in closed form: the object is left as it is,
and the entries of the two local arrays with channel below `nrhos`, flavor below `numneu` and
nodes `e2 < e1 < ne` are multiplied by the factor of their row. -/
theorem fixCrossSections_eq (s : NuSQUIDS) (g : Idx4 → ℚ × ℚ) :
    fixCrossSections (workPut s g) = workPut s (fun x =>
      if x.1 < s.nrhos ∧ (x.2.1 < s.numneu ∧ x.2.2.1 < s.ne ∧ x.2.2.2 < x.2.2.1)
      then rescaled s g x else g x) := by
  unfold fixCrossSections
  show forEach 0 s.nrhos _ (workPut s g) = _
  apply forEach_rows (workPut s) (fun x => x.1)
    (fun x => x.2.1 < s.numneu ∧ x.2.2.1 < s.ne ∧ x.2.2.2 < x.2.2.1)
    (fun g x => rescaled s g x)
    (fun g g' x h => rescaled_congr s g g' x (fun y h1 _ _ => h y h1))
  intro n g
  refine (forEach_rows (workPut s) (fun x => x.2.1)
    (fun x => x.1 = n ∧ x.2.2.1 < s.ne ∧ x.2.2.2 < x.2.2.1)
    (fun g x => rescaled s g x)
    (fun g g' x h => rescaled_congr s g g' x (fun y _ h2 _ => h y h2)) _ ?_ s.numneu g).trans ?_
  · intro f g
    refine (forEach_rows (workPut s) (fun x => x.2.2.1)
      (fun x => x.1 = n ∧ x.2.1 = f ∧ x.2.2.2 < x.2.2.1)
      (fun g x => rescaled s g x)
      (fun g g' x h => rescaled_congr s g g' x (fun y _ _ h3 => h y h3)) _ ?_ s.ne g).trans ?_
    · intro e1 g
      exact fixCrossSections_row s n f e1 g
    · congr 1
      funext x
      exact if_congr (by beta_reduce; omega) rfl rfl
  · congr 1
    funext x
    exact if_congr (by omega) rfl rfl

/-! ## The interaction tables of `InitializeInteractions` -/

theorem loadTauDecay_frame (ext : External) (a : NuSQUIDS) :
    ∃ il ta tl, loadTauDecay ext a = tauTablesUpd il ta tl a := by
  unfold loadTauDecay
  lift_lets
  intro GeVm1 s1
  have hs1 : ∃ il ta tl, s1 = tauTablesUpd il ta tl a := by
    apply forEach_closed _ (fun t => ∃ il ta tl, t = tauTablesUpd il ta tl a) _ _ _
      ⟨a.invlen_tau, a.dNdE_tau_all, a.dNdE_tau_lep, rfl⟩
    rintro e1 b _ _ ⟨il, ta, tl, rfl⟩
    exact ⟨_, _, _, rfl⟩
  obtain ⟨il, ta, tl, e⟩ := hs1
  clear_value s1
  subst e
  apply forEach_closed _ (fun t => ∃ il ta tl, t = tauTablesUpd il ta tl a) _ _ _
    ⟨il, ta, tl, rfl⟩
  rintro e1 b _ _ ⟨il1, ta1, tl1, rfl⟩
  apply forEach_closed _ (fun t => ∃ il ta tl, t = tauTablesUpd il ta tl a) _ _ _
    ⟨il1, ta1, tl1, rfl⟩
  rintro e2 c _ _ ⟨il2, ta2, tl2, rfl⟩
  exact ⟨_, _, _, rfl⟩

theorem fixTauDecay_frame (a : NuSQUIDS) :
    ∃ il ta tl, fixTauDecay a = tauTablesUpd il ta tl a := by
  unfold fixTauDecay
  apply forEach_closed _ (fun t => ∃ il ta tl, t = tauTablesUpd il ta tl a) _ _ _
    ⟨a.invlen_tau, a.dNdE_tau_all, a.dNdE_tau_lep, rfl⟩
  rintro e1 b _ _ ⟨il1, ta1, tl1, rfl⟩
  simp only
  split
  · apply forEach_closed _ (fun t => ∃ il ta tl, t = tauTablesUpd il ta tl a) _ _ _
      ⟨il1, ta1, tl1, rfl⟩
    rintro e2 c _ _ ⟨il2, ta2, tl2, rfl⟩
    exact ⟨_, _, _, rfl⟩
  · exact ⟨il1, ta1, tl1, rfl⟩

/-- The object that `InitializeInteractions` returns is the output of its third block with
new tau decay tables. -/
theorem InitializeInteractions_tables (ext : External) (s : NuSQUIDS) :
    ∃ il ta tl, InitializeInteractions ext s =
      tauTablesUpd il ta tl (constructdNdE (passedWork ext s)) := by
  unfold InitializeInteractions passedWork loadedWork
  obtain ⟨il, ta, tl, e⟩ := loadTauDecay_frame ext (constructdNdE
    (if ext.FixCrossSections = true then
      fixCrossSections (loadCrossSections ext (InteractionsWork.mk s
        (fun _ _ _ _ => ext.uninit 0 0) (fun _ _ _ _ => ext.uninit 1 0)))
    else loadCrossSections ext (InteractionsWork.mk s
        (fun _ _ _ _ => ext.uninit 0 0) (fun _ _ _ _ => ext.uninit 1 0))))
  simp only [e]
  split
  · obtain ⟨il2, ta2, tl2, e2⟩ := fixTauDecay_frame (tauTablesUpd il ta tl (constructdNdE
      (fixCrossSections (loadCrossSections ext (InteractionsWork.mk s
        (fun _ _ _ _ => ext.uninit 0 0) (fun _ _ _ _ => ext.uninit 1 0))))))
    exact ⟨il2, ta2, tl2, e2⟩
  · exact ⟨il, ta, tl, rfl⟩

theorem loadedWork_kept (ext : External) (s : NuSQUIDS) : Kept s (loadedWork ext s).self := by
  unfold loadedWork loadCrossSections
  apply forEach_closed _ (fun (w : InteractionsWork) => Kept s w.self) _ _ _ (Kept_refl s)
  intro n w1 _ _ h1
  apply forEach_closed _ (fun (w : InteractionsWork) => Kept s w.self) _ _ _ h1
  intro f w2 _ _ h2
  apply forEach_closed _ (fun (w : InteractionsWork) => Kept s w.self) _ _ _ h2
  intro e1 w3 _ _ h3
  have h4 : Kept s (forEach 0 e1 (fun e2 (w5 : InteractionsWork) =>
        { w5 with
          dsignudE_NC := set4 w5.dsignudE_NC n f e1 e2
            (ext.DifferentialCrossSection (w5.self.E_range.data e1) (w5.self.E_range.data e2) f
              (neutype_xs_dict w5.self.NT n) false *
                (s.params.cm ^ 2 * (s.params.GeV)⁻¹)),
          dsignudE_CC := set4 w5.dsignudE_CC n f e1 e2
            (ext.DifferentialCrossSection (w5.self.E_range.data e1) (w5.self.E_range.data e2) f
              (neutype_xs_dict w5.self.NT n) true *
                (s.params.cm ^ 2 * (s.params.GeV)⁻¹)) }) w3).self := by
    apply forEach_closed _ (fun (w : InteractionsWork) => Kept s w.self) _ _ _ h3
    intro e2 w5 _ _ h5
    exact h5
  exact h4

/-- The work record at the entry of the third block holds the object of the first block. -/
theorem passedWork_self (ext : External) (s : NuSQUIDS) :
    (passedWork ext s).self = (loadedWork ext s).self := by
  unfold passedWork
  split
  · have e : loadedWork ext s = workPut (loadedWork ext s).self (workGet (loadedWork ext s)) :=
      rfl
    rw [e, fixCrossSections_eq]
    rfl
  · rfl

/-- The rescaled rows: for a channel below `nrhos`, a flavor below `numneu` and a node
`1 <= e1 < ne`, a row whose weighted sum before the pass is not zero has after the pass the
weighted sum `sigma[e1] - sigma_CC[0]`, for the charged-current array with `sigma = sigma_CC`
and for the neutral-current array with `sigma = sigma_NC`. -/
theorem fixCrossSections_sums (w : InteractionsWork) (n f e1 : Nat) (hn : n < w.self.nrhos)
    (hf : f < w.self.numneu) (he : e1 < w.self.ne) :
    (∑ e2 in Finset.range e1, w.dsignudE_CC n f e1 e2 * w.self.delE.data e2 ≠ 0 →
      ∑ e2 in Finset.range e1, (fixCrossSections w).dsignudE_CC n f e1 e2 * w.self.delE.data e2 =
        w.self.sigma_CC n f e1 - w.self.sigma_CC n f 0) ∧
    (∑ e2 in Finset.range e1, w.dsignudE_NC n f e1 e2 * w.self.delE.data e2 ≠ 0 →
      ∑ e2 in Finset.range e1, (fixCrossSections w).dsignudE_NC n f e1 e2 * w.self.delE.data e2 =
        w.self.sigma_NC n f e1 - w.self.sigma_CC n f 0) := by
  have e : w = workPut w.self (workGet w) := rfl
  have hfix := fixCrossSections_eq w.self (workGet w)
  rw [← e] at hfix
  rw [hfix]
  constructor
  · intro hX
    have hrow : ∀ e2 ∈ Finset.range e1,
        (workPut w.self (fun x =>
          if x.1 < w.self.nrhos ∧ (x.2.1 < w.self.numneu ∧ x.2.2.1 < w.self.ne ∧
            x.2.2.2 < x.2.2.1)
          then rescaled w.self (workGet w) x else workGet w x)).dsignudE_CC n f e1 e2 *
          w.self.delE.data e2 =
        ((w.self.sigma_CC n f e1 - w.self.sigma_CC n f 0) /
          ∑ k in Finset.range e1, w.dsignudE_CC n f e1 k * w.self.delE.data k) *
          (w.dsignudE_CC n f e1 e2 * w.self.delE.data e2) := by
      intro e2 h2
      have h2' : e2 < e1 := Finset.mem_range.mp h2
      have hc : n < w.self.nrhos ∧ (f < w.self.numneu ∧ e1 < w.self.ne ∧ e2 < e1) :=
        ⟨hn, hf, he, h2'⟩
      simp only [workPut, hc, and_self, if_true, rescaled, workGet]
      ring
    rw [Finset.sum_congr rfl hrow, ← Finset.mul_sum, div_mul_cancel₀ _ hX]
  · intro hX
    have hrow : ∀ e2 ∈ Finset.range e1,
        (workPut w.self (fun x =>
          if x.1 < w.self.nrhos ∧ (x.2.1 < w.self.numneu ∧ x.2.2.1 < w.self.ne ∧
            x.2.2.2 < x.2.2.1)
          then rescaled w.self (workGet w) x else workGet w x)).dsignudE_NC n f e1 e2 *
          w.self.delE.data e2 =
        ((w.self.sigma_NC n f e1 - w.self.sigma_CC n f 0) /
          ∑ k in Finset.range e1, w.dsignudE_NC n f e1 k * w.self.delE.data k) *
          (w.dsignudE_NC n f e1 e2 * w.self.delE.data e2) := by
      intro e2 h2
      have h2' : e2 < e1 := Finset.mem_range.mp h2
      have hc : n < w.self.nrhos ∧ (f < w.self.numneu ∧ e1 < w.self.ne ∧ e2 < e1) :=
        ⟨hn, hf, he, h2'⟩
      simp only [workPut, hc, and_self, if_true, rescaled, workGet]
      ring
    rw [Finset.sum_congr rfl hrow, ← Finset.mul_sum, div_mul_cancel₀ _ hX]

theorem gridObject_loaded :
    (loadedWork fixExt gridObject).self.sigma_CC 0 0 0 = 1 ∧
    (loadedWork fixExt gridObject).self.sigma_CC 0 0 1 = 2 ∧
    (loadedWork fixExt gridObject).self.sigma_NC 0 0 0 = 3 ∧
    (loadedWork fixExt gridObject).self.sigma_NC 0 0 1 = 6 ∧
    (loadedWork fixExt gridObject).dsignudE_CC 0 0 1 0 = 1 ∧
    (loadedWork fixExt gridObject).dsignudE_NC 0 0 1 0 = 1 ∧
    (loadedWork fixExt gridObject).self.delE.data 0 = 1 := by
  have h1 : (loadedWork fixExt gridObject).self.sigma_CC 0 0 0 =
      ((0 : ℕ) + 1 : ℚ) * (1 : ℚ) ^ 2 := rfl
  have h2 : (loadedWork fixExt gridObject).self.sigma_CC 0 0 1 =
      ((1 : ℕ) + 1 : ℚ) * (1 : ℚ) ^ 2 := rfl
  have h3 : (loadedWork fixExt gridObject).self.sigma_NC 0 0 0 =
      3 * ((0 : ℕ) + 1 : ℚ) * (1 : ℚ) ^ 2 := rfl
  have h4 : (loadedWork fixExt gridObject).self.sigma_NC 0 0 1 =
      3 * ((1 : ℕ) + 1 : ℚ) * (1 : ℚ) ^ 2 := rfl
  have h5 : (loadedWork fixExt gridObject).dsignudE_CC 0 0 1 0 =
      (1 : ℚ) * ((1 : ℚ) ^ 2 * (1 : ℚ)⁻¹) := rfl
  have h6 : (loadedWork fixExt gridObject).dsignudE_NC 0 0 1 0 =
      (1 : ℚ) * ((1 : ℚ) ^ 2 * (1 : ℚ)⁻¹) := rfl
  have h7 : (loadedWork fixExt gridObject).self.delE.data 0 = 1 := rfl
  rw [h1, h2, h3, h4, h5, h6, h7]
  norm_num

/-- The entries that the third block reads, when the rescaling pass is compiled in: inside the
rewritten range, an entry of the first block times the factor of its row. -/
theorem passedWork_entry (ext : External) (s : NuSQUIDS) (hfix : ext.FixCrossSections = true)
    (n f e1 e2 : Nat) (hn : n < s.nrhos) (hf : f < s.numneu) (he : e1 < s.ne) (h2 : e2 < e1) :
    (passedWork ext s).dsignudE_CC n f e1 e2 =
      (rescaled (loadedWork ext s).self (workGet (loadedWork ext s)) (n, f, e1, e2)).1 ∧
    (passedWork ext s).dsignudE_NC n f e1 e2 =
      (rescaled (loadedWork ext s).self (workGet (loadedWork ext s)) (n, f, e1, e2)).2 := by
  obtain ⟨k1, k2, k3, _⟩ := loadedWork_kept ext s
  have e : loadedWork ext s = workPut (loadedWork ext s).self (workGet (loadedWork ext s)) := rfl
  have hp : passedWork ext s = fixCrossSections (loadedWork ext s) := by
    unfold passedWork
    rw [if_pos hfix]
  have hfx := fixCrossSections_eq (loadedWork ext s).self (workGet (loadedWork ext s))
  rw [← e] at hfx
  have hc : n < (loadedWork ext s).self.nrhos ∧ (f < (loadedWork ext s).self.numneu ∧
      e1 < (loadedWork ext s).self.ne ∧ e2 < e1) := by
    rw [k1, k2, k3]
    exact ⟨hn, hf, he, h2⟩
  rw [hp, hfx]
  simp only [workPut, hc, and_self, if_true]

/-- The object that `InitializeInteractions` returns holds the total cross sections of the
first block and the node widths it was given. -/
theorem InitializeInteractions_sigma (ext : External) (s : NuSQUIDS) :
    (InitializeInteractions ext s).sigma_NC = (loadedWork ext s).self.sigma_NC ∧
    (InitializeInteractions ext s).sigma_CC = (loadedWork ext s).self.sigma_CC ∧
    (InitializeInteractions ext s).delE = s.delE := by
  obtain ⟨il, ta, tl, e⟩ := InitializeInteractions_tables ext s
  have k10 : (loadedWork ext s).self.delE = s.delE := (loadedWork_kept ext s).2.2.2.2.2.2.2.2.2.1
  have hs := passedWork_self ext s
  rw [e, constructdNdE_eq]
  refine ⟨?_, ?_, ?_⟩
  · show (passedWork ext s).self.sigma_NC = _
    rw [hs]
  · show (passedWork ext s).self.sigma_CC = _
    rw [hs]
  · show (passedWork ext s).self.delE = s.delE
    rw [hs, k10]

/-- The kernels of the object that `InitializeInteractions` returns, inside the rewritten
range. -/
theorem InitializeInteractions_kernels (ext : External) (s : NuSQUIDS) (n f e1 e2 : Nat)
    (hn : n < s.nrhos) (hf : f < s.numneu) (he : e1 < s.ne) (h2 : e2 < e1) :
    (InitializeInteractions ext s).dNdE_NC n f e1 e2 =
      (kernelEntry (passedWork ext s) (n, f, e1, e2)).1 ∧
    (InitializeInteractions ext s).dNdE_CC n f e1 e2 =
      (kernelEntry (passedWork ext s) (n, f, e1, e2)).2 := by
  obtain ⟨il, ta, tl, e⟩ := InitializeInteractions_tables ext s
  obtain ⟨k1, k2, k3, _⟩ := loadedWork_kept ext s
  have hs := passedWork_self ext s
  have hc : n < (passedWork ext s).self.nrhos ∧ (f < (passedWork ext s).self.numneu ∧
      e1 < (passedWork ext s).self.ne ∧ e2 < e1) := by
    rw [hs, k1, k2, k3]
    exact ⟨hn, hf, he, h2⟩
  rw [e, constructdNdE_eq]
  refine ⟨?_, ?_⟩
  · simp only [tauTablesUpd, kernelPut, hc, and_self, if_true]
  · simp only [tauTablesUpd, kernelPut, hc, and_self, if_true]

/-- The kernels for finite values, doubles idealised as rationals: for every channel below
`nrhos`, flavor below `numneu` and pair of nodes `e2 < e1 < ne`, the object that
`InitializeInteractions` returns holds `dNdE_NC[e1][e2] = 0` when the differential cross
section handed to the third block is below `1e-50` and `(dsigma_NC/dE) / sigma_NC[e1]`
otherwise, and likewise `dNdE_CC` with the charged-current quantities; so a kernel entry is
non-negative whenever the total cross section at `e1` is positive. This says nothing about a
differential cross section that is not finite: see `dNdEEntry`. -/
theorem kernels_clamped_and_normalised (ext : External) (s : NuSQUIDS) (rho flv e1 e2 : Nat)
    (hr : rho < s.nrhos) (hf : flv < s.numneu) (h1 : e1 < s.ne) (h2 : e2 < e1) :
    (InitializeInteractions ext s).dNdE_NC rho flv e1 e2 =
      (if (passedWork ext s).dsignudE_NC rho flv e1 e2 < 1 / 10 ^ 50 then 0
       else (passedWork ext s).dsignudE_NC rho flv e1 e2 /
         (InitializeInteractions ext s).sigma_NC rho flv e1) ∧
    (InitializeInteractions ext s).dNdE_CC rho flv e1 e2 =
      (if (passedWork ext s).dsignudE_CC rho flv e1 e2 < 1 / 10 ^ 50 then 0
       else (passedWork ext s).dsignudE_CC rho flv e1 e2 /
         (InitializeInteractions ext s).sigma_CC rho flv e1) ∧
    (0 < (InitializeInteractions ext s).sigma_NC rho flv e1 →
      0 ≤ (InitializeInteractions ext s).dNdE_NC rho flv e1 e2) ∧
    (0 < (InitializeInteractions ext s).sigma_CC rho flv e1 →
      0 ≤ (InitializeInteractions ext s).dNdE_CC rho flv e1 e2) := by
  obtain ⟨a1, a2⟩ := InitializeInteractions_kernels ext s rho flv e1 e2 hr hf h1 h2
  obtain ⟨a3, a4, _⟩ := InitializeInteractions_sigma ext s
  have hs := passedWork_self ext s
  have b1 : (InitializeInteractions ext s).dNdE_NC rho flv e1 e2 =
      (if (passedWork ext s).dsignudE_NC rho flv e1 e2 < 1 / 10 ^ 50 then 0
       else (passedWork ext s).dsignudE_NC rho flv e1 e2 /
         (InitializeInteractions ext s).sigma_NC rho flv e1) := by
    rw [a1, a3, ← hs]; rfl
  have b2 : (InitializeInteractions ext s).dNdE_CC rho flv e1 e2 =
      (if (passedWork ext s).dsignudE_CC rho flv e1 e2 < 1 / 10 ^ 50 then 0
       else (passedWork ext s).dsignudE_CC rho flv e1 e2 /
         (InitializeInteractions ext s).sigma_CC rho flv e1) := by
    rw [a2, a4, ← hs]; rfl
  have hthr : (0 : ℚ) < 1 / 10 ^ 50 := by positivity
  refine ⟨b1, b2, fun hpos => ?_, fun hpos => ?_⟩
  · rw [b1]
    split
    · exact le_refl 0
    · rename_i hge
      exact div_nonneg (le_of_lt (lt_of_lt_of_le hthr (not_lt.mp hge))) (le_of_lt hpos)
  · rw [b2]
    split
    · exact le_refl 0
    · rename_i hge
      exact div_nonneg (le_of_lt (lt_of_lt_of_le hthr (not_lt.mp hge))) (le_of_lt hpos)

/-- The kernels for finite values at channel 0, flavor 0, nodes `e1 = 1`, `e2 = 0` of the
two-node sample object, with the sample provider. -/
theorem kernels_clamped_and_normalised_witness :
    (InitializeInteractions fixExt gridObject).dNdE_NC 0 0 1 0 =
      (if (passedWork fixExt gridObject).dsignudE_NC 0 0 1 0 < 1 / 10 ^ 50 then 0
       else (passedWork fixExt gridObject).dsignudE_NC 0 0 1 0 /
         (InitializeInteractions fixExt gridObject).sigma_NC 0 0 1) ∧
    (InitializeInteractions fixExt gridObject).dNdE_CC 0 0 1 0 =
      (if (passedWork fixExt gridObject).dsignudE_CC 0 0 1 0 < 1 / 10 ^ 50 then 0
       else (passedWork fixExt gridObject).dsignudE_CC 0 0 1 0 /
         (InitializeInteractions fixExt gridObject).sigma_CC 0 0 1) :=
  ⟨(kernels_clamped_and_normalised fixExt gridObject 0 0 1 0 (by decide) (by decide) (by decide)
      (by decide)).1,
   (kernels_clamped_and_normalised fixExt gridObject 0 0 1 0 (by decide) (by decide) (by decide)
      (by decide)).2.1⟩

/-- C19, the code at a failing input: with the rescaling pass compiled in and a provider whose
total cross sections at the nodes `E = 1, 2` are 1, 2 (charged current) and 3, 6 (neutral
current), the neutral-current row at `e1 = 1` has the weighted sum 1 before the pass and 5
after it: that is `sigma_NC[1] - sigma_CC[0] = 6 - 1`, not `sigma_NC[1] - sigma_NC[0] = 3`. -/
theorem NC_rescaling_anchored_at_CC_total :
    fixExt.FixCrossSections = true ∧
    ∑ e2 in Finset.range 1, (loadedWork fixExt gridObject).dsignudE_NC 0 0 1 e2 *
      (loadedWork fixExt gridObject).self.delE.data e2 = 1 ∧
    ∑ e2 in Finset.range 1, (passedWork fixExt gridObject).dsignudE_NC 0 0 1 e2 *
      (passedWork fixExt gridObject).self.delE.data e2 = 5 ∧
    (passedWork fixExt gridObject).self.sigma_NC 0 0 1 -
      (passedWork fixExt gridObject).self.sigma_NC 0 0 0 = 3 ∧
    (passedWork fixExt gridObject).self.sigma_NC 0 0 1 -
      (passedWork fixExt gridObject).self.sigma_CC 0 0 0 = 5 := by
  obtain ⟨g1, g2, g3, g4, g5, g6, g7⟩ := gridObject_loaded
  have hpre : ∑ e2 in Finset.range 1, (loadedWork fixExt gridObject).dsignudE_NC 0 0 1 e2 *
      (loadedWork fixExt gridObject).self.delE.data e2 = 1 := by
    rw [Finset.sum_range_one, g6, g7]
    norm_num
  have hp : passedWork fixExt gridObject = fixCrossSections (loadedWork fixExt gridObject) := rfl
  have hs := passedWork_self fixExt gridObject
  have hsum := (fixCrossSections_sums (loadedWork fixExt gridObject) 0 0 1 (by decide)
    (by decide) (by decide)).2 (by rw [hpre]; norm_num)
  refine ⟨rfl, hpre, ?_, ?_, ?_⟩
  · rw [hs, hp, hsum, g4, g1]
    norm_num
  · rw [hs, g4, g3]
    norm_num
  · rw [hs, g4, g1]
    norm_num

/-- C17: with the rescaling pass compiled in (`FixCrossSections`), for every channel below
`nrhos`, flavor below `numneu` and node `e1 < ne` whose sum of `dsigma_CC/dE(e1,e2) * width(e2)`
over `e2 < e1` before the pass is not zero (so `e1 >= 1`) and whose rescaled entries are all at
least `1e-50`, the stored kernel satisfies
`sum over e2 < e1 of dNdE_CC[e1][e2] * width(e2) = (sigma_CC[e1] - sigma_CC[0]) / sigma_CC[e1]`
in rational arithmetic; and the pass leaves the rows at `e1 = 0` as they are. -/
theorem CC_kernel_renormalised (ext : External) (s : NuSQUIDS)
    (hfix : ext.FixCrossSections = true) (rho flv e1 : Nat) (hr : rho < s.nrhos)
    (hf : flv < s.numneu) (he : e1 < s.ne)
    (hsum : ∑ e2 in Finset.range e1,
      (loadedWork ext s).dsignudE_CC rho flv e1 e2 * s.delE.data e2 ≠ 0)
    (hbig : ∀ e2, e2 < e1 → 1 / 10 ^ 50 ≤ (passedWork ext s).dsignudE_CC rho flv e1 e2) :
    ∑ e2 in Finset.range e1, (InitializeInteractions ext s).dNdE_CC rho flv e1 e2 *
        (InitializeInteractions ext s).delE.data e2 =
      ((InitializeInteractions ext s).sigma_CC rho flv e1 -
        (InitializeInteractions ext s).sigma_CC rho flv 0) /
        (InitializeInteractions ext s).sigma_CC rho flv e1 ∧
    ∀ n f e2, (passedWork ext s).dsignudE_CC n f 0 e2 =
      (loadedWork ext s).dsignudE_CC n f 0 e2 := by
  obtain ⟨k1, k2, k3, _, _, _, _, _, _, k10, _⟩ := loadedWork_kept ext s
  have hp : passedWork ext s = fixCrossSections (loadedWork ext s) := by
    unfold passedWork
    rw [if_pos hfix]
  have hs := passedWork_self ext s
  constructor
  · have hsum' : ∑ e2 in Finset.range e1, (loadedWork ext s).dsignudE_CC rho flv e1 e2 *
        (loadedWork ext s).self.delE.data e2 ≠ 0 := by
      rw [k10]; exact hsum
    have hfs := (fixCrossSections_sums (loadedWork ext s) rho flv e1 (by rw [k3]; exact hr)
      (by rw [k1]; exact hf) (by rw [k2]; exact he)).1 hsum'
    rw [← hp, k10] at hfs
    have hrow : ∀ e2 ∈ Finset.range e1,
        (InitializeInteractions ext s).dNdE_CC rho flv e1 e2 *
          (InitializeInteractions ext s).delE.data e2 =
        ((passedWork ext s).dsignudE_CC rho flv e1 e2 * s.delE.data e2) /
          (loadedWork ext s).self.sigma_CC rho flv e1 := by
      intro e2 h2
      have h2' : e2 < e1 := Finset.mem_range.mp h2
      obtain ⟨_, a2⟩ := InitializeInteractions_kernels ext s rho flv e1 e2 hr hf he h2'
      obtain ⟨_, _, a5⟩ := InitializeInteractions_sigma ext s
      have hge : ¬ (passedWork ext s).dsignudE_CC rho flv e1 e2 < 1 / 10 ^ 50 :=
        not_lt.mpr (hbig e2 h2')
      rw [a2, a5]
      simp only [kernelEntry, hge, if_false, hs]
      ring
    obtain ⟨_, a4, _⟩ := InitializeInteractions_sigma ext s
    rw [Finset.sum_congr rfl hrow, ← Finset.sum_div, hfs, a4]
  · intro n f e2
    have e : loadedWork ext s = workPut (loadedWork ext s).self (workGet (loadedWork ext s)) :=
      rfl
    have hfx := fixCrossSections_eq (loadedWork ext s).self (workGet (loadedWork ext s))
    rw [← e] at hfx
    rw [hp, hfx]
    have hc : ¬ (n < (loadedWork ext s).self.nrhos ∧ (f < (loadedWork ext s).self.numneu ∧
        0 < (loadedWork ext s).self.ne ∧ e2 < 0)) := by omega
    simp only [workPut, hc, if_false]
    rfl

/-- Witness for C17: on the two-node sample object with the sample provider, the row at
channel 0, flavor 0, node `e1 = 1` has the weighted sum 1 before the pass and the rescaled
entry 1, and the stored kernel sums to `(sigma_CC[1] - sigma_CC[0]) / sigma_CC[1]`. -/
theorem CC_kernel_renormalised_witness :
    ∑ e2 in Finset.range 1, (InitializeInteractions fixExt gridObject).dNdE_CC 0 0 1 e2 *
        (InitializeInteractions fixExt gridObject).delE.data e2 =
      ((InitializeInteractions fixExt gridObject).sigma_CC 0 0 1 -
        (InitializeInteractions fixExt gridObject).sigma_CC 0 0 0) /
        (InitializeInteractions fixExt gridObject).sigma_CC 0 0 1 := by
  obtain ⟨g1, g2, g3, g4, g5, g6, g7⟩ := gridObject_loaded
  have hd : gridObject.delE.data 0 = 1 := rfl
  refine (CC_kernel_renormalised fixExt gridObject rfl 0 0 1 (by decide) (by decide)
    (by decide) ?_ ?_).1
  · rw [Finset.sum_range_one, g5, hd]
    norm_num
  · intro e2 h2
    have h0 : e2 = 0 := by omega
    subst h0
    rw [(passedWork_entry fixExt gridObject rfl 0 0 1 0 (by decide) (by decide) (by decide)
      (by decide)).1]
    simp only [rescaled, workGet, Finset.sum_range_one, g1, g2, g5, g7]
    norm_num


/-! ## The interaction terms -/

theorem forEach_sum_Ico {M : Type} [AddCommMonoid M] (f : Nat → M) (lo hi : Nat) :
    forEach lo hi (fun k (acc : M) => acc + f k) 0 = ∑ k in Finset.Ico lo hi, f k := by
  by_cases h : lo ≤ hi
  · apply forEach_inv _ (fun k (acc : M) => acc = ∑ j in Finset.Ico lo k, f j) lo hi _ h
    · simp
    · intro k t hk _ ht
      rw [ht, Finset.sum_Ico_succ_top hk]
  · have e : hi - lo = 0 := by omega
    have e2 : Finset.Ico lo hi = ∅ := Finset.Ico_eq_empty (by omega)
    simp [forEach, e, iterFrom, e2]

theorem InteractionsRho_eq (ops : SUOps) (s : NuSQUIDS) (e1 rho : Nat)
    (hi : s.iinteraction = true) :
    InteractionsRho ops s e1 rho =
      ∑ e2 in Finset.Ico (e1 + 1) s.ne,
        ((1 / 2) * s.dNdE_NC rho 0 e2 e1 * s.invlen_NC rho 0 e2) •
          ops.ACommutator
            (s.evol_b1_proj rho 0 e1 + s.evol_b1_proj rho 1 e1 + s.evol_b1_proj rho 2 e1)
            (s.rho e2 rho) := by
  unfold InteractionsRho
  simp only [hi, Bool.not_true, Bool.false_eq_true, if_false]
  exact forEach_sum_Ico _ _ _

/-- C21: with interactions enabled, `InteractionsRho(e1, rho)` is the sum over the nodes `e2`
from `e1 + 1` to `ne - 1` of `0.5 * dNdE_NC[rho][0][e2][e1] * invlen_NC[rho][0][e2]` times the
anticommutator of `P_e(e1) + P_mu(e1) + P_tau(e1)` (the evolved flavor projectors of the
channel) with `state[e2].rho[rho]`; it does not change when the state changes at nodes up to
`e1`; when the anticommutator is linear in its second argument it is linear in the state; and
it is the zero vector at the highest node, `e1 = ne - 1`. -/
theorem InteractionsRho_regeneration (ops : SUOps) (s : NuSQUIDS) (e1 rho : Nat)
    (hi : s.iinteraction = true) :
    InteractionsRho ops s e1 rho =
      ∑ e2 in Finset.Ico (e1 + 1) s.ne,
        ((1 / 2) * s.dNdE_NC rho 0 e2 e1 * s.invlen_NC rho 0 e2) •
          ops.ACommutator
            (s.evol_b1_proj rho 0 e1 + s.evol_b1_proj rho 1 e1 + s.evol_b1_proj rho 2 e1)
            (s.rho e2 rho) ∧
    (∀ R : Nat → Nat → SU_vector, (∀ e2, e1 < e2 → R e2 rho = s.rho e2 rho) →
      InteractionsRho ops (rhoUpd R s) e1 rho = InteractionsRho ops s e1 rho) ∧
    (ACommLinear ops → ∀ (a b : ℚ) (R1 R2 : Nat → Nat → SU_vector),
      InteractionsRho ops (rhoUpd (fun e r => a • R1 e r + b • R2 e r) s) e1 rho =
        a • InteractionsRho ops (rhoUpd R1 s) e1 rho +
          b • InteractionsRho ops (rhoUpd R2 s) e1 rho) ∧
    (e1 + 1 = s.ne → InteractionsRho ops s e1 rho = 0) := by
  refine ⟨InteractionsRho_eq ops s e1 rho hi, ?_, ?_, ?_⟩
  · intro R hR
    rw [InteractionsRho_eq ops s e1 rho hi, InteractionsRho_eq ops (rhoUpd R s) e1 rho hi]
    apply Finset.sum_congr rfl
    intro e2 h2
    have h3 : e1 < e2 := by
      have := (Finset.mem_Ico.mp h2).1
      omega
    show _ • ops.ACommutator _ (R e2 rho) = _ • ops.ACommutator _ (s.rho e2 rho)
    rw [hR e2 h3]
    rfl
  · rintro ⟨hadd, hsmul⟩ a b R1 R2
    rw [InteractionsRho_eq ops (rhoUpd (fun e r => a • R1 e r + b • R2 e r) s) e1 rho hi,
      InteractionsRho_eq ops (rhoUpd R1 s) e1 rho hi,
      InteractionsRho_eq ops (rhoUpd R2 s) e1 rho hi]
    simp only [rhoUpd]
    rw [Finset.smul_sum, Finset.smul_sum, ← Finset.sum_add_distrib]
    apply Finset.sum_congr rfl
    intro e2 _
    rw [hadd, hsmul, hsmul, smul_add, smul_comm _ a, smul_comm _ b]
  · intro h
    rw [InteractionsRho_eq ops s e1 rho hi, h]
    simp

theorem exampleExt_ACommLinear : ACommLinear exampleExt.toSUOps := by
  constructor
  · intro a b c
    funext k
    show 2 * a k * (b k + c k) = 2 * a k * b k + 2 * a k * c k
    ring
  · intro a q b
    funext k
    show 2 * a k * (q * b k) = q * (2 * a k * b k)
    ring

/-- Witness for C21: on the two-node sample object with interaction tables, the term at the
upper node is the zero vector, the term at the lower node is the single summand of the upper
node, and with the sample anticommutator, which is linear, the term of the state
`2 * R1 + 3 * R2` is twice the term of `R1` plus three times the term of `R2`. -/
theorem InteractionsRho_regeneration_witness :
    InteractionsRho exampleExt.toSUOps xsObject 1 0 = 0 ∧
    InteractionsRho exampleExt.toSUOps xsObject 0 0 =
      ∑ e2 in Finset.Ico 1 2,
        ((1 / 2) * xsObject.dNdE_NC 0 0 e2 0 * xsObject.invlen_NC 0 0 e2) •
          exampleExt.ACommutator
            (xsObject.evol_b1_proj 0 0 0 + xsObject.evol_b1_proj 0 1 0 +
              xsObject.evol_b1_proj 0 2 0)
            (xsObject.rho e2 0) ∧
    InteractionsRho exampleExt.toSUOps
        (rhoUpd (fun e r => (2 : ℚ) • negativeObject.rho e r + (3 : ℚ) • pairObject.rho e r)
          xsObject) 0 0 =
      (2 : ℚ) • InteractionsRho exampleExt.toSUOps (rhoUpd negativeObject.rho xsObject) 0 0 +
        (3 : ℚ) • InteractionsRho exampleExt.toSUOps (rhoUpd pairObject.rho xsObject) 0 0 :=
  ⟨(InteractionsRho_regeneration exampleExt.toSUOps xsObject 1 0 rfl).2.2.2 rfl,
   (InteractionsRho_regeneration exampleExt.toSUOps xsObject 0 0 rfl).1,
   (InteractionsRho_regeneration exampleExt.toSUOps xsObject 0 0 rfl).2.2.1
     exampleExt_ACommLinear 2 3 negativeObject.rho pairObject.rho⟩

/-- C26: with interactions disabled, `GammaRho` and `InteractionsRho` return the zero vector
and `InteractionsScalar` returns 0 for every node and channel, whatever the state and the
interaction tables hold; `GammaScalar` returns 0 in every configuration. -/
theorem no_incoherent_terms_without_interactions (ops : SUOps) (s : NuSQUIDS) (ei rho : Nat) :
    (s.iinteraction = false →
      GammaRho s ei rho = 0 ∧ InteractionsRho ops s ei rho = 0 ∧
        InteractionsScalar ops s ei rho = 0) ∧
    GammaScalar s ei rho = 0 := by
  refine ⟨fun h => ⟨?_, ?_, ?_⟩, rfl⟩
  · simp [GammaRho, h]
  · simp [InteractionsRho, h]
  · simp [InteractionsScalar, h]

/-- Witness for C26: the sample object has interactions disabled; its three terms vanish at
node 0, channel 0. -/
theorem no_incoherent_terms_without_interactions_witness :
    GammaRho exampleObject 0 0 = 0 ∧ InteractionsRho exampleExt.toSUOps exampleObject 0 0 = 0 ∧
      InteractionsScalar exampleExt.toSUOps exampleObject 0 0 = 0 :=
  (no_incoherent_terms_without_interactions exampleExt.toSUOps exampleObject 0 0).1 rfl

/-! ## The dimensions that `init` records -/

theorem initEnergyArrays_dims (ext : External) (Emin Emax : ℚ) (Esize : Nat) (xini : ℚ)
    (s3 : NuSQUIDS) :
    (initEnergyArrays ext Emin Emax Esize xini s3).nsun = s3.numneu ∧
    (initEnergyArrays ext Emin Emax Esize xini s3).nrhos = s3.nrhos ∧
    (initEnergyArrays ext Emin Emax Esize xini s3).nscalars =
      (if s3.iinteraction then s3.nrhos else 0) ∧
    (initEnergyArrays ext Emin Emax Esize xini s3).NT = s3.NT ∧
    (initEnergyArrays ext Emin Emax Esize xini s3).iinteraction = s3.iinteraction := by
  unfold initEnergyArrays
  simp only [delE_loop, SetScalarsToZero_eq, scalarUpd, ini]
  refine ⟨?_, ?_, ?_, ?_, ?_⟩
  · split <;> split <;> rfl
  · split <;> split <;> rfl
  · split <;> split <;> simp_all
  · split <;> split <;> rfl
  · split <;> split <;> rfl

/-- The dimensions of the object that the multi-energy `init` returns. -/
theorem init_dims (ext : External) (Emin Emax : ℚ) (Esize : Nat) (ii : Bool) (xini : ℚ)
    (s : NuSQUIDS) (hNT : s.NT = .neutrino ∨ s.NT = .antineutrino ∨ s.NT = .both)
    (hmax : ¬ s.numneu > ext.SQUIDS_MAX_HILBERT_DIM) (hE : ¬ Emax < Emin) (hS : Esize ≠ 0)
    (h2 : 2 ≤ s.numneu) :
    ∃ t, init ext Emin Emax Esize ii xini s = .ok t ∧ t.numneu = s.numneu ∧
      t.nsun = s.numneu ∧ t.ne = Esize ∧ t.NT = s.NT ∧ t.iinteraction = s.iinteraction ∧
      t.nrhos = (if s.NT = .both then 2 else 1) ∧
      t.nscalars = (if s.iinteraction then (if s.NT = .both then 2 else 1) else 0) ∧
      t.delE.extent0 = Esize - 1 := by
  obtain ⟨a1, a2, a3, a4, a5⟩ := initEnergyArrays_spec ext Emin Emax Esize xini
    { s with nrhos := if s.NT = .both then 2 else 1, nsun := s.numneu, ne := Esize }
  obtain ⟨b1, b2, b3, b4, b5⟩ := initEnergyArrays_dims ext Emin Emax Esize xini
    { s with nrhos := if s.NT = .both then 2 else 1, nsun := s.numneu, ne := Esize }
  obtain ⟨t5, e5, k5, f5⟩ := Set_MixingParametersToDefault_kept
    (initEnergyArrays ext Emin Emax Esize xini
      { s with nrhos := if s.NT = .both then 2 else 1, nsun := s.numneu, ne := Esize })
    (by rw [a1]; exact h2)
  obtain ⟨t6, e6, k6⟩ := iniProjectors_kept ext.toSUOps t5
  have k7 := Kept_trans _ _ _ k6 (initTail_kept ext ii t6)
  have k := Kept_trans _ _ _ k5 k7
  obtain ⟨c1, c2, c3, c4, c5, c6, c7, _, _, c10, c11, _⟩ := k
  refine ⟨initTail ext ii t6, ?_, c1.trans a1, c4.trans b1, c2.trans a2, c6.trans b4,
    c7.trans b5, c3.trans b2, c5.trans b3, ?_⟩
  · unfold init
    have hS2 : ¬ Esize ≤ 0 := by omega
    simp only [hNT, not_true_eq_false, if_false, hmax, hE, hS2]
    rw [e5, andThen_ok _ _ t5 rfl, e6, andThen_ok _ _ t6 rfl]
  · rw [c10]; exact a4

/-! ## Tau conversion: idempotence and the storage it reads -/

theorem ConvertTauIntoNuTau_eq (s : NuSQUIDS) :
    ConvertTauIntoNuTau s =
      scalarUpd (fun e r => if r < s.nscalars ∧ e < s.ne then 0 else s.scalar e r)
        (rhoUpd (fun e r => if e < s.ne ∧ (r = 0 ∨ r = 1) then s.rho e r + tauIncrement s e r
          else s.rho e r) s) := by
  unfold ConvertTauIntoNuTau
  rw [convertTau_loop, SetScalarsToZero_eq]
  rfl

theorem ConvertTauIntoNuTau_rho0 (s : NuSQUIDS) (e1 : Nat) (h : e1 < s.ne) :
    (ConvertTauIntoNuTau s).rho e1 0 = s.rho e1 0 +
      (tauAll s 0 e1 • s.evol_b1_proj 0 2 e1 + tauLep s 1 e1 • s.evol_b1_proj 0 0 e1 +
        tauLep s 1 e1 • s.evol_b1_proj 0 1 e1) := by
  obtain ⟨t1, _, _, t4⟩ := tauSums_eq s e1 h
  rw [ConvertTauIntoNuTau_eq]
  show (if e1 < s.ne ∧ ((0 : Nat) = 0 ∨ (0 : Nat) = 1) then s.rho e1 0 + tauIncrement s e1 0
    else s.rho e1 0) = _
  rw [if_pos ⟨h, Or.inl rfl⟩]
  unfold tauIncrement
  rw [if_pos rfl, t1, t4]

/-- The sum that `InteractionsScalar` accumulates. -/
theorem InteractionsScalar_eq (ops : SUOps) (s : NuSQUIDS) (ei r : Nat)
    (hi : s.iinteraction = true) :
    InteractionsScalar ops s ei r =
      ∑ e2 in Finset.Ico (ei + 1) s.ne,
        ops.inner (s.evol_b1_proj r 2 e2) (s.rho e2 r) * s.invlen_CC r 2 e2 *
          s.dNdE_CC r 2 e2 ei * s.delE.data e2 := by
  unfold InteractionsScalar
  simp only [hi, Bool.not_true, Bool.false_eq_true, if_false]
  exact forEach_sum_Ico _ _ _

/-- At the node below the highest one, `InteractionsScalar` reads the width at the index
`ne - 1`. -/
theorem InteractionsScalar_below_top (ops : SUOps) (s : NuSQUIDS) (r : Nat)
    (hi : s.iinteraction = true) (hn : 2 ≤ s.ne) :
    InteractionsScalar ops s (s.ne - 2) r =
      ops.inner (s.evol_b1_proj r 2 (s.ne - 1)) (s.rho (s.ne - 1) r) *
        s.invlen_CC r 2 (s.ne - 1) * s.dNdE_CC r 2 (s.ne - 1) (s.ne - 2) *
        s.delE.data (s.ne - 1) := by
  rw [InteractionsScalar_eq ops s _ r hi]
  have e : s.ne - 2 + 1 = s.ne - 1 := by omega
  have e2 : Finset.Ico (s.ne - 1) s.ne = {s.ne - 1} := by
    ext k
    simp only [Finset.mem_Ico, Finset.mem_singleton]
    omega
  rw [e, e2, Finset.sum_singleton]

/-- C22, the code at a failing input: `init` with two nodes leaves a width array of one entry,
`delE[0]`, yet `InteractionsScalar(0, 0)` and `ConvertTauIntoNuTau` read `delE[1]`: two
two-node objects that agree on `delE[0]` and on everything else and differ only in what lies
at index 1 give different results. -/
theorem node_width_read_past_extent :
    (∃ t, init exampleExt 1 2 2 true 0 interactingSeed = .ok t ∧ t.ne = 2 ∧
      t.iinteraction = true ∧ t.delE.extent0 = 1) ∧
    (widthObject 1).ne = 2 ∧ (widthObject 1).delE.extent0 = 1 ∧
    (widthObject 1).delE.data 0 = (widthObject 7).delE.data 0 ∧
    InteractionsScalar exampleExt.toSUOps (widthObject 1) 0 0 = 1 ∧
    InteractionsScalar exampleExt.toSUOps (widthObject 7) 0 0 = 7 ∧
    (ConvertTauIntoNuTau (widthObject 1)).rho 0 0 2 = 5 / 2 ∧
    (ConvertTauIntoNuTau (widthObject 7)).rho 0 0 2 = 23 / 2 := by
  refine ⟨?_, rfl, rfl, rfl, ?_, ?_, ?_, ?_⟩
  · obtain ⟨t, h1, _, _, h4, _, h6, _, _, h9⟩ := init_dims exampleExt 1 2 2 true 0 interactingSeed
      (Or.inr (Or.inr rfl)) (by decide) (by norm_num) (by decide) (by decide)
    exact ⟨t, h1, h4, h6, h9⟩
  · rw [InteractionsScalar_eq _ _ _ _ rfl]
    norm_num [widthObject, gridObject, tauObject, exampleObject, exampleExt,
      Finset.sum_Ico_eq_sum_range, Finset.sum_range_succ]
  · rw [InteractionsScalar_eq _ _ _ _ rfl]
    norm_num [widthObject, gridObject, tauObject, exampleObject, exampleExt,
      Finset.sum_Ico_eq_sum_range, Finset.sum_range_succ]
  · rw [ConvertTauIntoNuTau_rho0 (widthObject 1) 0 (by decide)]
    norm_num [tauAll, tauLep, widthObject, gridObject, tauObject, exampleObject,
      Finset.sum_Ico_eq_sum_range, Finset.sum_range_succ]
  · rw [ConvertTauIntoNuTau_rho0 (widthObject 7) 0 (by decide)]
    norm_num [tauAll, tauLep, widthObject, gridObject, tauObject, exampleObject,
      Finset.sum_Ico_eq_sum_range, Finset.sum_range_succ]

/-! ## Tau regeneration and its storage -/

/-- C23, the code at a failing input: `init` in mode `both` without interactions returns an
object with no scalars (`nscalars = 0`), and `Set_TauRegeneration(true)` accepts it, as it
accepts every object in mode `both`; `ConvertTauIntoNuTau`, which `EvolveState` then calls,
reads `state[1].scalar[0]` all the same: two objects without scalars that differ only in what
lies there end with different density matrices. -/
theorem tau_regeneration_accepted_without_storage :
    (∃ t, init exampleExt 1 2 2 false 0 bareSeed = .ok t ∧ t.NT = .both ∧
      t.iinteraction = false ∧ t.nscalars = 0 ∧ t.ne = 2 ∧
      Set_TauRegeneration true t = .ok { t with tauregeneration := true }) ∧
    (∀ s : NuSQUIDS, s.NT = .both →
      Set_TauRegeneration true s = .ok { s with tauregeneration := true }) ∧
    (bareObject 0).nscalars = 0 ∧ (bareObject 3).nscalars = 0 ∧
    (ConvertTauIntoNuTau (bareObject 0)).rho 0 0 2 = 0 ∧
    (ConvertTauIntoNuTau (bareObject 3)).rho 0 0 2 = 3 / 2 := by
  have hset : ∀ s : NuSQUIDS, s.NT = .both →
      Set_TauRegeneration true s = .ok { s with tauregeneration := true } := by
    intro s h
    simp [Set_TauRegeneration, h]
  refine ⟨?_, hset, rfl, rfl, ?_, ?_⟩
  · obtain ⟨t, h1, _, _, h4, h5, h6, _, h8, _⟩ := init_dims exampleExt 1 2 2 false 0 bareSeed
      (Or.inr (Or.inr rfl)) (by decide) (by norm_num) (by decide) (by decide)
    exact ⟨t, h1, h5, h6, h8, h4, hset t h5⟩
  · rw [ConvertTauIntoNuTau_rho0 (bareObject 0) 0 (by decide)]
    norm_num [tauAll, tauLep, bareObject, gridObject, tauObject, exampleObject,
      Finset.sum_Ico_eq_sum_range, Finset.sum_range_succ]
  · rw [ConvertTauIntoNuTau_rho0 (bareObject 3) 0 (by decide)]
    norm_num [tauAll, tauLep, bareObject, gridObject, tauObject, exampleObject,
      Finset.sum_Ico_eq_sum_range, Finset.sum_range_succ]

/-! ## What `PreDerive` writes -/

theorem EvolveProjectors_upd (ops : SUOps) (x : ℚ) (s : NuSQUIDS) :
    ∃ eb, EvolveProjectors ops x s =
      preDeriveUpd s.track eb s.invlen_NC s.invlen_CC s.invlen_INT s.progressbar_count s := by
  unfold EvolveProjectors
  apply forEach_closed _ (fun t => ∃ eb, t =
    preDeriveUpd s.track eb s.invlen_NC s.invlen_CC s.invlen_INT s.progressbar_count s)
  · exact ⟨s.evol_b1_proj, rfl⟩
  · intro rho a _ _ ha
    apply forEach_closed _ (fun t => ∃ eb, t =
      preDeriveUpd s.track eb s.invlen_NC s.invlen_CC s.invlen_INT s.progressbar_count s)
    · exact ha
    · intro flv b _ _ hb
      apply forEach_closed _ (fun t => ∃ eb, t =
        preDeriveUpd s.track eb s.invlen_NC s.invlen_CC s.invlen_INT s.progressbar_count s)
      · exact hb
      · rintro ei c _ _ ⟨eb, rfl⟩
        exact ⟨_, rfl⟩

theorem UpdateInteractions_upd (med : Medium) (s : NuSQUIDS) :
    ∃ nc cc it, UpdateInteractions med s =
      preDeriveUpd s.track s.evol_b1_proj nc cc it s.progressbar_count s := by
  unfold UpdateInteractions
  apply forEach_closed _ (fun t => ∃ nc cc it, t =
    preDeriveUpd s.track s.evol_b1_proj nc cc it s.progressbar_count s)
  · exact ⟨s.invlen_NC, s.invlen_CC, s.invlen_INT, rfl⟩
  · intro rho a _ _ ha
    apply forEach_closed _ (fun t => ∃ nc cc it, t =
      preDeriveUpd s.track s.evol_b1_proj nc cc it s.progressbar_count s)
    · exact ha
    · intro flv b _ _ hb
      apply forEach_closed _ (fun t => ∃ nc cc it, t =
        preDeriveUpd s.track s.evol_b1_proj nc cc it s.progressbar_count s)
      · exact hb
      · rintro ei c _ _ ⟨nc, cc, it, rfl⟩
        exact ⟨_, _, _, rfl⟩

/-- The members that `PreDerive(x)` writes: the track position becomes `x - time_offset`, the
evolved flavor projectors and the inverse lengths may change, the counter advances. -/
theorem PreDerive_upd (ops : SUOps) (med : Medium) (x : ℚ) (s : NuSQUIDS) :
    ∃ eb nc cc it, PreDerive ops med x s =
      preDeriveUpd (s.track.map (fun tr => tr.SetX (x - s.time_offset))) eb nc cc it
        (s.progressbar_count + 1) s := by
  unfold PreDerive
  lift_lets
  intro s1 s2 s3
  have h1 : s1 = preDeriveUpd (s.track.map (fun tr => tr.SetX (x - s.time_offset)))
      s.evol_b1_proj s.invlen_NC s.invlen_CC s.invlen_INT s.progressbar_count s := rfl
  have h2 : ∃ eb, s2 = preDeriveUpd (s.track.map (fun tr => tr.SetX (x - s.time_offset)))
      eb s.invlen_NC s.invlen_CC s.invlen_INT s.progressbar_count s := by
    show ∃ eb, (if s1.basis ≠ .mass then EvolveProjectors ops x s1 else s1) = _
    split
    · obtain ⟨eb, h⟩ := EvolveProjectors_upd ops x s1
      exact ⟨eb, by rw [h, h1]; rfl⟩
    · exact ⟨_, h1⟩
  obtain ⟨eb, h2⟩ := h2
  have h3 : ∃ nc cc it, s3 = preDeriveUpd (s.track.map (fun tr => tr.SetX (x - s.time_offset)))
      eb nc cc it s.progressbar_count s := by
    show ∃ nc cc it, (if s2.iinteraction then UpdateInteractions med s2 else s2) = _
    split
    · obtain ⟨nc, cc, it, h⟩ := UpdateInteractions_upd med s2
      exact ⟨nc, cc, it, by rw [h, h2]; rfl⟩
    · exact ⟨_, _, _, h2⟩
  obtain ⟨nc, cc, it, h3⟩ := h3
  exact ⟨eb, nc, cc, it, by rw [h3]; rfl⟩

/-- The track position after `PreDerive(x)`. -/
theorem PreDerive_position (ops : SUOps) (med : Medium) (x : ℚ) (s : NuSQUIDS) (tr : Track)
    (h : s.track = some tr) :
    (trackOf (PreDerive ops med x s)).GetX = x - s.time_offset := by
  obtain ⟨eb, nc, cc, it, e⟩ := PreDerive_upd ops med x s
  rw [e]
  simp [trackOf, preDeriveUpd, h, Track.GetX, Track.SetX]

/-! ## The full Hamiltonian -/

/-- The value of `GetHamiltonian(ei, rho)` in terms of the matter potential `V` without vacuum
term, on the object `s1` that `PreDerive` leaves: outside the mass basis it is `H0 + V` for the
neutrino channel and `H0 - V` for the antineutrino channel; in the mass basis the vacuum term
stored in `H0_array[ei]` comes in once more, with the sign of the channel. -/
theorem GetHamiltonian_value (ops : SUOps) (med : Medium) (s : NuSQUIDS) (ei rho : Nat)
    (he : s.ienergy = true) :
    ((s.NT = .neutrino ∧ rho = 0) ∨ (s.NT = .both ∧ rho = 0) →
      (GetHamiltonian ops med s ei rho).1 =
        .ok (H0 (GetHamiltonian ops med s ei rho).2
            ((GetHamiltonian ops med s ei rho).2.E_range.data ei) rho +
          (if s.basis = .mass then
            flavorPotential med (GetHamiltonian ops med s ei rho).2 ei rho +
              (GetHamiltonian ops med s ei rho).2.H0_array ei
           else flavorPotential med (GetHamiltonian ops med s ei rho).2 ei rho))) ∧
    ((s.NT = .antineutrino ∧ rho = 0) ∨ (s.NT = .both ∧ rho = 1) →
      (GetHamiltonian ops med s ei rho).1 =
        .ok (H0 (GetHamiltonian ops med s ei rho).2
            ((GetHamiltonian ops med s ei rho).2.E_range.data ei) rho +
          (-1 : ℚ) • (if s.basis = .mass then
            flavorPotential med (GetHamiltonian ops med s ei rho).2 ei rho +
              (GetHamiltonian ops med s ei rho).2.H0_array ei
           else flavorPotential med (GetHamiltonian ops med s ei rho).2 ei rho))) := by
  obtain ⟨eb, nc, cc, it, e⟩ := PreDerive_upd ops med s.t s
  have hb : (PreDerive ops med s.t s).basis = s.basis := by rw [e]; rfl
  have hn : (PreDerive ops med s.t s).NT = s.NT := by rw [e]; rfl
  have hG : GetHamiltonian ops med s ei rho =
      (match HI med (PreDerive ops med s.t s) ei rho with
       | .ok v => (.ok (H0 (PreDerive ops med s.t s)
            ((PreDerive ops med s.t s).E_range.data ei) rho + v), PreDerive ops med s.t s)
       | .error msg => (.error msg, PreDerive ops med s.t s)) := by
    unfold GetHamiltonian
    simp only [he, Bool.not_true, Bool.false_eq_true, if_false, HIx]
  rw [hG]
  clear hG e
  generalize PreDerive ops med s.t s = s1 at hb hn ⊢
  have hW : ∀ u : NuSQUIDS, (let ye := med.ye (bodyOf u) (trackOf u)
      let density := med.density (bodyOf u) (trackOf u)
      let CC := u.params.sqrt2 * u.params.GF * u.params.Na * u.params.cm ^ (-3 : ℤ) * density * ye
      let NC :=
        if ye < 1 / 10 ^ 10 then
          u.params.sqrt2 * u.params.GF * u.params.Na * u.params.cm ^ (-3 : ℤ) * density
        else CC * (((-(1 / 2)) * (1 - ye)) / ye)
      let p0 : SU_vector := (CC + NC) • u.evol_b1_proj rho 0 ei
      let p1 : SU_vector := p0 + NC • u.evol_b1_proj rho 1 ei
      let p2 : SU_vector := p1 + NC • u.evol_b1_proj rho 2 ei
      p2) = flavorPotential med u ei rho := by
    intro u
    unfold flavorPotential
    have hc : u.params.cm ^ (-3 : ℤ) = (u.params.cm ^ 3)⁻¹ := by
      rw [zpow_neg]; norm_cast
    simp only [hc, div_eq_mul_inv]
  have hHI : HI med s1 ei rho =
      (if (rho = 0 ∧ s1.NT = .both) ∨ s1.NT = .neutrino then
        .ok (if s1.basis = .mass then flavorPotential med s1 ei rho + s1.H0_array ei
          else flavorPotential med s1 ei rho)
       else if (rho = 1 ∧ s1.NT = .both) ∨ s1.NT = .antineutrino then
        .ok ((-1 : ℚ) • (if s1.basis = .mass then flavorPotential med s1 ei rho + s1.H0_array ei
          else flavorPotential med s1 ei rho))
       else .error "nuSQUIDS::HI : unknown particle or antiparticle") := by
    have h := hW s1
    unfold HI
    simp only at h ⊢
    rw [h]
  rw [hHI, hb, hn]
  constructor
  · rintro (⟨h1, h2⟩ | ⟨h1, h2⟩)
    · simp [h1]
    · simp [h1, h2]
  · rintro (⟨h1, h2⟩ | ⟨h1, h2⟩)
    · simp [h1]
    · simp [h1, h2]

/-- C24, the code at a failing input: in the mass basis, where `HI` already holds the vacuum
term `H0_array[ei]`, `GetHamiltonian` adds `H0(E[ei])` once more. On the mass-basis sample
object (vacuum term 1 and matter potential -1/2 in component 1) the neutrino channel gets
3/2 where `H0 + V` is 1/2, and in mode `antineutrino` the vacuum term cancels: the result is
1/2 where `H0 - V` is 3/2. In the interaction basis the same object gets `H0 + V`. -/
theorem GetHamiltonian_mass_basis_vacuum_twice :
    (iniH0 massObject).DM2 = massObject.DM2 ∧
    (iniH0 massObject).H0_array 0 = massObject.H0_array 0 ∧
    (GetHamiltonian exampleExt.toSUOps exampleMedium massObject 0 0).1.map (fun v => v 1) =
      .ok (3 / 2) ∧
    (H0 (GetHamiltonian exampleExt.toSUOps exampleMedium massObject 0 0).2 1 0 +
      flavorPotential exampleMedium
        (GetHamiltonian exampleExt.toSUOps exampleMedium massObject 0 0).2 0 0) 1 = 1 / 2 ∧
    (GetHamiltonian exampleExt.toSUOps exampleMedium
      { massObject with NT := .antineutrino } 0 0).1.map (fun v => v 1) = .ok (1 / 2) ∧
    (H0 { massObject with NT := .antineutrino } 1 0 +
      (-1 : ℚ) • flavorPotential exampleMedium { massObject with NT := .antineutrino } 0 0) 1 =
        3 / 2 ∧
    (GetHamiltonian exampleExt.toSUOps exampleMedium
      { massObject with basis := .interaction } 0 0).1.map (fun v => v 1) = .ok (1 / 2) := by
  refine ⟨?_, ?_, ?_, ?_, ?_, ?_, ?_⟩
  · funext k
    simp [iniH0, forEach, iterFrom, massObject, exampleObject, exampleConst,
      Const.SetEnergyDifference, Const.GetEnergyDifference]
  · funext k
    simp [iniH0, forEach, iterFrom, massObject, exampleObject, exampleConst,
      Const.SetEnergyDifference, Const.GetEnergyDifference, H0]
  · norm_num [GetHamiltonian, PreDerive, HIx, HI, H0, massObject, exampleObject, exampleConst,
      exampleMedium, trackSetX, Except.map, Const.SetEnergyDifference]
  · norm_num [GetHamiltonian, PreDerive, HIx, HI, H0, flavorPotential, massObject, exampleObject,
      exampleConst, exampleMedium, trackSetX, Const.SetEnergyDifference]
  · simp +decide [GetHamiltonian, PreDerive, HIx, HI, H0, massObject, exampleObject, exampleConst,
      exampleMedium, trackSetX, Except.map, Const.SetEnergyDifference]
    norm_num
  · norm_num [H0, flavorPotential, massObject, exampleObject,
      exampleConst, exampleMedium, Const.SetEnergyDifference]
  · simp +decide [GetHamiltonian, PreDerive, HIx, HI, H0, massObject, exampleObject, exampleConst,
      exampleMedium, trackSetX, Except.map, Const.SetEnergyDifference, EvolveProjectors,
      forEach, iterFrom, setEvolB1, exampleExt]
    norm_num

/-! ## The composition tables of a written state -/

theorem pairObject_composition :
    writeComposition exampleExt.toSUOps pairObject =
      .ok { flavor := [1, 0, 0, 1, 0, 0], mass := [1, 0, 0, 1, 0, 0] } := by
  simp +decide [writeComposition, pushComposition, forLoop, loopFrom, Outcome.andThen,
    EvalFlavorAtNode, EvalMassAtNode, GetExpectationValue, pairObject, exampleObject, exampleExt]

/-- The two composition datasets that `WriteStateHDF5` leaves for the two-channel sample
object. -/
theorem pairObject_written :
    (WriteStateHDF5 exampleExt pairObject emptyFile "/" false "").map
      (fun f => (f.data "/" "flavorcomp", f.data "/" "masscomp")) =
      .ok (fun k => [1, 0, 0, 1, 0, 0].getD k 0, fun k => [1, 0, 0, 1, 0, 0].getD k 0) := by
  unfold WriteStateHDF5
  rw [pairObject_composition]
  have h1 : pairObject.body.isNone = false := rfl
  have h2 : pairObject.ibody = true := rfl
  have h3 : pairObject.track.isNone = false := rfl
  have h4 : pairObject.itrack = true := rfl
  have h5 : pairObject.istate = true := rfl
  have h6 : pairObject.ienergy = true := rfl
  have h7 : pairObject.iinteraction = false := rfl
  have h8 : (trackOf pairObject).params.length = 2 := rfl
  have h9 : (pairObject.body.getD { id := 0, name := "", params := [] }).params.length = 0 := rfl
  simp only [h1, h2, h3, h4, h5, h6, h7, h8, h9, Bool.not_true, Bool.not_false,
    Bool.false_eq_true, if_false, if_true, false_and]
  simp [Except.map, H5File.make_dataset, H5File.make_empty_dataset,
    H5File.set_attribute_double, H5File.set_attribute_int, H5File.set_attribute_string]

/-- C25, the code at a failing input: in mode `both` the antineutrino columns of `flavorcomp`
and `masscomp` are computed from channel 0 again. The sample object holds the electron
projector as neutrino density matrix and the muon projector as antineutrino density matrix;
the columns 3, 4, 5 of row 0 of both datasets hold 1, 0, 0, the values of
`EvalFlavorAtNode(i, 0, 0)` and `EvalMassAtNode(i, 0, 0)`, where `EvalFlavorAtNode(i, 0, 1)`
and `EvalMassAtNode(i, 0, 1)` are 0, 1, 0. -/
theorem composition_tables_repeat_neutrino_channel :
    pairObject.NT = .both ∧ pairObject.numneu = 3 ∧
    (WriteStateHDF5 exampleExt pairObject emptyFile "/" false "").map
      (fun f => [f.data "/" "flavorcomp" 3, f.data "/" "flavorcomp" 4,
        f.data "/" "flavorcomp" 5]) = .ok [1, 0, 0] ∧
    (WriteStateHDF5 exampleExt pairObject emptyFile "/" false "").map
      (fun f => [f.data "/" "masscomp" 3, f.data "/" "masscomp" 4,
        f.data "/" "masscomp" 5]) = .ok [1, 0, 0] ∧
    [EvalFlavorAtNode exampleExt.toSUOps pairObject 0 0 0,
      EvalFlavorAtNode exampleExt.toSUOps pairObject 1 0 0,
      EvalFlavorAtNode exampleExt.toSUOps pairObject 2 0 0] = [.ok 1, .ok 0, .ok 0] ∧
    [EvalMassAtNode exampleExt.toSUOps pairObject 0 0 0,
      EvalMassAtNode exampleExt.toSUOps pairObject 1 0 0,
      EvalMassAtNode exampleExt.toSUOps pairObject 2 0 0] = [.ok 1, .ok 0, .ok 0] ∧
    [EvalFlavorAtNode exampleExt.toSUOps pairObject 0 0 1,
      EvalFlavorAtNode exampleExt.toSUOps pairObject 1 0 1,
      EvalFlavorAtNode exampleExt.toSUOps pairObject 2 0 1] = [.ok 0, .ok 1, .ok 0] ∧
    [EvalMassAtNode exampleExt.toSUOps pairObject 0 0 1,
      EvalMassAtNode exampleExt.toSUOps pairObject 1 0 1,
      EvalMassAtNode exampleExt.toSUOps pairObject 2 0 1] = [.ok 0, .ok 1, .ok 0] := by
  have hw := pairObject_written
  refine ⟨rfl, rfl, ?_, ?_, ?_, ?_, ?_, ?_⟩
  · cases hf : WriteStateHDF5 exampleExt pairObject emptyFile "/" false "" with
    | error e => rw [hf] at hw; simp [Except.map] at hw
    | ok f =>
      rw [hf] at hw
      simp only [Except.map, Except.ok.injEq, Prod.mk.injEq] at hw ⊢
      simp [hw.1]
  · cases hf : WriteStateHDF5 exampleExt pairObject emptyFile "/" false "" with
    | error e => rw [hf] at hw; simp [Except.map] at hw
    | ok f =>
      rw [hf] at hw
      simp only [Except.map, Except.ok.injEq, Prod.mk.injEq] at hw ⊢
      simp [hw.2]
  · simp +decide [EvalFlavorAtNode, GetExpectationValue, pairObject, exampleObject, exampleExt]
  · simp +decide [EvalMassAtNode, GetExpectationValue, pairObject, exampleObject, exampleExt]
  · simp +decide [EvalFlavorAtNode, GetExpectationValue, pairObject, exampleObject, exampleExt]
  · simp +decide [EvalMassAtNode, GetExpectationValue, pairObject, exampleObject, exampleExt]

/-! ## Flavor indices -/

/-- C29, the code at a failing input: `init` accepts two flavors, and `HI`, `GammaRho`,
`InteractionsRho` and `InteractionsScalar` read the flavor index 2 all the same: two two-flavor
objects that differ only in what lies at `evol_b1_proj[rho][2][e]` give different values of all
four members. -/
theorem flavor_index_two_read_with_two_flavors :
    (∃ t, init exampleExt 1 2 2 true 0 twoFlavorSeed = .ok t ∧ t.numneu = 2 ∧ t.nsun = 2 ∧
      t.iinteraction = true) ∧
    (twoFlavorObject 0).numneu = 2 ∧ (twoFlavorObject 1).numneu = 2 ∧
    (HI exampleMedium (twoFlavorObject 0) 0 0).map (fun v => v 0) = .ok (1 / 2) ∧
    (HI exampleMedium (twoFlavorObject 1) 0 0).map (fun v => v 0) = .ok 0 ∧
    GammaRho (twoFlavorObject 0) 0 0 0 = 1 / 2 ∧
    GammaRho (twoFlavorObject 1) 0 0 0 = 1 ∧
    InteractionsRho exampleExt.toSUOps (twoFlavorObject 0) 0 0 0 = 1 ∧
    InteractionsRho exampleExt.toSUOps (twoFlavorObject 1) 0 0 0 = 2 ∧
    InteractionsScalar exampleExt.toSUOps (twoFlavorObject 0) 0 0 = 0 ∧
    InteractionsScalar exampleExt.toSUOps (twoFlavorObject 1) 0 0 = 3 := by
  refine ⟨?_, rfl, rfl, ?_, ?_, ?_, ?_, ?_, ?_, ?_, ?_⟩
  · obtain ⟨t, h1, h2, h3, _, _, h6, _⟩ := init_dims exampleExt 1 2 2 true 0 twoFlavorSeed
      (Or.inr (Or.inr rfl)) (by decide) (by norm_num) (by decide) (by decide)
    exact ⟨t, h1, h2, h3, h6⟩
  · simp +decide [HI, twoFlavorObject, gridObject, tauObject, exampleObject, exampleConst,
      exampleMedium, Except.map]
    norm_num
  · simp +decide [HI, twoFlavorObject, gridObject, tauObject, exampleObject, exampleConst,
      exampleMedium, Except.map]
    norm_num
  · norm_num [GammaRho, twoFlavorObject, gridObject, tauObject, exampleObject]
  · norm_num [GammaRho, twoFlavorObject, gridObject, tauObject, exampleObject]
  · rw [InteractionsRho_eq _ _ _ _ rfl]
    norm_num [twoFlavorObject, gridObject, tauObject, exampleObject, exampleExt,
      Finset.sum_Ico_eq_sum_range, Finset.sum_range_succ]
  · rw [InteractionsRho_eq _ _ _ _ rfl]
    norm_num [twoFlavorObject, gridObject, tauObject, exampleObject, exampleExt,
      Finset.sum_Ico_eq_sum_range, Finset.sum_range_succ]
  · rw [InteractionsScalar_eq _ _ _ _ rfl]
    norm_num [twoFlavorObject, gridObject, tauObject, exampleObject, exampleExt,
      Finset.sum_Ico_eq_sum_range, Finset.sum_range_succ]
  · rw [InteractionsScalar_eq _ _ _ _ rfl]
    norm_num [twoFlavorObject, gridObject, tauObject, exampleObject, exampleExt,
      Finset.sum_Ico_eq_sum_range, Finset.sum_range_succ]

/-! ## What a move hands over -/

theorem takeMembers_eq (dest other : NuSQUIDS) :
    takeMembers dest other = { other with time_offset := dest.time_offset } := rfl

/-- C30, the code at a failing input: neither the move constructor nor the move assignment
hands over `time_offset`. After either move every other member of the destination equals the
source's, the source is marked not initialised, and a self move-assignment changes nothing; the
time offset of the destination is the one it had before (for the constructor: whatever its
storage held). With a source whose offset is 5 and a destination whose offset is 0,
`PreDerive(6)` puts the track of the source at 1 and the track of the destination at 6. -/
theorem move_leaves_time_offset_behind :
    (∀ dest src : NuSQUIDS,
      (moveAssign false dest src).self = { src with time_offset := dest.time_offset } ∧
      (moveAssign false dest src).other.inusquids = false) ∧
    (∀ raw src : NuSQUIDS,
      (moveConstruct raw src).self = { src with time_offset := raw.time_offset } ∧
      (moveConstruct raw src).other.inusquids = false) ∧
    (∀ s : NuSQUIDS, (moveAssign true s s).self = s ∧ (moveAssign true s s).other = s) ∧
    shiftedObject.time_offset = 5 ∧
    (moveAssign false exampleObject shiftedObject).self.time_offset = 0 ∧
    (trackOf (PreDerive exampleExt.toSUOps exampleMedium 6 shiftedObject)).GetX = 1 ∧
    (trackOf (PreDerive exampleExt.toSUOps exampleMedium 6
      (moveAssign false exampleObject shiftedObject).self)).GetX = 6 := by
  refine ⟨fun _ _ => ⟨rfl, rfl⟩, fun _ _ => ⟨rfl, rfl⟩, fun _ => ⟨rfl, rfl⟩, rfl, rfl, ?_, ?_⟩
  · rw [PreDerive_position _ _ _ _ _ rfl]
    norm_num [shiftedObject, exampleObject]
  · rw [PreDerive_position _ _ _ _ _ rfl]
    norm_num [moveAssign, takeMembers, squidsMove, exampleObject]

/-! ## The vacuum Hamiltonian and the parameters -/

theorem iniH0_DM2_loop (s : NuSQUIDS) :
    forEach 1 s.nsun (fun i (a : NuSQUIDS) =>
      { a with DM2 := a.DM2 + (a.params.GetEnergyDifference i) • a.b0_proj i })
      { s with DM2 := 0 } =
    h0Upd (∑ i in Finset.Ico 1 s.nsun, s.params.GetEnergyDifference i • s.b0_proj i)
      s.H0_array s := by
  by_cases h : 1 ≤ s.nsun
  · apply forEach_inv _ (fun k (t : NuSQUIDS) => t =
      h0Upd (∑ i in Finset.Ico 1 k, s.params.GetEnergyDifference i • s.b0_proj i) s.H0_array s)
      1 s.nsun _ h
    · simp [h0Upd]
    · intro k t hk _ ht
      subst ht
      simp only [h0Upd]
      rw [Finset.sum_Ico_succ_top hk]
  · have e : s.nsun - 1 = 0 := by omega
    have e2 : Finset.Ico 1 s.nsun = ∅ := Finset.Ico_eq_empty (by omega)
    simp [forEach, e, iterFrom, e2, h0Upd]

theorem iniH0_H0_loop (s : NuSQUIDS) :
    forEach 0 s.ne (fun ei (a : NuSQUIDS) =>
      { a with H0_array := fun k => if k = ei then H0 a (a.E_range.data ei) 0
                 else a.H0_array k }) s =
    h0Upd s.DM2 (fun k => if k < s.ne then ((1 / 2) / s.E_range.data k) • s.DM2
      else s.H0_array k) s := by
  apply forEach_inv _ (fun j (t : NuSQUIDS) => t =
    h0Upd s.DM2 (fun k => if k < j then ((1 / 2) / s.E_range.data k) • s.DM2
      else s.H0_array k) s) 0 s.ne _ (Nat.zero_le _)
  · simp [h0Upd]
  · intro j t _ _ ht
    subst ht
    simp only [h0Upd, H0]
    congr 1
    funext k
    by_cases h1 : k = j
    · subst h1; simp
    · by_cases h2 : k < j
      · have h3 : k < j + 1 := by omega
        simp [h1, h2, h3]
      · have h3 : ¬ k < j + 1 := by omega
        simp [h1, h2, h3]

/-- The member `iniH0` in closed form, with the energy set: the mass-splitting operator is
summed over the indices below `nsun`. -/
theorem iniH0_eq (s : NuSQUIDS) (he : s.ienergy = true) :
    iniH0 s =
      h0Upd (∑ i in Finset.Ico 1 s.nsun, s.params.GetEnergyDifference i • s.b0_proj i)
        (fun k => if k < s.ne then
          ((1 / 2) / s.E_range.data k) •
            ∑ i in Finset.Ico 1 s.nsun, s.params.GetEnergyDifference i • s.b0_proj i
          else s.H0_array k) s := by
  unfold iniH0
  simp only
  rw [iniH0_DM2_loop]
  have h : (h0Upd (∑ i in Finset.Ico 1 s.nsun, s.params.GetEnergyDifference i • s.b0_proj i)
      s.H0_array s).ienergy = true := he
  rw [if_pos h, iniH0_H0_loop]
  rfl

/-- With the energy set and `nsun` equal to `numneu`, `iniH0` leaves a vacuum Hamiltonian that
is consistent with the parameters and the energies. -/
theorem iniH0_consistent (s : NuSQUIDS) (he : s.ienergy = true) (hn : s.nsun = s.numneu) :
    VacuumConsistent (iniH0 s) := by
  rw [iniH0_eq s he, hn]
  refine ⟨rfl, ?_⟩
  intro ei h
  have h2 : ei < s.ne := h
  simp only [h0Upd, h2, if_true]

/-- C27, the code at a failing input: a three-flavor single-energy object on which `init` has
run, with an initial state and `dm31sq = 7`, reads the state that a two-flavor single-energy
object wrote. The read returns with the state flag set and `numneu = 2`; `init` was skipped, so
`nsun` is still 3 and `iniH0` summed the indices 1 and 2: `DM2` holds the splitting 7 of the
third mass state, which the sum over `i` from 1 to `numneu - 1` does not contain. -/
theorem read_keeps_superseded_splitting :
    staleReader.istate = true ∧ VacuumConsistent staleReader ∧
    (writeThenRead exampleExt twoFlavorWriter emptyFile "/" false staleReader).isRaised = false ∧
    (writeThenRead exampleExt twoFlavorWriter emptyFile "/" false staleReader).obj.istate = true ∧
    (writeThenRead exampleExt twoFlavorWriter emptyFile "/" false staleReader).obj.numneu = 2 ∧
    (writeThenRead exampleExt twoFlavorWriter emptyFile "/" false staleReader).obj.nsun = 3 ∧
    (writeThenRead exampleExt twoFlavorWriter emptyFile "/" false staleReader).obj.DM2 1 = 3 ∧
    (writeThenRead exampleExt twoFlavorWriter emptyFile "/" false staleReader).obj.DM2 2 = 7 ∧
    (∑ i in Finset.Ico 1 2,
      (writeThenRead exampleExt twoFlavorWriter emptyFile "/" false
          staleReader).obj.params.GetEnergyDifference i •
        (writeThenRead exampleExt twoFlavorWriter emptyFile "/" false
          staleReader).obj.b0_proj i) 2 = 0 ∧
    ¬ VacuumConsistent
      (writeThenRead exampleExt twoFlavorWriter emptyFile "/" false staleReader).obj := by
  have h5 : (writeThenRead exampleExt twoFlavorWriter emptyFile "/" false
      staleReader).obj.numneu = 2 := rfl
  have hD : (writeThenRead exampleExt twoFlavorWriter emptyFile "/" false staleReader).obj.DM2 =
      (0 : SU_vector) + (3 : ℚ) • exampleObject.b0_proj 1 + (7 : ℚ) • exampleObject.b0_proj 2 :=
    rfl
  have hb : (writeThenRead exampleExt twoFlavorWriter emptyFile "/" false
      staleReader).obj.b0_proj = exampleObject.b0_proj := rfl
  have h7 : (writeThenRead exampleExt twoFlavorWriter emptyFile "/" false
      staleReader).obj.DM2 1 = 3 := by
    rw [hD]
    norm_num [exampleObject]
  have h8 : (writeThenRead exampleExt twoFlavorWriter emptyFile "/" false
      staleReader).obj.DM2 2 = 7 := by
    rw [hD]
    norm_num [exampleObject]
  have h9 : (∑ i in Finset.Ico 1 2,
      (writeThenRead exampleExt twoFlavorWriter emptyFile "/" false
          staleReader).obj.params.GetEnergyDifference i •
        (writeThenRead exampleExt twoFlavorWriter emptyFile "/" false
          staleReader).obj.b0_proj i) 2 = 0 := by
    rw [hb, Finset.sum_Ico_eq_sum_range]
    norm_num [Finset.sum_range_succ, exampleObject]
  refine ⟨rfl, ⟨?_, ?_⟩, rfl, rfl, h5, rfl, h7, h8, h9, ?_⟩
  · funext k
    have e : Finset.Ico 1 staleReader.numneu = {1, 2} := by decide
    rw [e]
    by_cases h1 : k = 1
    · subst h1
      norm_num [staleReader, exampleObject, exampleConst, Const.SetEnergyDifference,
        Const.GetEnergyDifference]
    · by_cases h2 : k = 2
      · subst h2
        norm_num [staleReader, exampleObject, exampleConst, Const.SetEnergyDifference,
          Const.GetEnergyDifference]
      · norm_num [staleReader, exampleObject, exampleConst, Const.SetEnergyDifference,
          Const.GetEnergyDifference, h1, h2]
  · intro ei hei
    funext k
    by_cases h2 : k = 2
    · subst h2
      norm_num [staleReader, exampleObject]
    · norm_num [staleReader, exampleObject, h2]
  · intro h
    have h1 := congrFun h.1 2
    rw [h5, h9, h8] at h1
    norm_num at h1


/-! ## Kernel entries and the non-finite values of a double -/

/-- On finite values the assignment of the third block stores what the kernels over the
rationals hold: zero below the threshold, the quotient otherwise. -/
theorem dNdEEntry_fin (q σ : ℚ) (h : σ ≠ 0) :
    dNdEEntry (.fin q) (.fin σ) = .fin (if q < 1 / 10 ^ 50 then 0 else q / σ) := by
  by_cases hq : q < 1 / 10 ^ 50
  · have hq2 := hq
    simp only [one_div] at hq2
    simp [dNdEEntry, Dbl.lt, hq2]
  · have hq2 := hq
    simp only [one_div] at hq2
    simp [dNdEEntry, Dbl.lt, Dbl.ne, Dbl.div, hq2, h]

/-- C20, the code at a failing input: the test of the third block, `x < 1.0e-50 or x != x`,
singles out the values below the threshold, `-inf` and not-a-number, and lets `+inf` through.
For a differential cross section `+inf` and the total cross section 1 the stored kernel entry is
`+inf / 1 = +inf`: it is not 0 and it is not finite, with a positive total cross section. The
other non-finite values are stored as 0 and finite values are stored as the claim says. -/
theorem kernel_entry_keeps_positive_infinity :
    dNdEEntry .pinf (.fin 1) = .pinf ∧
    Dbl.isFinite (dNdEEntry .pinf (.fin 1)) = false ∧
    dNdEEntry .pinf (.fin 1) ≠ .fin 0 ∧
    dNdEEntry .nan (.fin 1) = .fin 0 ∧
    dNdEEntry .ninf (.fin 1) = .fin 0 ∧
    dNdEEntry (.fin (1 / 10 ^ 51)) (.fin 1) = .fin 0 ∧
    dNdEEntry (.fin 3) (.fin 2) = .fin (3 / 2) := by
  have h : dNdEEntry .pinf (.fin 1) = .pinf := by
    simp [dNdEEntry, Dbl.lt, Dbl.ne, Dbl.div]
  refine ⟨h, ?_, ?_, ?_, ?_, ?_, ?_⟩
  · rw [h]; rfl
  · rw [h]; simp
  · simp [dNdEEntry, Dbl.lt, Dbl.ne]
  · simp [dNdEEntry, Dbl.lt, Dbl.ne]
  · rw [dNdEEntry_fin _ _ (by norm_num)]
    norm_num
  · rw [dNdEEntry_fin _ _ (by norm_num)]
    norm_num

/-- The kernels over the rationals are the finite case of the assignment on doubles: for a
total cross section other than zero, the pair `kernelEntry` holds what `dNdEEntry` stores for
the neutral-current and the charged-current entry. -/
theorem kernelEntry_finite_case (w : InteractionsWork) (x : Idx4)
    (hn : w.self.sigma_NC x.1 x.2.1 x.2.2.1 ≠ 0) (hc : w.self.sigma_CC x.1 x.2.1 x.2.2.1 ≠ 0) :
    dNdEEntry (.fin (w.dsignudE_NC x.1 x.2.1 x.2.2.1 x.2.2.2))
        (.fin (w.self.sigma_NC x.1 x.2.1 x.2.2.1)) = .fin (kernelEntry w x).1 ∧
    dNdEEntry (.fin (w.dsignudE_CC x.1 x.2.1 x.2.2.1 x.2.2.2))
        (.fin (w.self.sigma_CC x.1 x.2.1 x.2.2.1)) = .fin (kernelEntry w x).2 :=
  ⟨dNdEEntry_fin _ _ hn, dNdEEntry_fin _ _ hc⟩

/-! ## The channel count after `init` -/

/-- The object that the multi-energy `init` returns has a single channel unless its particle
type is `both`. -/
theorem init_channels_match (ext : External) (Emin Emax : ℚ) (Esize : Nat) (ii : Bool)
    (xini : ℚ) (s : NuSQUIDS) (hNT : s.NT = .neutrino ∨ s.NT = .antineutrino ∨ s.NT = .both)
    (hmax : ¬ s.numneu > ext.SQUIDS_MAX_HILBERT_DIM) (hE : ¬ Emax < Emin) (hS : Esize ≠ 0)
    (h2 : 2 ≤ s.numneu) :
    ∃ t, init ext Emin Emax Esize ii xini s = .ok t ∧ ChannelsMatchType t := by
  obtain ⟨t, h1, _, _, _, h5, _, h7, _⟩ := init_dims ext Emin Emax Esize ii xini s hNT hmax hE hS h2
  refine ⟨t, h1, ?_⟩
  intro hb
  rw [h5] at hb
  rw [h7, if_neg hb]

/-- The object that the single-energy `init` returns has a single channel. -/
theorem init1_channels_match (ext : External) (xini : ℚ) (s : NuSQUIDS)
    (hNT : s.NT = .neutrino ∨ s.NT = .antineutrino)
    (hmax : ¬ s.numneu > ext.SQUIDS_MAX_HILBERT_DIM) (h2 : 2 ≤ s.numneu) :
    ∃ t, init1 ext xini s = .ok t ∧ ChannelsMatchType t := by
  obtain ⟨t, e, k, _⟩ := init1_chain ext
    { ini ext 1 s.numneu 1 0 xini { s with ne := 1, nrhos := 1, nsun := s.numneu } with
      CoherentRhoTerms := true } h2
  refine ⟨t, ?_, ?_⟩
  · unfold init1
    simp only [hNT, if_true, hmax, if_false]
    exact e
  · intro _
    rw [k.2.2.1]
    exact Nat.le_refl 1

end nusquids
